import Mathlib

/-!
# OptiMetric: measurement and match scoring (`script.js`)

A shallow embedding of the core of `script.js`: `circularity`, `measurePerimeter`,
`computeMatch`, the reason classification of `addToHistory`, and the state change made by
`handleImage`.

Numbers.  A JavaScript number is an IEEE 754 binary64 value.  A finite one is modelled by
`F64`: a rational that is a double (53 significant bits, the subnormal grid `2^-1074` at the
bottom, magnitude below `2^1024`).  `Num` adds `NaN`, `+Infinity` and `-Infinity`.  Every
arithmetic operation computes the exact rational result and rounds it to the nearest double,
ties to even (`fl`), or to an infinity on overflow (`Num.round`).  The one thing left out is
the sign of zero: `+0` and `-0` are identified, and a zero divisor counts as `+0`.

OpenCV.  The image pipeline (`cvtColor`, `threshold`, `morphologyEx`, `findContours`) and the
three geometric queries `cv.contourArea`, `cv.arcLength`, `cv.minEnclosingCircle` are library
code.  A contour is therefore represented by the three finite doubles those queries return
for it, and `measurePerimeter` starts from the contour vector that `findContours` produced.
-/

namespace OptiMetric

/-! ## Binary64 rounding -/

/-- Rounding of a rational to the nearest integer, a tie going to the even neighbour. -/
def rne (y : ℚ) : ℤ :=
  let f := ⌊y⌋
  if y - f < 1 / 2 then f
  else if 1 / 2 < y - f then f + 1
  else if f % 2 = 0 then f else f + 1

/-- The exponent `e` of the binary64 grid `2^e` that holds the doubles around a magnitude `x`:
53 significant bits for a normal number, and the fixed grid `2^-1074` of the subnormal numbers
below. -/
def ulpExp (x : ℚ) : ℤ := max (Int.log 2 x - 52) (-1074)

/-- Rounding of a magnitude `x ≥ 0` to the nearest point of its binary64 grid, ties to even. -/
def flAbs (x : ℚ) : ℚ := rne (x / 2 ^ ulpExp x) * 2 ^ ulpExp x

/-- Rounding of a real result to binary64, round-to-nearest, ties-to-even, before the overflow
check: the sign is kept and the magnitude is rounded. -/
def fl (x : ℚ) : ℚ := if x < 0 then -flAbs (-x) else flAbs x

/-! ## JavaScript numbers -/

/-- A finite double: a rational that the rounding `fl` produces and whose magnitude is below
`2^1024`.  The two zeros `+0` and `-0` are identified. -/
structure F64 where
  val : ℚ
  rounded : ∃ y : ℚ, fl y = val
  finite : |val| < 2 ^ 1024

/-- Two finite doubles are equal when their values are. -/
instance F64.decEq : DecidableEq F64 := fun a b =>
  decidable_of_iff (a.val = b.val)
    ⟨fun h => by cases a; cases b; simp only at h; subst h; rfl, fun h => by rw [h]⟩

/-- The finite double written as the decimal literal `q`: the double nearest to `q`.  (A
literal too large for a finite double is not used in `script.js`; it is sent to `0` here.) -/
def F64.lit (q : ℚ) : F64 :=
  if h : |fl q| < 2 ^ 1024 then ⟨fl q, ⟨q, rfl⟩, h⟩
  else ⟨0, ⟨0, by simp [fl, flAbs, rne]⟩, by norm_num⟩

/-- A JavaScript number: `NaN`, `-Infinity`, a finite double, or `+Infinity`. -/
inductive Num where
  | nan
  | ninf
  | fin (d : F64)
  | pinf
  deriving DecidableEq

namespace Num

/-- The number that an arithmetic operation returns when its exact result is `x`: the nearest
double, or an infinity when that double would not be finite. -/
def round (x : ℚ) : Num :=
  if h : |fl x| < 2 ^ 1024 then fin ⟨fl x, ⟨x, rfl⟩, h⟩
  else if 0 < x then pinf else ninf

/-- Addition `a + b` on JavaScript numbers. -/
def add : Num → Num → Num
  | nan, _ => nan
  | _, nan => nan
  | fin a, fin b => round (a.val + b.val)
  | fin _, pinf => pinf
  | fin _, ninf => ninf
  | pinf, ninf => nan
  | pinf, _ => pinf
  | ninf, pinf => nan
  | ninf, _ => ninf

/-- Subtraction `a - b` on JavaScript numbers. -/
def sub : Num → Num → Num
  | nan, _ => nan
  | _, nan => nan
  | fin a, fin b => round (a.val - b.val)
  | fin _, pinf => ninf
  | fin _, ninf => pinf
  | pinf, pinf => nan
  | pinf, _ => pinf
  | ninf, ninf => nan
  | ninf, _ => ninf

/-- Multiplication `a * b` on JavaScript numbers. -/
def mul : Num → Num → Num
  | nan, _ => nan
  | _, nan => nan
  | fin a, fin b => round (a.val * b.val)
  | fin a, pinf => if a.val = 0 then nan else if 0 < a.val then pinf else ninf
  | fin a, ninf => if a.val = 0 then nan else if 0 < a.val then ninf else pinf
  | pinf, fin b => if b.val = 0 then nan else if 0 < b.val then pinf else ninf
  | ninf, fin b => if b.val = 0 then nan else if 0 < b.val then ninf else pinf
  | pinf, pinf => pinf
  | pinf, ninf => ninf
  | ninf, pinf => ninf
  | ninf, ninf => pinf

/-- Division `a / b` on JavaScript numbers; a zero divisor is taken to be `+0`. -/
def div : Num → Num → Num
  | nan, _ => nan
  | _, nan => nan
  | fin a, fin b =>
      if b.val = 0 then (if a.val = 0 then nan else if 0 < a.val then pinf else ninf)
      else round (a.val / b.val)
  | fin _, pinf => fin (F64.lit 0)
  | fin _, ninf => fin (F64.lit 0)
  | pinf, fin b => if 0 ≤ b.val then pinf else ninf
  | ninf, fin b => if 0 ≤ b.val then ninf else pinf
  | pinf, pinf => nan
  | pinf, ninf => nan
  | ninf, pinf => nan
  | ninf, ninf => nan

/-- The function `Math.abs(a)`.  The magnitude of a double is a double, so the rounding in
`round` leaves it as it is. -/
def abs : Num → Num
  | nan => nan
  | ninf => pinf
  | pinf => pinf
  | fin a => round |a.val|

/-- The comparison `a < b`; false as soon as one side is `NaN`. -/
def lt : Num → Num → Bool
  | nan, _ => false
  | _, nan => false
  | fin a, fin b => decide (a.val < b.val)
  | ninf, ninf => false
  | ninf, _ => true
  | pinf, _ => false
  | fin _, pinf => true
  | fin _, ninf => false

/-- The comparison `a > b`. -/
def gt (a b : Num) : Bool := lt b a

/-- The comparison `a >= b`; false as soon as one side is `NaN`. -/
def ge : Num → Num → Bool
  | nan, _ => false
  | _, nan => false
  | a, b => !(lt a b)

/-- The function `Math.max(a, b)`: `NaN` if either argument is `NaN`, else the larger one. -/
def max : Num → Num → Num
  | nan, _ => nan
  | _, nan => nan
  | a, b => if lt a b then b else a

/-- The operator `a || b`: `a` unless it is zero or `NaN`, else `b`. -/
def or : Num → Num → Num
  | nan, b => b
  | fin a, b => if a.val = 0 then b else fin a
  | a, _ => a

end Num

/-! ## Configuration constants -/

/-- The constant `COIN_DIAMETER_MM = 24.0`, the true diameter of the coin in millimetres. -/
def COIN_DIAMETER_MM : F64 := F64.lit 24

/-- The constant `MIN_CONTOUR_AREA = 500`, in square pixels. -/
def MIN_CONTOUR_AREA : F64 := F64.lit 500

/-- The constant `PASS_THRESHOLD = 95.0`, in percent. -/
def PASS_THRESHOLD : F64 := F64.lit 95

/-- The constant `Math.PI`: the double nearest to π, `884279719003555 / 2^48`. -/
def Math_PI : F64 := F64.lit (884279719003555 / 281474976710656)

/-! ## Match scoring -/

/-- The function `computeMatch(product, master)` of `script.js`:
`diff = Math.abs(product - master); return Math.max(0, 100 - (diff / master) * 100);` -/
def computeMatch (product master : Num) : Num :=
  let diff := Num.abs (Num.sub product master)
  Num.max (Num.fin (F64.lit 0))
    (Num.sub (Num.fin (F64.lit 100)) (Num.mul (Num.div diff master) (Num.fin (F64.lit 100))))

/-- The number `x` is a percentage in `[0, 100]`: finite, not negative, not above 100. -/
def InPercentRange : Num → Prop
  | Num.fin v => 0 ≤ v.val ∧ v.val ≤ 100
  | _ => False

/-- Membership in the percentage range can be computed. -/
instance InPercentRange.decide : DecidablePred InPercentRange
  | Num.fin v => inferInstanceAs (Decidable (0 ≤ v.val ∧ v.val ≤ 100))
  | Num.nan => isFalse (fun h => h)
  | Num.ninf => isFalse (fun h => h)
  | Num.pinf => isFalse (fun h => h)

/-- The number `x` is `+Infinity` or a finite double that is at least `c`. -/
def Num.AtLeast (c : ℚ) (x : Num) : Prop :=
  x = Num.pinf ∨ ∃ d : F64, x = Num.fin d ∧ c ≤ d.val

/-- The number `x` is `-Infinity` or a finite double that is at most `c`. -/
def Num.AtMost (c : ℚ) (x : Num) : Prop :=
  x = Num.ninf ∨ ∃ d : F64, x = Num.fin d ∧ d.val ≤ c

/-! ## Formatting -/

/-- The integer `n` for which `n / 10` is nearest to the magnitude `x`, the larger one when two
are equally near. -/
def tenths (x : ℚ) : ℕ := (⌊x * 10 + 1 / 2⌋).toNat

/-- The digits that `toFixed(1)` prints for a magnitude `x` with `0 ≤ x < 10^21`: with `n` the
integer `tenths x`, the decimal digits of `n` with a point before the last one, padded to
`0.d` when `n < 10`. -/
def fixedDigits (x : ℚ) : String :=
  let n : ℕ := tenths x
  toString (n / 10) ++ "." ++ toString (n % 10)

/-- The method call `x.toFixed(1)`.  A non-finite `x` prints by name; otherwise the sign is
split off and the magnitude is printed by `fixedDigits`, except that a magnitude of `10^21` or
more is printed by `Number::toString`, which is taken as the parameter `toStr`. -/
def toFixed1 (toStr : ℚ → String) : Num → String
  | Num.nan => "NaN"
  | Num.pinf => "Infinity"
  | Num.ninf => "-Infinity"
  | Num.fin x =>
      let s := if x.val < 0 then "-" else ""
      let x := if x.val < 0 then -x.val else x.val
      if 10 ^ 21 ≤ x then s ++ toStr x else s ++ fixedDigits x

/-- The reason computed in `addToHistory(imgSrc, match, passed, productP, masterP)`. -/
def historyReason (toStr : ℚ → String) (matchPct : Num) (passed : Bool)
    (productP masterP : Num) : String :=
  if !passed then
    let diff := Num.sub productP masterP
    let percentDiff :=
      toFixed1 toStr (Num.mul (Num.div diff masterP) (Num.fin (F64.lit 100)))
    if Num.gt diff (Num.fin (F64.lit 0)) then "Too Large (+" ++ percentDiff ++ "%)"
    else "Too Small (" ++ percentDiff ++ "%)"
  else if Num.lt matchPct (Num.fin (F64.lit 100)) then "Within Tolerance"
  else "Perfect Match"

/-! ## Contours and measurement -/

/-- One contour of the vector filled by `cv.findContours`, given by what OpenCV reports for
it: `cv.contourArea(c)`, `cv.arcLength(c, true)` and `cv.minEnclosingCircle(c).radius`, three
finite doubles. -/
structure Contour where
  contourArea : F64
  arcLength : F64
  enclosingRadius : F64
  deriving DecidableEq

/-- The object returned by `contours.get(i)`: the contour in slot `i`.  Object identity
(`!==`) is identity of slots. -/
structure Handle where
  slot : ℕ
  shape : Contour
  deriving DecidableEq

/-- What `measurePerimeter` can throw: the string `"Not enough contours"`, or the error raised
when element `[0]` of an empty array is used. -/
inductive Thrown where
  | notEnoughContours
  | typeError
  deriving DecidableEq

/-- The function `circularity(c)`:
`peri === 0 ? 0 : 4 * Math.PI * area / (peri * peri)`, evaluated from left to right in
doubles. -/
def circularity (c : Handle) : Num :=
  let area := c.shape.contourArea
  let peri := c.shape.arcLength
  if peri.val = 0 then Num.fin (F64.lit 0)
  else
    Num.div (Num.mul (Num.mul (Num.fin (F64.lit 4)) (Num.fin Math_PI)) (Num.fin area))
      (Num.mul (Num.fin peri) (Num.fin peri))

/-- The loop `for (i = 0; i < contours.size(); i++)` of `measurePerimeter`, from slot `i` on:
`if (cv.contourArea(c) > MIN_CONTOUR_AREA) valid.push(c)`. -/
def validFrom (i : ℕ) : List Contour → List Handle
  | [] => []
  | c :: rest =>
      if Num.gt (Num.fin c.contourArea) (Num.fin MIN_CONTOUR_AREA) then
        ⟨i, c⟩ :: validFrom (i + 1) rest
      else validFrom (i + 1) rest

/-- The array `valid` of `measurePerimeter`. -/
def validContours (contours : List Contour) : List Handle :=
  validFrom 0 contours

/-- Insertion of `x` in front of the first element it does not have to follow: `x` goes
behind `y` only when `cmp(x, y) > 0`. -/
def sortInsert {α : Type} (cmp : α → α → Num) (x : α) : List α → List α
  | [] => [x]
  | y :: ys =>
      if Num.gt (cmp x y) (Num.fin (F64.lit 0)) then y :: sortInsert cmp x ys
      else x :: y :: ys

/-- The method `Array.prototype.sort(cmp)`: a stable sort, `a` staying before `b` unless
`cmp(a, b) > 0` (a comparator result of `NaN` counts as `0`).  For a consistent comparator
the result of any stable sort is the same. -/
def arraySort {α : Type} (cmp : α → α → Num) : List α → List α
  | [] => []
  | x :: xs => sortInsert cmp x (arraySort cmp xs)

/-- The record `{ c, score, area }` built by the `map` in `measurePerimeter`. -/
structure Scored where
  c : Handle
  score : Num
  area : F64

/-- The `map` callback:
`c => ({ c, score: Math.abs(circularity(c) - 1), area: cv.contourArea(c) })`. -/
def scoreOf (c : Handle) : Scored :=
  { c := c
    score := Num.abs (Num.sub (circularity c) (Num.fin (F64.lit 1)))
    area := c.shape.contourArea }

/-- The comparator `(a, b) => a.score - b.score || b.area - a.area`. -/
def coinOrder (a b : Scored) : Num :=
  Num.or (Num.sub a.score b.score) (Num.sub (Num.fin b.area) (Num.fin a.area))

/-- The comparator `(a, b) => cv.contourArea(b) - cv.contourArea(a)`. -/
def areaOrder (a b : Handle) : Num :=
  Num.sub (Num.fin b.shape.contourArea) (Num.fin a.shape.contourArea)

/-- The coin of `measurePerimeter`: `valid.map(...).sort(...)[0].c`; `none` when element `[0]`
does not exist. -/
def selectCoin (valid : List Handle) : Option Handle :=
  ((arraySort coinOrder (valid.map scoreOf)).head?).map Scored.c

/-- The measured object of `measurePerimeter`:
`valid.filter(c => c !== coin).sort(...)[0]`; `none` when element `[0]` does not exist. -/
def selectObject (valid : List Handle) (coin : Handle) : Option Handle :=
  (arraySort areaOrder (valid.filter fun c => c.slot ≠ coin.slot)).head?

/-- The function `measurePerimeter(src)`, from the contour vector on. -/
def measurePerimeter (contours : List Contour) : Except Thrown Num :=
  let valid := validContours contours
  if valid.length < 2 then Except.error Thrown.notEnoughContours
  else
    match selectCoin valid with
    | none => Except.error Thrown.typeError
    | some coin =>
        let pxPerMM :=
          Num.div (Num.mul (Num.fin (F64.lit 2)) (Num.fin coin.shape.enclosingRadius))
            (Num.fin COIN_DIAMETER_MM)
        match selectObject valid coin with
        | none => Except.error Thrown.typeError
        | some object =>
            let periPx := Num.fin object.shape.arcLength
            Except.ok (Num.div periPx pxPerMM)

/-- The place of a score in the order of the scores: its value, with `+Infinity` on top. -/
def scoreKey : Num → WithTop ℚ
  | Num.fin d => (d.val : WithTop ℚ)
  | _ => ⊤

/-! ## Session state -/

/-- One row of the history table. -/
structure Row where
  count : ℕ
  matchPct : Num
  passed : Bool
  reason : String

/-- What the status line shows. -/
inductive Status where
  | ready
  | masterStored
  | verdict (passed : Bool) (matchPct : Num)
  | detectionFailed

/-- The state of the page: the globals `masterPerimeter` (`none` is `null`) and
`measurementCount`, whether the product button is enabled, the status line and the rows of the
history table, newest first. -/
structure Session where
  masterPerimeter : Option Num
  measurementCount : ℕ
  productEnabled : Bool
  status : Status
  history : List Row

/-- The number a stored master counts as in arithmetic: `null` converts to `0`. -/
def toNumber : Option Num → Num
  | none => Num.fin (F64.lit 0)
  | some x => x

/-- The function `addToHistory(imgSrc, match, passed, productP, masterP)`: the counter is
incremented and a row is inserted at the top of the table. -/
def addToHistory (toStr : ℚ → String) (s : Session) (matchPct : Num) (passed : Bool)
    (productP masterP : Num) : Session :=
  let count := s.measurementCount + 1
  { s with
    measurementCount := count
    history := ⟨count, matchPct, passed, historyReason toStr matchPct passed productP masterP⟩
      :: s.history }

/-- The function `handleImage(e, isMaster)` with the `onload` callback it installs.  `capture`
is `none` when no file was chosen, else the contour vector found in the image.  The preview
image and the two status lights are presentation and are left out. -/
def handleImage (toStr : ℚ → String) (s : Session) (capture : Option (List Contour))
    (isMaster : Bool) : Session :=
  match capture with
  | none => s
  | some contours =>
      match measurePerimeter contours with
      | Except.ok perimeter =>
          if isMaster then
            { s with
              masterPerimeter := some perimeter
              productEnabled := true
              status := Status.masterStored }
          else
            let master := toNumber s.masterPerimeter
            let matchPct := computeMatch perimeter master
            let passed := Num.ge matchPct (Num.fin PASS_THRESHOLD)
            addToHistory toStr { s with status := Status.verdict passed matchPct }
              matchPct passed perimeter master
      | Except.error _ => { s with status := Status.detectionFailed }

/-! ## Sample contours -/

/-- A near-perfect circle of radius 50 px. -/
def sampleCoin : Contour :=
  { contourArea := F64.lit 7850, arcLength := F64.lit 314, enclosingRadius := F64.lit 50 }

/-- A speck below the noise floor. -/
def sampleNoise : Contour :=
  { contourArea := F64.lit 120, arcLength := F64.lit 40, enclosingRadius := F64.lit 7 }

/-- A product outline with a perimeter of 300 px. -/
def sampleProduct : Contour :=
  { contourArea := F64.lit 5000, arcLength := F64.lit 300, enclosingRadius := F64.lit 60 }

/-- An elongated outline whose area is close to that of `sampleCoin`. -/
def sampleElongated : Contour :=
  { contourArea := F64.lit 8000, arcLength := F64.lit 480, enclosingRadius := F64.lit 110 }

/-- A small outline with `area / perimeter^2 = 607 / 10000`. -/
def sampleSmall : Contour :=
  { contourArea := F64.lit 607, arcLength := F64.lit 100, enclosingRadius := F64.lit 17 }

/-- An outline three times as large with the same ratio `area / perimeter^2`. -/
def sampleLarge : Contour :=
  { contourArea := F64.lit 5463, arcLength := F64.lit 300, enclosingRadius := F64.lit 51 }

/-- An outline whose area is exactly the noise floor. -/
def sampleBorder : Contour :=
  { contourArea := F64.lit 500, arcLength := F64.lit 90, enclosingRadius := F64.lit 13 }

/-- A session in which a master of 72 mm is stored. -/
def sampleSession : Session :=
  { masterPerimeter := some (Num.fin (F64.lit 72))
    measurementCount := 0
    productEnabled := true
    status := Status.masterStored
    history := [] }

/-! ## Lemmas on rounding -/

theorem rne_of (y : ℚ) (n : ℤ) (h : |y - n| < 1 / 2) : rne y = n := by
  rw [abs_lt] at h
  unfold rne
  simp only
  by_cases hy : (n : ℚ) ≤ y
  · have hf : ⌊y⌋ = n := by
      rw [Int.floor_eq_iff]
      exact ⟨hy, by linarith⟩
    rw [hf, if_pos (by linarith)]
  · have hf : ⌊y⌋ = n - 1 := by
      rw [Int.floor_eq_iff]
      push_cast
      constructor <;> linarith
    rw [hf]
    push_cast
    rw [if_neg (by linarith), if_pos (by linarith)]
    ring

theorem rne_intCast (n : ℤ) : rne (n : ℚ) = n :=
  rne_of _ n (by simp)

theorem rne_floor_or (y : ℚ) : rne y = ⌊y⌋ ∨ rne y = ⌊y⌋ + 1 := by
  unfold rne
  simp only
  split
  · exact Or.inl rfl
  · split
    · exact Or.inr rfl
    · split
      · exact Or.inl rfl
      · exact Or.inr rfl

theorem rne_up_iff (y : ℚ) :
    rne y = ⌊y⌋ + 1 ↔ (1 / 2 < y - ⌊y⌋ ∨ (y - ⌊y⌋ = 1 / 2 ∧ ⌊y⌋ % 2 ≠ 0)) := by
  unfold rne
  simp only
  by_cases h1 : y - ⌊y⌋ < 1 / 2
  · rw [if_pos h1]
    constructor
    · intro h
      omega
    · rintro (h | ⟨h, _⟩) <;> linarith
  · rw [if_neg h1]
    by_cases h2 : 1 / 2 < y - ⌊y⌋
    · rw [if_pos h2]
      exact ⟨fun _ => Or.inl h2, fun _ => rfl⟩
    · rw [if_neg h2]
      have heq : y - ⌊y⌋ = 1 / 2 := le_antisymm (not_lt.mp h2) (not_lt.mp h1)
      by_cases h3 : ⌊y⌋ % 2 = 0
      · rw [if_pos h3]
        constructor
        · intro h
          omega
        · rintro (h | ⟨_, h⟩)
          · exact absurd h h2
          · exact absurd h3 h
      · rw [if_neg h3]
        exact ⟨fun _ => Or.inr ⟨heq, h3⟩, fun _ => rfl⟩

theorem rne_mono (y z : ℚ) (h : y ≤ z) : rne y ≤ rne z := by
  have hf : ⌊y⌋ ≤ ⌊z⌋ := Int.floor_mono h
  rcases rne_floor_or y with hy | hy
  · rcases rne_floor_or z with hz | hz <;> omega
  · rcases lt_or_eq_of_le hf with hlt | heq
    · rcases rne_floor_or z with hz | hz <;> omega
    · have hz : rne z = ⌊z⌋ + 1 := by
        rw [rne_up_iff] at hy ⊢
        rw [← heq]
        rcases hy with hy | ⟨hy, hodd⟩
        · exact Or.inl (by linarith)
        · rcases lt_or_eq_of_le h with hlt | hyz
          · exact Or.inl (by linarith)
          · exact Or.inr ⟨by rw [← hyz]; exact hy, hodd⟩
      omega

theorem rne_le_of_le (y : ℚ) (n : ℤ) (h : y ≤ n) : rne y ≤ n := by
  have := rne_mono y n h
  rwa [rne_intCast] at this

theorem le_rne_of_le (y : ℚ) (n : ℤ) (h : (n : ℚ) ≤ y) : n ≤ rne y := by
  have := rne_mono n y h
  rwa [rne_intCast] at this

theorem two_zpow_pos (e : ℤ) : (0 : ℚ) < 2 ^ e := zpow_pos (by norm_num) e

theorem two_zpow_mono (a b : ℤ) (h : a ≤ b) : (2 : ℚ) ^ a ≤ 2 ^ b :=
  zpow_le_zpow_right₀ (by norm_num) h

theorem two_zpow_natCast (k : ℤ) (hk : 0 ≤ k) : (2 : ℚ) ^ k = ((2 ^ k.toNat : ℤ) : ℚ) := by
  conv_lhs => rw [← Int.toNat_of_nonneg hk]
  rw [zpow_natCast]
  push_cast
  rfl

theorem ulpExp_ge (x : ℚ) : -1074 ≤ ulpExp x := le_max_right _ _

theorem lt_two_zpow_ulpExp (x : ℚ) : x < 2 ^ (ulpExp x + 53) := by
  have h := Int.lt_zpow_succ_log_self (b := 2) (by norm_num) x
  have h2 : Int.log 2 x + 1 ≤ ulpExp x + 53 := by
    have := le_max_left (Int.log 2 x - 52) (-1074)
    unfold ulpExp
    omega
  exact lt_of_lt_of_le (by exact_mod_cast h) (two_zpow_mono _ _ h2)

theorem two_zpow_le_of_normal (x : ℚ) (hx : 0 < x) (h : -1074 < ulpExp x) :
    (2 : ℚ) ^ (ulpExp x + 52) ≤ x := by
  have hlog : ulpExp x = Int.log 2 x - 52 := by
    unfold ulpExp at h ⊢
    rcases max_cases (Int.log 2 x - 52) (-1074) with ⟨h1, _⟩ | ⟨h1, _⟩
    · exact h1
    · rw [h1] at h
      exact absurd h (lt_irrefl _)
  have := Int.zpow_log_le_self (b := 2) (by norm_num) hx
  rw [hlog]
  simpa using this

theorem ulpExp_mono (x y : ℚ) (hx : 0 < x) (h : x ≤ y) : ulpExp x ≤ ulpExp y := by
  unfold ulpExp
  have := Int.log_mono_right (b := 2) hx h
  exact max_le_max (by omega) le_rfl

theorem ulpExp_of (x : ℚ) (e : ℤ) (he : -1074 ≤ e) (h1 : 2 ^ (e + 52) ≤ x)
    (h2 : x < 2 ^ (e + 53)) : ulpExp x = e := by
  have hx : 0 < x := lt_of_lt_of_le (two_zpow_pos _) h1
  have hlog : Int.log 2 x = e + 52 := by
    apply le_antisymm
    · have := (Int.lt_zpow_iff_log_lt (b := 2) (by norm_num) hx (x := e + 53)).mp
        (by exact_mod_cast h2)
      omega
    · exact (Int.zpow_le_iff_le_log (b := 2) (by norm_num) hx).mp (by exact_mod_cast h1)
  unfold ulpExp
  rw [hlog]
  have : e + 52 - 52 = e := by ring
  rw [this]
  exact max_eq_left he

theorem ulpExp_subnormal (x : ℚ) (hx : 0 < x) (h2 : x < 2 ^ (-1022 : ℤ)) :
    ulpExp x = -1074 := by
  unfold ulpExp
  apply max_eq_right
  have := (Int.lt_zpow_iff_log_lt (b := 2) (by norm_num) hx (x := -1022)).mp
    (by exact_mod_cast h2)
  omega

theorem flAbs_zero : flAbs 0 = 0 := by
  simp [flAbs, rne_intCast 0, show rne 0 = 0 from by simpa using rne_intCast 0]

theorem flAbs_nonneg (x : ℚ) (hx : 0 ≤ x) : 0 ≤ flAbs x := by
  unfold flAbs
  have h1 : (0 : ℚ) ≤ x / 2 ^ ulpExp x := div_nonneg hx (two_zpow_pos _).le
  have h2 : (0 : ℤ) ≤ rne (x / 2 ^ ulpExp x) := le_rne_of_le _ 0 (by simpa using h1)
  exact mul_nonneg (by exact_mod_cast h2) (two_zpow_pos _).le

theorem flAbs_of (x : ℚ) (e n : ℤ) (he : -1074 ≤ e) (h1 : 2 ^ (e + 52) ≤ x)
    (h2 : x < 2 ^ (e + 53)) (hn : |x / 2 ^ e - n| < 1 / 2) : flAbs x = n * 2 ^ e := by
  unfold flAbs
  rw [ulpExp_of x e he h1 h2, rne_of _ n hn]

theorem flAbs_grid (x : ℚ) (e n : ℤ) (he : -1074 ≤ e) (hn0 : 0 ≤ n) (hn : n < 2 ^ 53)
    (hx : x = n * 2 ^ e) : flAbs x = x := by
  rcases eq_or_lt_of_le hn0 with h0 | hpos
  · rw [hx, ← h0]
    simpa using flAbs_zero
  have hxpos : 0 < x := by
    rw [hx]
    exact mul_pos (by exact_mod_cast hpos) (two_zpow_pos _)
  have hlt : x < 2 ^ (e + 53) := by
    rw [hx, zpow_add₀ (by norm_num : (2 : ℚ) ≠ 0), mul_comm ((2 : ℚ) ^ e)]
    apply mul_lt_mul_of_pos_right _ (two_zpow_pos _)
    have h : ((n : ℤ) : ℚ) < ((2 ^ 53 : ℤ) : ℚ) := by exact_mod_cast hn
    norm_num at h ⊢
    exact h
  have hu : ulpExp x ≤ e := by
    unfold ulpExp
    apply max_le _ he
    have := (Int.lt_zpow_iff_log_lt (b := 2) (by norm_num) hxpos (x := e + 53)).mp
      (by exact_mod_cast hlt)
    omega
  obtain ⟨u, hu2⟩ : ∃ u, ulpExp x = u := ⟨_, rfl⟩
  rw [hu2] at hu
  have hk : 0 ≤ e - u := by omega
  have hq : x / 2 ^ u = ((n * 2 ^ (e - u).toNat : ℤ) : ℚ) := by
    rw [hx, mul_div_assoc, ← zpow_sub₀ (by norm_num : (2 : ℚ) ≠ 0), two_zpow_natCast _ hk]
    push_cast
    rfl
  unfold flAbs
  rw [hu2, hq, rne_intCast, ← hq]
  exact div_mul_cancel₀ _ (two_zpow_pos _).ne.symm

theorem flAbs_grid_le (x : ℚ) (e n : ℤ) (he : -1074 ≤ e) (hn0 : 0 ≤ n) (hn : n ≤ 2 ^ 53)
    (hx : x = n * 2 ^ e) : flAbs x = x := by
  rcases lt_or_eq_of_le hn with h | h
  · exact flAbs_grid x e n he hn0 h hx
  · apply flAbs_grid x (e + 1) (2 ^ 52) (by omega) (by norm_num) (by norm_num)
    rw [hx, h, zpow_add₀ (by norm_num : (2 : ℚ) ≠ 0)]
    push_cast
    ring

theorem flAbs_repr (x : ℚ) (hx : 0 ≤ x) :
    ∃ n : ℤ, 0 ≤ n ∧ n ≤ 2 ^ 53 ∧ flAbs x = n * 2 ^ ulpExp x := by
  refine ⟨rne (x / 2 ^ ulpExp x), ?_, ?_, rfl⟩
  · exact le_rne_of_le _ 0 (by simpa using div_nonneg hx (two_zpow_pos _).le)
  · apply rne_le_of_le
    have h := lt_two_zpow_ulpExp x
    rw [zpow_add₀ (by norm_num : (2 : ℚ) ≠ 0)] at h
    rw [div_le_iff₀ (two_zpow_pos _)]
    push_cast
    have : (2 : ℚ) ^ (53 : ℤ) = 2 ^ 53 := by norm_num
    rw [this] at h
    linarith

theorem flAbs_idem (x : ℚ) (hx : 0 ≤ x) : flAbs (flAbs x) = flAbs x := by
  obtain ⟨n, hn0, hn, h⟩ := flAbs_repr x hx
  exact flAbs_grid_le _ _ n (ulpExp_ge x) hn0 hn h

theorem flAbs_mono (x y : ℚ) (hx : 0 ≤ x) (h : x ≤ y) : flAbs x ≤ flAbs y := by
  rcases eq_or_lt_of_le hx with h0 | hpos
  · rw [← h0, flAbs_zero]
    exact flAbs_nonneg y (hx.trans h)
  have hu := ulpExp_mono x y hpos h
  rcases eq_or_lt_of_le hu with heq | hlt
  · unfold flAbs
    rw [← heq]
    apply mul_le_mul_of_nonneg_right _ (two_zpow_pos _).le
    have := rne_mono (x / 2 ^ ulpExp x) (y / 2 ^ ulpExp x)
      (div_le_div_of_nonneg_right h (two_zpow_pos _).le)
    exact_mod_cast this
  · have hy1 : -1074 < ulpExp y := lt_of_le_of_lt (ulpExp_ge x) hlt
    have hB := two_zpow_le_of_normal y (hpos.trans_le h) hy1
    have hxB : x ≤ 2 ^ (ulpExp y + 52) :=
      (lt_two_zpow_ulpExp x).le.trans (two_zpow_mono _ _ (by omega))
    have hk : 0 ≤ ulpExp y + 52 - ulpExp x := by omega
    have h1 : flAbs x ≤ 2 ^ (ulpExp y + 52) := by
      unfold flAbs
      have hq : x / 2 ^ ulpExp x ≤ ((2 ^ (ulpExp y + 52 - ulpExp x).toNat : ℤ) : ℚ) := by
        rw [← two_zpow_natCast _ hk, zpow_sub₀ (by norm_num : (2 : ℚ) ≠ 0)]
        exact div_le_div_of_nonneg_right hxB (two_zpow_pos _).le
      have hr := rne_le_of_le _ _ hq
      have hr2 : ((rne (x / 2 ^ ulpExp x) : ℤ) : ℚ) ≤ 2 ^ (ulpExp y + 52 - ulpExp x) := by
        rw [two_zpow_natCast _ hk]
        exact_mod_cast hr
      calc (rne (x / 2 ^ ulpExp x) : ℚ) * 2 ^ ulpExp x
          ≤ 2 ^ (ulpExp y + 52 - ulpExp x) * 2 ^ ulpExp x :=
            mul_le_mul_of_nonneg_right hr2 (two_zpow_pos _).le
        _ = 2 ^ (ulpExp y + 52) := by
            rw [← zpow_add₀ (by norm_num : (2 : ℚ) ≠ 0)]
            congr 1
            ring
    have h2 : (2 : ℚ) ^ (ulpExp y + 52) ≤ flAbs y := by
      unfold flAbs
      have hq : (((2 : ℤ) ^ 52 : ℤ) : ℚ) ≤ y / 2 ^ ulpExp y := by
        rw [le_div_iff₀ (two_zpow_pos _)]
        rw [zpow_add₀ (by norm_num : (2 : ℚ) ≠ 0)] at hB
        push_cast
        have : (2 : ℚ) ^ (52 : ℤ) = 2 ^ 52 := by norm_num
        rw [this] at hB
        linarith
      have hr := le_rne_of_le _ _ hq
      have hr2 : (2 : ℚ) ^ (52 : ℤ) ≤ ((rne (y / 2 ^ ulpExp y) : ℤ) : ℚ) := by
        have : (2 : ℚ) ^ (52 : ℤ) = (((2 : ℤ) ^ 52 : ℤ) : ℚ) := by norm_num
        rw [this]
        exact_mod_cast hr
      calc (2 : ℚ) ^ (ulpExp y + 52) = 2 ^ (52 : ℤ) * 2 ^ ulpExp y := by
            rw [← zpow_add₀ (by norm_num : (2 : ℚ) ≠ 0)]
            congr 1
            ring
        _ ≤ (rne (y / 2 ^ ulpExp y) : ℚ) * 2 ^ ulpExp y :=
            mul_le_mul_of_nonneg_right hr2 (two_zpow_pos _).le
    exact h1.trans h2

theorem fl_zero : fl 0 = 0 := by
  simp [fl, flAbs_zero]

theorem fl_of_nonneg (x : ℚ) (hx : 0 ≤ x) : fl x = flAbs x := by
  simp [fl, not_lt.mpr hx]

theorem fl_neg (x : ℚ) : fl (-x) = -fl x := by
  rcases lt_trichotomy x 0 with h | h | h
  · have h2 : ¬ (-x < 0) := by linarith
    simp [fl, h, h2]
  · subst h
    simp [fl_zero]
  · have h2 : ¬ (x < 0) := by linarith
    have h3 : -x < 0 := by linarith
    simp [fl, h2, h3]

theorem fl_nonneg (x : ℚ) (hx : 0 ≤ x) : 0 ≤ fl x := by
  rw [fl_of_nonneg x hx]
  exact flAbs_nonneg x hx

theorem fl_nonpos (x : ℚ) (hx : x ≤ 0) : fl x ≤ 0 := by
  have := fl_nonneg (-x) (by linarith)
  rw [fl_neg] at this
  linarith

theorem fl_abs (x : ℚ) : fl |x| = |fl x| := by
  rcases le_total 0 x with h | h
  · rw [abs_of_nonneg h, abs_of_nonneg (fl_nonneg x h)]
  · rw [abs_of_nonpos h, abs_of_nonpos (fl_nonpos x h), fl_neg]

theorem fl_mono (x y : ℚ) (h : x ≤ y) : fl x ≤ fl y := by
  rcases le_total 0 x with hx | hx
  · rw [fl_of_nonneg x hx, fl_of_nonneg y (hx.trans h)]
    exact flAbs_mono x y hx h
  · rcases le_total 0 y with hy | hy
    · exact (fl_nonpos x hx).trans (fl_nonneg y hy)
    · have := flAbs_mono (-y) (-x) (by linarith) (by linarith)
      have hx2 := fl_neg x
      have hy2 := fl_neg y
      rw [fl_of_nonneg (-x) (by linarith)] at hx2
      rw [fl_of_nonneg (-y) (by linarith)] at hy2
      linarith

theorem fl_idem (x : ℚ) : fl (fl x) = fl x := by
  rcases le_total 0 x with hx | hx
  · rw [fl_of_nonneg x hx, fl_of_nonneg _ (flAbs_nonneg x hx), flAbs_idem x hx]
  · have h1 : fl x = -flAbs (-x) := by
      have := fl_neg x
      rw [fl_of_nonneg (-x) (by linarith)] at this
      linarith
    rw [h1, fl_neg, fl_of_nonneg _ (flAbs_nonneg _ (by linarith)),
      flAbs_idem _ (by linarith)]

theorem fl_grid (x : ℚ) (e n : ℤ) (he : -1074 ≤ e) (hn : |n| ≤ 2 ^ 53)
    (hx : x = n * 2 ^ e) : fl x = x := by
  rcases le_total 0 n with h0 | h0
  · have hx0 : 0 ≤ x := by
      rw [hx]
      exact mul_nonneg (by exact_mod_cast h0) (two_zpow_pos _).le
    rw [fl_of_nonneg x hx0]
    exact flAbs_grid_le x e n he h0 (by rwa [abs_of_nonneg h0] at hn) hx
  · have hx0 : 0 ≤ -x := by
      rw [hx, ← neg_mul]
      exact mul_nonneg (by exact_mod_cast (neg_nonneg.mpr h0)) (two_zpow_pos _).le
    have h1 : flAbs (-x) = -x :=
      flAbs_grid_le (-x) e (-n) he (by omega) (by rwa [abs_of_nonpos h0] at hn)
        (by rw [hx]; push_cast; ring)
    have h2 := fl_neg x
    rw [fl_of_nonneg (-x) hx0, h1] at h2
    linarith

theorem fl_intCast (n : ℤ) (hn : |n| ≤ 2 ^ 53) : fl (n : ℚ) = n :=
  fl_grid _ 0 n (by norm_num) hn (by simp)

theorem fl_two_zpow (k : ℤ) (hk : -1074 ≤ k) : fl (2 ^ k) = 2 ^ k :=
  fl_grid _ k 1 hk (by norm_num) (by simp)

theorem two_zpow_le_fl (x : ℚ) (k : ℤ) (hk : -1074 ≤ k) (h : 2 ^ k ≤ x) : 2 ^ k ≤ fl x := by
  have := fl_mono _ _ h
  rwa [fl_two_zpow k hk] at this

theorem fl_eval (x : ℚ) (e n : ℤ) (he : -1074 ≤ e) (h1 : 2 ^ (e + 52) ≤ |x|)
    (h2 : |x| < 2 ^ (e + 53)) (hn : |x / 2 ^ e - n| < 1 / 2) : fl x = n * 2 ^ e := by
  rcases le_total 0 x with hx | hx
  · rw [abs_of_nonneg hx] at h1 h2
    rw [fl_of_nonneg x hx]
    exact flAbs_of x e n he h1 h2 hn
  · rw [abs_of_nonpos hx] at h1 h2
    have h3 : flAbs (-x) = (-n : ℤ) * 2 ^ e := by
      apply flAbs_of (-x) e (-n) he h1 h2
      have : -x / 2 ^ e - ((-n : ℤ) : ℚ) = -(x / 2 ^ e - n) := by
        push_cast
        ring
      rw [this, abs_neg]
      exact hn
    have h4 := fl_neg x
    rw [fl_of_nonneg (-x) (by linarith), h3] at h4
    push_cast at h4
    linarith

/-! ## Lemmas on JavaScript numbers -/

theorem F64.eq_of_val (a b : F64) (h : a.val = b.val) : a = b := by
  cases a
  cases b
  simp only at h
  subst h
  rfl

theorem F64.fl_val (d : F64) : fl d.val = d.val := by
  obtain ⟨y, hy⟩ := d.rounded
  rw [← hy, fl_idem]

theorem F64.lit_val (q : ℚ) (h1 : fl q = q) (h2 : |q| < 2 ^ 1024) : (F64.lit q).val = q := by
  unfold F64.lit
  rw [dif_pos (by rw [h1]; exact h2)]
  exact h1

theorem F64.lit_val_self (d : F64) : F64.lit d.val = d :=
  F64.eq_of_val _ _ (F64.lit_val _ d.fl_val d.finite)

theorem F64.lit_int (n : ℤ) (hn : |n| ≤ 2 ^ 53) : (F64.lit n).val = n := by
  apply F64.lit_val _ (fl_intCast n hn)
  have h : |(n : ℚ)| ≤ 2 ^ 53 := by exact_mod_cast hn
  exact lt_of_le_of_lt h (by norm_num)

theorem Num.round_of (x r : ℚ) (h : fl x = r) (hr : |r| < 2 ^ 1024) :
    Num.round x = Num.fin (F64.lit r) := by
  unfold Num.round
  rw [dif_pos (by rw [h]; exact hr)]
  congr 1
  apply F64.eq_of_val
  rw [F64.lit_val r (by rw [← h, fl_idem]) hr]
  exact h

theorem Num.round_val (d : F64) : Num.round d.val = Num.fin d := by
  rw [Num.round_of _ _ d.fl_val d.finite, F64.lit_val_self]

theorem Num.round_cases (x : ℚ) :
    (∃ d : F64, Num.round x = Num.fin d ∧ d.val = fl x) ∨
    (0 < x ∧ Num.round x = Num.pinf) ∨ (x ≤ 0 ∧ Num.round x = Num.ninf) := by
  unfold Num.round
  by_cases h : |fl x| < 2 ^ 1024
  · rw [dif_pos h]
    exact Or.inl ⟨_, rfl, rfl⟩
  · rw [dif_neg h]
    by_cases hx : 0 < x
    · rw [if_pos hx]
      exact Or.inr (Or.inl ⟨hx, rfl⟩)
    · rw [if_neg hx]
      exact Or.inr (Or.inr ⟨not_lt.mp hx, rfl⟩)

theorem Num.add_fin (a b : F64) : Num.add (Num.fin a) (Num.fin b) = Num.round (a.val + b.val) :=
  rfl

theorem Num.sub_fin (a b : F64) : Num.sub (Num.fin a) (Num.fin b) = Num.round (a.val - b.val) :=
  rfl

theorem Num.mul_fin (a b : F64) : Num.mul (Num.fin a) (Num.fin b) = Num.round (a.val * b.val) :=
  rfl

theorem Num.div_fin (a b : F64) (hb : b.val ≠ 0) :
    Num.div (Num.fin a) (Num.fin b) = Num.round (a.val / b.val) := by
  simp only [Num.div, if_neg hb]

theorem Num.abs_fin (a : F64) : Num.abs (Num.fin a) = Num.round |a.val| := rfl

theorem Num.lt_fin (a b : F64) : Num.lt (Num.fin a) (Num.fin b) = decide (a.val < b.val) := rfl

theorem Num.gt_fin (a b : F64) : Num.gt (Num.fin a) (Num.fin b) = decide (b.val < a.val) := rfl

theorem Num.ge_fin (a b : F64) : Num.ge (Num.fin a) (Num.fin b) = decide (b.val ≤ a.val) := by
  by_cases h : a.val < b.val
  · simp [Num.ge, Num.lt, h]
  · simp [Num.ge, Num.lt, h, not_lt.mp h]

theorem Num.max_fin (a b : F64) :
    Num.max (Num.fin a) (Num.fin b) = if a.val < b.val then Num.fin b else Num.fin a := by
  simp [Num.max, Num.lt]

theorem Num.abs_fin_val (a : F64) : ∃ d : F64, Num.abs (Num.fin a) = Num.fin d ∧ d.val = |a.val| := by
  have h1 : fl |a.val| = |a.val| := by rw [fl_abs, a.fl_val]
  have h2 : |(|a.val|)| < 2 ^ 1024 := by rw [abs_abs]; exact a.finite
  exact ⟨F64.lit |a.val|, Num.round_of _ _ h1 h2, F64.lit_val _ h1 h2⟩

example : (F64.lit 100).val = 100 := F64.lit_int 100 (by norm_num)

theorem fl_eval_pos (x r : ℚ) (e n : ℤ) (he : -1074 ≤ e) (h1 : 2 ^ (e + 52) ≤ x)
    (h2 : x < 2 ^ (e + 53)) (h3 : (n : ℚ) - 1 / 2 < x / 2 ^ e) (h4 : x / 2 ^ e < n + 1 / 2)
    (hr : r = n * 2 ^ e) : fl x = r := by
  have hx : 0 < x := lt_of_lt_of_le (two_zpow_pos _) h1
  rw [hr]
  apply fl_eval x e n he (by rwa [abs_of_pos hx]) (by rwa [abs_of_pos hx])
  rw [abs_lt]
  constructor <;> linarith

theorem fl_eval_neg (x r : ℚ) (e n : ℤ) (he : -1074 ≤ e) (h1 : 2 ^ (e + 52) ≤ -x)
    (h2 : -x < 2 ^ (e + 53)) (h3 : (n : ℚ) - 1 / 2 < -x / 2 ^ e)
    (h4 : -x / 2 ^ e < n + 1 / 2) (hr : r = -(n * 2 ^ e)) : fl x = r := by
  have h := fl_eval_pos (-x) (n * 2 ^ e) e n he h1 h2 h3 h4 rfl
  rw [fl_neg] at h
  rw [hr, ← h, neg_neg]

theorem F64.lit_eq (q r : ℚ) (h : fl q = r) (hr : |r| < 2 ^ 1024) :
    F64.lit q = F64.lit r := by
  apply F64.eq_of_val
  rw [F64.lit_val r (by rw [← h, fl_idem]) hr]
  unfold F64.lit
  rw [dif_pos (by rw [h]; exact hr)]
  exact h

theorem Num.abs_fin_of_nonneg (a : F64) (h : 0 ≤ a.val) : Num.abs (Num.fin a) = Num.fin a := by
  rw [Num.abs_fin, abs_of_nonneg h, Num.round_val]

theorem Num.abs_fin_of_neg (a : F64) (r : ℚ) (h : a.val < 0) (hr : r = -a.val) :
    Num.abs (Num.fin a) = Num.fin (F64.lit r) := by
  have h1 : fl |a.val| = r := by rw [fl_abs, a.fl_val, abs_of_neg h, hr]
  have h2 : |r| < 2 ^ 1024 := by rw [hr, abs_neg]; exact a.finite
  rw [Num.abs_fin]
  exact Num.round_of _ _ h1 h2

theorem Num.round_pos (x r : ℚ) (e n : ℤ)
    (h : -1074 ≤ e ∧ 2 ^ (e + 52) ≤ x ∧ x < 2 ^ (e + 53) ∧ (n : ℚ) - 1 / 2 < x / 2 ^ e ∧
      x / 2 ^ e < n + 1 / 2 ∧ r = n * 2 ^ e ∧ -2 ^ 1024 < r ∧ r < 2 ^ 1024) :
    Num.round x = Num.fin (F64.lit r) :=
  Num.round_of _ _ (fl_eval_pos x r e n h.1 h.2.1 h.2.2.1 h.2.2.2.1 h.2.2.2.2.1 h.2.2.2.2.2.1)
    (abs_lt.mpr h.2.2.2.2.2.2)

theorem Num.round_neg (x r : ℚ) (e n : ℤ)
    (h : -1074 ≤ e ∧ 2 ^ (e + 52) ≤ -x ∧ -x < 2 ^ (e + 53) ∧ (n : ℚ) - 1 / 2 < -x / 2 ^ e ∧
      -x / 2 ^ e < n + 1 / 2 ∧ r = -(n * 2 ^ e) ∧ -2 ^ 1024 < r ∧ r < 2 ^ 1024) :
    Num.round x = Num.fin (F64.lit r) :=
  Num.round_of _ _ (fl_eval_neg x r e n h.1 h.2.1 h.2.2.1 h.2.2.2.1 h.2.2.2.2.1 h.2.2.2.2.2.1)
    (abs_lt.mpr h.2.2.2.2.2.2)

theorem F64.lit_pos (q r : ℚ) (e n : ℤ)
    (h : -1074 ≤ e ∧ 2 ^ (e + 52) ≤ q ∧ q < 2 ^ (e + 53) ∧ (n : ℚ) - 1 / 2 < q / 2 ^ e ∧
      q / 2 ^ e < n + 1 / 2 ∧ r = n * 2 ^ e ∧ -2 ^ 1024 < r ∧ r < 2 ^ 1024) :
    F64.lit q = F64.lit r ∧ (F64.lit r).val = r := by
  have h1 := fl_eval_pos q r e n h.1 h.2.1 h.2.2.1 h.2.2.2.1 h.2.2.2.2.1 h.2.2.2.2.2.1
  have h2 : |r| < 2 ^ 1024 := abs_lt.mpr h.2.2.2.2.2.2
  exact ⟨F64.lit_eq q r h1 h2, F64.lit_val r (by rw [← h1, fl_idem]) h2⟩

theorem F64.lit_neg (q r : ℚ) (e n : ℤ)
    (h : -1074 ≤ e ∧ 2 ^ (e + 52) ≤ -q ∧ -q < 2 ^ (e + 53) ∧ (n : ℚ) - 1 / 2 < -q / 2 ^ e ∧
      -q / 2 ^ e < n + 1 / 2 ∧ r = -(n * 2 ^ e) ∧ -2 ^ 1024 < r ∧ r < 2 ^ 1024) :
    F64.lit q = F64.lit r ∧ (F64.lit r).val = r := by
  have h1 := fl_eval_neg q r e n h.1 h.2.1 h.2.2.1 h.2.2.2.1 h.2.2.2.2.1 h.2.2.2.2.2.1
  have h2 : |r| < 2 ^ 1024 := abs_lt.mpr h.2.2.2.2.2.2
  exact ⟨F64.lit_eq q r h1 h2, F64.lit_val r (by rw [← h1, fl_idem]) h2⟩

theorem Num.round_cases_strict (x : ℚ) :
    (∃ d : F64, Num.round x = Num.fin d ∧ d.val = fl x) ∨
    (0 < x ∧ Num.round x = Num.pinf) ∨ (x < 0 ∧ Num.round x = Num.ninf) := by
  rcases Num.round_cases x with h | h | ⟨hx, h⟩
  · exact Or.inl h
  · exact Or.inr (Or.inl h)
  · rcases lt_or_eq_of_le hx with hlt | heq
    · exact Or.inr (Or.inr ⟨hlt, h⟩)
    · left
      subst heq
      exact ⟨F64.lit 0, Num.round_of 0 0 fl_zero (by norm_num),
        by rw [F64.lit_val 0 fl_zero (by norm_num), fl_zero]⟩

theorem Num.round_zero : Num.round 0 = Num.fin (F64.lit 0) :=
  Num.round_of 0 0 fl_zero (by norm_num)

theorem F64.lit_zero_val : (F64.lit 0).val = 0 := F64.lit_val 0 fl_zero (by norm_num)

theorem F64.lit_hundred_val : (F64.lit 100).val = 100 := by
  simpa using F64.lit_int 100 (by norm_num)

theorem F64.lit_95_val : (F64.lit 95).val = 95 := by
  simpa using F64.lit_int 95 (by norm_num)

/-- A number that is `+Infinity` or a finite double that is not negative. -/
theorem Num.round_nonneg (x : ℚ) (hx : 0 ≤ x) :
    Num.round x = Num.pinf ∨ ∃ d : F64, Num.round x = Num.fin d ∧ 0 ≤ d.val ∧ d.val = fl x := by
  rcases Num.round_cases_strict x with ⟨d, h, hd⟩ | ⟨_, h⟩ | ⟨hneg, _⟩
  · exact Or.inr ⟨d, h, by rw [hd]; exact fl_nonneg x hx, hd⟩
  · exact Or.inl h
  · exact absurd hx (not_le.mpr hneg)

theorem Num.abs_round_neg (x : ℚ) : Num.abs (Num.round (-x)) = Num.abs (Num.round x) := by
  unfold Num.round
  by_cases h : |fl x| < 2 ^ 1024
  · have h2 : |fl (-x)| < 2 ^ 1024 := by rw [fl_neg, abs_neg]; exact h
    rw [dif_pos h, dif_pos h2]
    simp only [Num.abs]
    rw [fl_neg, abs_neg]
  · have h2 : ¬ |fl (-x)| < 2 ^ 1024 := by rw [fl_neg, abs_neg]; exact h
    rw [dif_neg h, dif_neg h2]
    by_cases hx : 0 < x
    · have hx2 : ¬ 0 < -x := by linarith
      rw [if_pos hx, if_neg hx2]
      rfl
    · rw [if_neg hx]
      split <;> rfl

/-! ## Lemmas on `computeMatch` -/

theorem computeMatch_diff (p m : F64) :
    Num.abs (Num.sub (Num.fin p) (Num.fin m)) = Num.pinf ∨
    ∃ d : F64, Num.abs (Num.sub (Num.fin p) (Num.fin m)) = Num.fin d ∧
      d.val = |fl (p.val - m.val)| := by
  rw [Num.sub_fin]
  rcases Num.round_cases_strict (p.val - m.val) with ⟨d, h, hd⟩ | ⟨_, h⟩ | ⟨_, h⟩
  · right
    obtain ⟨d2, h2, hd2⟩ := Num.abs_fin_val d
    exact ⟨d2, by rw [h, h2], by rw [hd2, hd]⟩
  · left
    rw [h]
    rfl
  · left
    rw [h]
    rfl

theorem computeMatch_quot (a : Num) (m : F64) (hm : 0 < m.val)
    (ha : a = Num.pinf ∨ ∃ d : F64, a = Num.fin d ∧ 0 ≤ d.val) :
    Num.div a (Num.fin m) = Num.pinf ∨
    ∃ q : F64, Num.div a (Num.fin m) = Num.fin q ∧ 0 ≤ q.val := by
  rcases ha with rfl | ⟨d, rfl, hd⟩
  · left
    simp only [Num.div, if_pos hm.le]
  · rw [Num.div_fin d m hm.ne.symm]
    rcases Num.round_nonneg (d.val / m.val) (div_nonneg hd hm.le) with h | ⟨q, h, hq, _⟩
    · exact Or.inl h
    · exact Or.inr ⟨q, h, hq⟩

theorem computeMatch_scaled (q : Num)
    (hq : q = Num.pinf ∨ ∃ d : F64, q = Num.fin d ∧ 0 ≤ d.val) :
    Num.mul q (Num.fin (F64.lit 100)) = Num.pinf ∨
    ∃ t : F64, Num.mul q (Num.fin (F64.lit 100)) = Num.fin t ∧ 0 ≤ t.val := by
  rcases hq with rfl | ⟨d, rfl, hd⟩
  · left
    simp [Num.mul, F64.lit_hundred_val]
  · rw [Num.mul_fin, F64.lit_hundred_val]
    rcases Num.round_nonneg (d.val * 100) (mul_nonneg hd (by norm_num)) with h | ⟨t, h, ht, _⟩
    · exact Or.inl h
    · exact Or.inr ⟨t, h, ht⟩

theorem fl_hundred : fl 100 = 100 := by
  simpa using fl_intCast 100 (by norm_num)

theorem computeMatch_rest (t : Num)
    (ht : t = Num.pinf ∨ ∃ d : F64, t = Num.fin d ∧ 0 ≤ d.val) :
    Num.sub (Num.fin (F64.lit 100)) t = Num.ninf ∨
    ∃ u : F64, Num.sub (Num.fin (F64.lit 100)) t = Num.fin u ∧ u.val ≤ 100 := by
  rcases ht with rfl | ⟨d, rfl, hd⟩
  · left
    rfl
  · rw [Num.sub_fin, F64.lit_hundred_val]
    have hle : fl (100 - d.val) ≤ 100 := by
      have := fl_mono (100 - d.val) 100 (by linarith)
      rwa [fl_hundred] at this
    rcases Num.round_cases_strict (100 - d.val) with ⟨u, h, hu⟩ | ⟨hpos, h⟩ | ⟨_, h⟩
    · exact Or.inr ⟨u, h, by rw [hu]; exact hle⟩
    · exfalso
      have h0 := fl_nonneg _ hpos.le
      have hfin : |fl (100 - d.val)| < 2 ^ 1024 := by
        rw [abs_of_nonneg h0]
        exact lt_of_le_of_lt hle (by norm_num)
      unfold Num.round at h
      rw [dif_pos hfin] at h
      cases h
    · exact Or.inl h

theorem computeMatch_clamp (u : Num)
    (hu : u = Num.ninf ∨ ∃ d : F64, u = Num.fin d ∧ d.val ≤ 100) :
    InPercentRange (Num.max (Num.fin (F64.lit 0)) u) := by
  rcases hu with rfl | ⟨d, rfl, hd⟩
  · have : Num.max (Num.fin (F64.lit 0)) Num.ninf = Num.fin (F64.lit 0) := rfl
    rw [this]
    simp only [InPercentRange, F64.lit_zero_val]
    norm_num
  · rw [Num.max_fin, F64.lit_zero_val]
    by_cases h : 0 < d.val
    · rw [if_pos h]
      exact ⟨h.le, hd⟩
    · rw [if_neg h]
      simp only [InPercentRange, F64.lit_zero_val]
      norm_num

/-! ## Spacing of doubles -/

theorem double_repr (x : ℚ) (hx : 0 < x) (hfl : fl x = x) :
    ∃ N : ℤ, 1 ≤ N ∧ x = N * 2 ^ ulpExp x := by
  rw [fl_of_nonneg x hx.le] at hfl
  refine ⟨rne (x / 2 ^ ulpExp x), ?_, hfl.symm⟩
  by_contra hN
  have hN0 : rne (x / 2 ^ ulpExp x) ≤ 0 := by omega
  have h1 : ((rne (x / 2 ^ ulpExp x) : ℤ) : ℚ) ≤ 0 := by exact_mod_cast hN0
  have h2 : flAbs x ≤ 0 := mul_nonpos_of_nonpos_of_nonneg h1 (two_zpow_pos _).le
  linarith

theorem int_abs_ge_one (K : ℤ) (hK : K ≠ 0) : (1 : ℚ) ≤ |(K : ℚ)| := by
  have h : 1 ≤ |K| := Int.one_le_abs hK
  exact_mod_cast h

theorem two_zpow_split (a b : ℤ) : (2 : ℚ) ^ (a + b) = 2 ^ a * 2 ^ b :=
  zpow_add₀ (by norm_num) a b

theorem double_spacing (p m : ℚ) (hp : fl p = p) (hm : fl m = m) (hm0 : 0 < m)
    (hne : p ≠ m) : ∃ k : ℤ, -1074 ≤ k ∧ 2 ^ k ≤ |p - m| ∧ m ≤ 2 ^ (k + 53) := by
  obtain ⟨M, hM1, hMm⟩ := double_repr m hm0 hm
  obtain ⟨u, hu⟩ : ∃ u, ulpExp m = u := ⟨_, rfl⟩
  have hu0 : -1074 ≤ u := hu ▸ ulpExp_ge m
  have hmlt : m < 2 ^ (u + 53) := hu ▸ lt_two_zpow_ulpExp m
  rw [hu] at hMm
  have hupos := two_zpow_pos u
  have hMq : (1 : ℚ) ≤ M := by exact_mod_cast hM1
  have hmge : (2 : ℚ) ^ u ≤ m := by
    rw [hMm]
    calc (2 : ℚ) ^ u = 1 * 2 ^ u := (one_mul _).symm
      _ ≤ M * 2 ^ u := mul_le_mul_of_nonneg_right hMq hupos.le
  rcases le_or_lt p 0 with hp0 | hp0
  · refine ⟨u, hu0, ?_, hmlt.le⟩
    rw [abs_of_nonpos (by linarith)]
    linarith
  obtain ⟨P, hP1, hPp⟩ := double_repr p hp0 hp
  obtain ⟨v, hv⟩ : ∃ v, ulpExp p = v := ⟨_, rfl⟩
  have hplt : p < 2 ^ (v + 53) := hv ▸ lt_two_zpow_ulpExp p
  rw [hv] at hPp
  rcases le_or_lt u v with huv | huv
  · -- both are multiples of `2^u`
    refine ⟨u, hu0, ?_, hmlt.le⟩
    have hk : 0 ≤ v - u := by omega
    have hpm : p - m = ((P * 2 ^ (v - u).toNat - M : ℤ) : ℚ) * 2 ^ u := by
      have h2 : (2 : ℚ) ^ v = 2 ^ (v - u) * 2 ^ u := by
        rw [← two_zpow_split]
        congr 1
        ring
      rw [hPp, hMm, h2, two_zpow_natCast _ hk]
      push_cast
      ring
    have hK : (P * 2 ^ (v - u).toNat - M : ℤ) ≠ 0 := by
      intro h0
      rw [h0] at hpm
      apply hne
      have : p - m = 0 := by rw [hpm]; simp
      linarith
    rw [hpm, abs_mul, abs_of_pos hupos]
    calc (2 : ℚ) ^ u = 1 * 2 ^ u := (one_mul _).symm
      _ ≤ |((P * 2 ^ (v - u).toNat - M : ℤ) : ℚ)| * 2 ^ u :=
        mul_le_mul_of_nonneg_right (int_abs_ge_one _ hK) hupos.le
  · -- `p` lies in a lower binade than `m`
    have hunorm : -1074 < ulpExp m := by rw [hu]; exact lt_of_le_of_lt (hv ▸ ulpExp_ge p) huv
    have hmB : (2 : ℚ) ^ (u + 52) ≤ m := hu ▸ two_zpow_le_of_normal m hm0 hunorm
    have hpB : p < 2 ^ (u + 52) := lt_of_lt_of_le hplt (two_zpow_mono _ _ (by omega))
    have h52 : (2 : ℚ) ^ (u + 52) = 2 ^ 52 * 2 ^ u := by
      rw [add_comm, two_zpow_split]
      norm_num
    rcases eq_or_lt_of_le hmB with hmeq | hmgt
    · -- `m` is the power of two `2^(u+52)`
      refine ⟨u - 1, by omega, ?_, ?_⟩
      swap
      · rw [← hmeq]
        exact two_zpow_mono _ _ (by omega)
      rw [abs_of_neg (by linarith)]
      rcases eq_or_lt_of_le (show v ≤ u - 1 by omega) with hv1 | hv2
      · have hm2 : m = ((2 ^ 53 : ℤ) : ℚ) * 2 ^ (u - 1) := by
          rw [← hmeq]
          have : u + 52 = 53 + (u - 1) := by ring
          rw [this, two_zpow_split]
          norm_num
        rw [hv1] at hPp
        have hK : (0 : ℤ) < 2 ^ 53 - P := by
          have hlt : p < m := by linarith
          rw [hPp, hm2] at hlt
          have := lt_of_mul_lt_mul_right hlt (two_zpow_pos (u - 1)).le
          have h3 : P < 2 ^ 53 := by exact_mod_cast this
          omega
        have hK1 : (1 : ℚ) ≤ ((2 ^ 53 - P : ℤ) : ℚ) := by exact_mod_cast hK
        have : -(p - m) = ((2 ^ 53 - P : ℤ) : ℚ) * 2 ^ (u - 1) := by
          rw [hPp, hm2]
          push_cast
          ring
        rw [this]
        calc (2 : ℚ) ^ (u - 1) = 1 * 2 ^ (u - 1) := (one_mul _).symm
          _ ≤ ((2 ^ 53 - P : ℤ) : ℚ) * 2 ^ (u - 1) :=
            mul_le_mul_of_nonneg_right hK1 (two_zpow_pos _).le
      · have hp2 : p < 2 ^ (u + 51) := lt_of_lt_of_le hplt (two_zpow_mono _ _ (by omega))
        have h1 : (2 : ℚ) ^ (u + 52) = 2 * 2 ^ (u + 51) := by
          have : u + 52 = 1 + (u + 51) := by ring
          rw [this, two_zpow_split]
          norm_num
        have h2 : (2 : ℚ) ^ (u - 1) ≤ 2 ^ (u + 51) := two_zpow_mono _ _ (by omega)
        have h3 := two_zpow_pos (u + 51)
        linarith
    · -- `m` is above `2^(u+52)`, so at least one grid step above it
      refine ⟨u, hu0, ?_, hmlt.le⟩
      rw [abs_of_neg (by linarith)]
      have hMgt : (2 : ℤ) ^ 52 < M := by
        rw [h52, hMm] at hmgt
        have := lt_of_mul_lt_mul_right hmgt hupos.le
        exact_mod_cast this
      have hM2 : ((2 : ℚ) ^ 52 + 1) ≤ M := by
        have : (2 : ℤ) ^ 52 + 1 ≤ M := by omega
        exact_mod_cast this
      have hm3 : (2 ^ 52 + 1) * (2 : ℚ) ^ u ≤ m := by
        rw [hMm]
        exact mul_le_mul_of_nonneg_right hM2 hupos.le
      rw [h52] at hpB
      linarith

theorem double_quot_ge (p m : ℚ) (hp : fl p = p) (hm : fl m = m) (hm0 : 0 < m)
    (hne : p ≠ m) : (2 : ℚ) ^ (-53 : ℤ) ≤ fl |p - m| / m := by
  obtain ⟨k, hk, h1, h2⟩ := double_spacing p m hp hm hm0 hne
  have h3 := two_zpow_le_fl _ k hk h1
  rw [le_div_iff₀ hm0]
  have h4 : (2 : ℚ) ^ (-53 : ℤ) * 2 ^ (k + 53) = 2 ^ k := by
    rw [← two_zpow_split]
    congr 1
    ring
  calc (2 : ℚ) ^ (-53 : ℤ) * m ≤ 2 ^ (-53 : ℤ) * 2 ^ (k + 53) :=
        mul_le_mul_of_nonneg_left h2 (two_zpow_pos _).le
    _ = 2 ^ k := h4
    _ ≤ fl |p - m| := h3

theorem double_grid_pos (x : ℚ) (h0 : 0 < x) (hx : fl x = x) :
    ∃ N : ℤ, x = N * 2 ^ (-1074 : ℤ) := by
  obtain ⟨N, _, hN⟩ := double_repr x h0 hx
  obtain ⟨u, hu⟩ : ∃ u, ulpExp x = u := ⟨_, rfl⟩
  have hk : 0 ≤ u + 1074 := by have := ulpExp_ge x; omega
  rw [hu] at hN
  refine ⟨N * 2 ^ (u + 1074).toNat, ?_⟩
  have h2 : (2 : ℚ) ^ u = 2 ^ (u + 1074) * 2 ^ (-1074 : ℤ) := by
    rw [← two_zpow_split]
    congr 1
    ring
  rw [two_zpow_natCast _ hk] at h2
  rw [hN, h2]
  push_cast
  ring

theorem double_grid (x : ℚ) (hx : fl x = x) : ∃ N : ℤ, x = N * 2 ^ (-1074 : ℤ) := by
  rcases lt_trichotomy x 0 with h0 | h0 | h0
  · have hx2 : fl (-x) = -x := by rw [fl_neg, hx]
    obtain ⟨N, hN⟩ := double_grid_pos (-x) (by linarith) hx2
    refine ⟨-N, ?_⟩
    push_cast
    linarith
  · exact ⟨0, by simp [h0]⟩
  · exact double_grid_pos x h0 hx

theorem double_sub_pos (p m : ℚ) (hp : fl p = p) (hm : fl m = m) (h : m < p) :
    0 < fl (p - m) := by
  obtain ⟨P, hP⟩ := double_grid p hp
  obtain ⟨M, hM⟩ := double_grid m hm
  have hlt : M < P := by
    rw [hP, hM] at h
    have := lt_of_mul_lt_mul_right h (two_zpow_pos _).le
    exact_mod_cast this
  have h1 : (1 : ℚ) ≤ ((P - M : ℤ) : ℚ) := by
    have : (1 : ℤ) ≤ P - M := by omega
    exact_mod_cast this
  have h2 : (2 : ℚ) ^ (-1074 : ℤ) ≤ p - m := by
    have : p - m = ((P - M : ℤ) : ℚ) * 2 ^ (-1074 : ℤ) := by
      rw [hP, hM]
      push_cast
      ring
    rw [this]
    calc (2 : ℚ) ^ (-1074 : ℤ) = 1 * 2 ^ (-1074 : ℤ) := (one_mul _).symm
      _ ≤ ((P - M : ℤ) : ℚ) * 2 ^ (-1074 : ℤ) :=
        mul_le_mul_of_nonneg_right h1 (two_zpow_pos _).le
  exact lt_of_lt_of_le (two_zpow_pos _) (two_zpow_le_fl _ _ (by norm_num) h2)

/-! ## Lower bounds on the percentage deviation -/

theorem fl_dev_bound : fl (25 * 2 ^ (-51 : ℤ)) = 25 * 2 ^ (-51 : ℤ) :=
  fl_grid _ (-51) 25 (by norm_num) (by norm_num) (by push_cast; ring)

theorem fl_below_hundred : fl (100 - 25 * 2 ^ (-51 : ℤ)) = 100 - 2 ^ (-46 : ℤ) :=
  fl_eval_pos _ _ (-46) 7036874417766399 (by norm_num) (by norm_num) (by norm_num)
    (by norm_num) (by norm_num) (by norm_num)

theorem Num.round_atLeast (x c : ℚ) (hc : 0 ≤ c) (hfc : fl c = c) (h : c ≤ x) :
    Num.AtLeast c (Num.round x) := by
  rcases Num.round_cases_strict x with ⟨d, hd, hv⟩ | ⟨_, hd⟩ | ⟨hneg, _⟩
  · right
    refine ⟨d, hd, ?_⟩
    rw [hv, ← hfc]
    exact fl_mono _ _ h
  · exact Or.inl hd
  · linarith

theorem Num.round_atMost (x c : ℚ) (hc : c ≤ 0) (hfc : fl c = c) (h : x ≤ c) :
    Num.AtMost c (Num.round x) := by
  rcases Num.round_cases_strict x with ⟨d, hd, hv⟩ | ⟨hpos, _⟩ | ⟨_, hd⟩
  · right
    refine ⟨d, hd, ?_⟩
    rw [hv, ← hfc]
    exact fl_mono _ _ h
  · linarith
  · exact Or.inl hd

theorem deviation_atLeast (x : ℚ) (m : F64) (hm : 0 < m.val) (hx : 0 < x)
    (hq : (2 : ℚ) ^ (-53 : ℤ) ≤ fl x / m.val) :
    Num.AtLeast (25 * 2 ^ (-51 : ℤ))
      (Num.mul (Num.div (Num.round x) (Num.fin m)) (Num.fin (F64.lit 100))) := by
  have h100 : (0 : ℚ) < (F64.lit 100).val := by rw [F64.lit_hundred_val]; norm_num
  have hinf : Num.mul (Num.div Num.pinf (Num.fin m)) (Num.fin (F64.lit 100)) = Num.pinf := by
    simp [Num.div, Num.mul, hm.le, h100, h100.ne.symm]
  have hstep : ∀ q : F64, (2 : ℚ) ^ (-53 : ℤ) ≤ q.val →
      Num.AtLeast (25 * 2 ^ (-51 : ℤ)) (Num.mul (Num.fin q) (Num.fin (F64.lit 100))) := by
    intro q hq2
    rw [Num.mul_fin, F64.lit_hundred_val]
    apply Num.round_atLeast _ _ (by positivity) fl_dev_bound
    have : (25 : ℚ) * 2 ^ (-51 : ℤ) = 2 ^ (-53 : ℤ) * 100 := by norm_num
    rw [this]
    exact mul_le_mul_of_nonneg_right hq2 (by norm_num)
  rcases Num.round_cases_strict x with ⟨d, hd, hv⟩ | ⟨_, hd⟩ | ⟨hneg, _⟩
  · rw [hd, Num.div_fin d m hm.ne.symm]
    rw [← hv] at hq
    rcases Num.round_atLeast _ _ (two_zpow_pos _).le (fl_two_zpow (-53) (by norm_num)) hq
      with h | ⟨q, h, hq2⟩
    · rw [h]
      left
      simp [Num.mul, h100, h100.ne.symm]
    · rw [h]
      exact hstep q hq2
  · rw [hd, hinf]
    exact Or.inl rfl
  · linarith

theorem deviation_atMost (x : ℚ) (m : F64) (hm : 0 < m.val) (hx : 0 < x)
    (hq : (2 : ℚ) ^ (-53 : ℤ) ≤ fl x / m.val) :
    Num.AtMost (-(25 * 2 ^ (-51 : ℤ)))
      (Num.mul (Num.div (Num.round (-x)) (Num.fin m)) (Num.fin (F64.lit 100))) := by
  have h100 : (0 : ℚ) < (F64.lit 100).val := by rw [F64.lit_hundred_val]; norm_num
  have hinf : Num.mul (Num.div Num.ninf (Num.fin m)) (Num.fin (F64.lit 100)) = Num.ninf := by
    simp [Num.div, Num.mul, hm.le, h100, h100.ne.symm]
  have hfb : fl (-(25 * 2 ^ (-51 : ℤ))) = -(25 * 2 ^ (-51 : ℤ)) := by
    rw [fl_neg, fl_dev_bound]
  have hfq : fl (-(2 : ℚ) ^ (-53 : ℤ)) = -(2 : ℚ) ^ (-53 : ℤ) := by
    rw [fl_neg, fl_two_zpow (-53) (by norm_num)]
  have hstep : ∀ q : F64, q.val ≤ -(2 : ℚ) ^ (-53 : ℤ) →
      Num.AtMost (-(25 * 2 ^ (-51 : ℤ))) (Num.mul (Num.fin q) (Num.fin (F64.lit 100))) := by
    intro q hq2
    rw [Num.mul_fin, F64.lit_hundred_val]
    apply Num.round_atMost _ _ (by norm_num) hfb
    have : -((25 : ℚ) * 2 ^ (-51 : ℤ)) = -(2 : ℚ) ^ (-53 : ℤ) * 100 := by norm_num
    rw [this]
    exact mul_le_mul_of_nonneg_right hq2 (by norm_num)
  rcases Num.round_cases_strict (-x) with ⟨d, hd, hv⟩ | ⟨hpos, _⟩ | ⟨_, hd⟩
  · rw [hd, Num.div_fin d m hm.ne.symm]
    have hq3 : d.val / m.val ≤ -(2 : ℚ) ^ (-53 : ℤ) := by
      rw [hv, fl_neg, neg_div]
      linarith
    rcases Num.round_atMost _ _ (by norm_num) hfq hq3 with h | ⟨q, h, hq2⟩
    · rw [h]
      left
      simp [Num.mul, h100, h100.ne.symm]
    · rw [h]
      exact hstep q hq2
  · linarith
  · rw [hd, hinf]
    exact Or.inl rfl

theorem Num.abs_round_nonneg (x : ℚ) (hx : 0 ≤ x) : Num.abs (Num.round x) = Num.round x := by
  rcases Num.round_cases_strict x with ⟨d, hd, hv⟩ | ⟨_, hd⟩ | ⟨hneg, _⟩
  · rw [hd]
    exact Num.abs_fin_of_nonneg d (by rw [hv]; exact fl_nonneg x hx)
  · rw [hd]
    rfl
  · linarith

theorem abs_sub_round (p m : F64) :
    Num.abs (Num.sub (Num.fin p) (Num.fin m)) = Num.round |p.val - m.val| := by
  rw [Num.sub_fin]
  rcases le_total 0 (p.val - m.val) with h | h
  · rw [abs_of_nonneg h, Num.abs_round_nonneg _ h]
  · rw [abs_of_nonpos h, ← Num.abs_round_neg, Num.abs_round_nonneg _ (by linarith)]

theorem computeMatch_lt_hundred (p m : F64) (hm : 0 < m.val) (hne : p ≠ m) :
    ∃ r : F64, computeMatch (Num.fin p) (Num.fin m) = Num.fin r ∧
      0 ≤ r.val ∧ r.val ≤ 100 - 2 ^ (-46 : ℤ) := by
  have hne2 : p.val ≠ m.val := fun h => hne (F64.eq_of_val _ _ h)
  have hpos : 0 < |p.val - m.val| := abs_pos.mpr (sub_ne_zero.mpr hne2)
  have ht := deviation_atLeast |p.val - m.val| m hm hpos
    (double_quot_ge p.val m.val p.fl_val m.fl_val hm hne2)
  unfold computeMatch
  simp only
  rw [abs_sub_round]
  have hz : (F64.lit 0).val ≤ 100 - 2 ^ (-46 : ℤ) := by rw [F64.lit_zero_val]; norm_num
  rcases ht with h | ⟨t, h, ht2⟩
  · rw [h]
    exact ⟨F64.lit 0, rfl, by rw [F64.lit_zero_val], hz⟩
  · rw [h, Num.sub_fin, F64.lit_hundred_val]
    have hle : fl (100 - t.val) ≤ 100 - 2 ^ (-46 : ℤ) := by
      rw [← fl_below_hundred]
      exact fl_mono _ _ (by linarith)
    rcases Num.round_cases_strict (100 - t.val) with ⟨u, hu, hv⟩ | ⟨hp, hu⟩ | ⟨_, hu⟩
    · rw [hu, Num.max_fin, F64.lit_zero_val]
      by_cases h0 : 0 < u.val
      · rw [if_pos h0]
        exact ⟨u, rfl, h0.le, by rw [hv]; exact hle⟩
      · rw [if_neg h0]
        exact ⟨F64.lit 0, rfl, by rw [F64.lit_zero_val], hz⟩
    · exfalso
      have h0 := fl_nonneg _ hp.le
      have hfin : |fl (100 - t.val)| < 2 ^ 1024 := by
        rw [abs_of_nonneg h0]
        exact lt_of_le_of_lt hle (by norm_num)
      unfold Num.round at hu
      rw [dif_pos hfin] at hu
      cases hu
    · rw [hu]
      exact ⟨F64.lit 0, rfl, by rw [F64.lit_zero_val], hz⟩

theorem computeMatch_self (m : F64) (hm : 0 < m.val) :
    computeMatch (Num.fin m) (Num.fin m) = Num.fin (F64.lit 100) := by
  have h0 : Num.abs (Num.sub (Num.fin m) (Num.fin m)) = Num.fin (F64.lit 0) := by
    rw [abs_sub_round, sub_self, abs_zero, Num.round_zero]
  have h1 : Num.div (Num.fin (F64.lit 0)) (Num.fin m) = Num.fin (F64.lit 0) := by
    rw [Num.div_fin _ _ hm.ne.symm, F64.lit_zero_val, zero_div, Num.round_zero]
  have h2 : Num.mul (Num.fin (F64.lit 0)) (Num.fin (F64.lit 100)) = Num.fin (F64.lit 0) := by
    rw [Num.mul_fin, F64.lit_zero_val, zero_mul, Num.round_zero]
  have h3 : Num.sub (Num.fin (F64.lit 100)) (Num.fin (F64.lit 0)) = Num.fin (F64.lit 100) := by
    rw [Num.sub_fin, F64.lit_zero_val, sub_zero, F64.lit_hundred_val]
    exact Num.round_of _ _ fl_hundred (by norm_num)
  unfold computeMatch
  simp only
  rw [h0, h1, h2, h3, Num.max_fin, F64.lit_zero_val, F64.lit_hundred_val, if_pos (by norm_num)]

/-! ## Lemmas on formatting -/

theorem empty_append (t : String) : "" ++ t = t := by
  cases t
  rfl

theorem tenths_of (x : ℚ) (n : ℕ) (h1 : (n : ℚ) / 10 - 1 / 20 ≤ x)
    (h2 : x < (n : ℚ) / 10 + 1 / 20) : tenths x = n := by
  unfold tenths
  have : ⌊x * 10 + 1 / 2⌋ = (n : ℤ) := by
    rw [Int.floor_eq_iff]
    push_cast
    constructor <;> linarith
  rw [this]
  simp

theorem toFixed1_of (toStr : ℚ → String) (x : F64) (n : ℕ) (hx : |x.val| < 10 ^ 21)
    (h1 : (n : ℚ) / 10 - 1 / 20 ≤ |x.val|) (h2 : |x.val| < (n : ℚ) / 10 + 1 / 20) :
    toFixed1 toStr (Num.fin x) =
      (if x.val < 0 then "-" else "") ++ (toString (n / 10) ++ "." ++ toString (n % 10)) := by
  have habs : (if x.val < 0 then -x.val else x.val) = |x.val| := by
    split
    · rw [abs_of_neg ‹_›]
    · rw [abs_of_nonneg (not_lt.mp ‹_›)]
  simp only [toFixed1, habs, if_neg (not_le.mpr hx), fixedDigits, tenths_of _ n h1 h2]

theorem historyReason_failed (toStr : ℚ → String) (v p m : Num) :
    historyReason toStr v false p m =
      if Num.gt (Num.sub p m) (Num.fin (F64.lit 0)) then
        "Too Large (+" ++
          toFixed1 toStr (Num.mul (Num.div (Num.sub p m) m) (Num.fin (F64.lit 100))) ++ "%)"
      else
        "Too Small (" ++
          toFixed1 toStr (Num.mul (Num.div (Num.sub p m) m) (Num.fin (F64.lit 100))) ++ "%)" := by
  simp [historyReason]

theorem gt_sub_zero (p m : F64) :
    Num.gt (Num.sub (Num.fin p) (Num.fin m)) (Num.fin (F64.lit 0)) = decide (m.val < p.val) := by
  rw [Num.sub_fin]
  rcases Num.round_cases_strict (p.val - m.val) with ⟨d, hd, hv⟩ | ⟨hpos, hd⟩ | ⟨hneg, hd⟩
  · rw [hd, Num.gt_fin, F64.lit_zero_val, hv]
    by_cases h : m.val < p.val
    · have := double_sub_pos p.val m.val p.fl_val m.fl_val h
      simp [h, this]
    · have := fl_nonpos (p.val - m.val) (by linarith)
      simp [h, not_lt.mpr this]
  · rw [hd]
    have : m.val < p.val := by linarith
    simp [this, Num.gt, Num.lt]
  · rw [hd]
    have : ¬ m.val < p.val := by linarith
    simp [this, Num.gt, Num.lt]

theorem Num.gt_zero_of_atLeast (c : ℚ) (x : Num) (hc : 0 < c) (h : Num.AtLeast c x) :
    Num.gt x (Num.fin (F64.lit 0)) = true := by
  rcases h with rfl | ⟨d, rfl, hd⟩
  · rfl
  · rw [Num.gt_fin, F64.lit_zero_val]
    simp only [decide_eq_true_eq]
    linarith

theorem Num.lt_zero_of_atMost (c : ℚ) (x : Num) (hc : c < 0) (h : Num.AtMost c x) :
    Num.lt x (Num.fin (F64.lit 0)) = true := by
  rcases h with rfl | ⟨d, rfl, hd⟩
  · rfl
  · rw [Num.lt_fin, F64.lit_zero_val]
    simp only [decide_eq_true_eq]
    linarith

theorem deviation_pos (p m : F64) (hm : 0 < m.val) (h : m.val < p.val) :
    Num.gt (Num.mul (Num.div (Num.sub (Num.fin p) (Num.fin m)) (Num.fin m))
      (Num.fin (F64.lit 100))) (Num.fin (F64.lit 0)) = true := by
  have hq := double_quot_ge p.val m.val p.fl_val m.fl_val hm h.ne.symm
  rw [abs_of_pos (by linarith)] at hq
  rw [Num.sub_fin]
  exact Num.gt_zero_of_atLeast _ _ (by positivity)
    (deviation_atLeast (p.val - m.val) m hm (by linarith) hq)

theorem deviation_neg (p m : F64) (hm : 0 < m.val) (h : p.val < m.val) :
    Num.lt (Num.mul (Num.div (Num.sub (Num.fin p) (Num.fin m)) (Num.fin m))
      (Num.fin (F64.lit 100))) (Num.fin (F64.lit 0)) = true := by
  have hq := double_quot_ge p.val m.val p.fl_val m.fl_val hm h.ne
  rw [abs_of_neg (by linarith)] at hq
  rw [Num.sub_fin]
  have h2 : p.val - m.val = -(-(p.val - m.val)) := by ring
  rw [h2]
  exact Num.lt_zero_of_atMost _ _ (by norm_num)
    (deviation_atMost (-(p.val - m.val)) m hm (by linarith) hq)

theorem ge_threshold_hundred :
    Num.ge (Num.fin (F64.lit 100)) (Num.fin PASS_THRESHOLD) = true := by
  rw [Num.ge_fin, PASS_THRESHOLD, F64.lit_95_val, F64.lit_hundred_val]
  norm_num

/-- C2: for every finite `m > 0`, `computeMatch(m, m)` is `100`, the verdict
`match >= PASS_THRESHOLD` is pass, and the reason computed in `addToHistory` is
"Perfect Match". -/
theorem score_self (toStr : ℚ → String) (m : F64) (hm : 0 < m.val) :
    computeMatch (Num.fin m) (Num.fin m) = Num.fin (F64.lit 100) ∧
    Num.ge (computeMatch (Num.fin m) (Num.fin m)) (Num.fin PASS_THRESHOLD) = true ∧
    historyReason toStr (computeMatch (Num.fin m) (Num.fin m))
      (Num.ge (computeMatch (Num.fin m) (Num.fin m)) (Num.fin PASS_THRESHOLD))
      (Num.fin m) (Num.fin m) = "Perfect Match" := by
  rw [computeMatch_self m hm, ge_threshold_hundred]
  refine ⟨rfl, rfl, ?_⟩
  simp [historyReason, Num.lt_fin]

/-! ## Evaluations in doubles -/

theorem lit_756 : F64.lit (756 / 10) = F64.lit (2659938529915699 / 35184372088832) :=
  (F64.lit_pos (756 / 10) (2659938529915699 / 35184372088832) (-46) 5319877059831398 (by
      norm_num)).1

theorem match_756_72 :
    computeMatch (Num.fin (F64.lit (2659938529915699 / 35184372088832))) (Num.fin (F64.lit 72)) =
        Num.fin (F64.lit (6685030696878081 / 70368744177664)) := by
  have hv1 : (F64.lit (2659938529915699 / 35184372088832)).val = (2659938529915699 / 35184372088832)
      :=
    (F64.lit_pos (2659938529915699 / 35184372088832) (2659938529915699 / 35184372088832) (-46)
        5319877059831398 (by norm_num)).2
  have hv2 : (F64.lit 72).val = 72 :=
    (F64.lit_pos 72 72 (-46) 5066549580791808 (by norm_num)).2
  have ho3 : Num.sub (Num.fin (F64.lit (2659938529915699 / 35184372088832))) (Num.fin (F64.lit 72))
      = Num.fin (F64.lit (126663739519795 / 35184372088832)) := by
    rw [Num.sub_fin, hv1, hv2]
    exact Num.round_pos _ _ (-51) 8106479329266880 (by norm_num)
  have hv4 : (F64.lit (126663739519795 / 35184372088832)).val = (126663739519795 / 35184372088832)
      :=
    (F64.lit_pos (126663739519795 / 35184372088832) (126663739519795 / 35184372088832) (-51)
        8106479329266880 (by norm_num)).2
  have ha5 : Num.abs (Num.fin (F64.lit (126663739519795 / 35184372088832))) = Num.fin (F64.lit
      (126663739519795 / 35184372088832)) :=
    Num.abs_fin_of_nonneg _ (by rw [hv4]; norm_num)
  have ho6 : Num.div (Num.fin (F64.lit (126663739519795 / 35184372088832))) (Num.fin (F64.lit 72)) =
      Num.fin (F64.lit (3602879701896391 / 72057594037927936)) := by
    rw [Num.div_fin _ _ (by rw [hv2]; norm_num), hv4, hv2]
    exact Num.round_pos _ _ (-57) 7205759403792782 (by norm_num)
  have hv7 : (F64.lit (3602879701896391 / 72057594037927936)).val = (3602879701896391 /
      72057594037927936) :=
    (F64.lit_pos (3602879701896391 / 72057594037927936) (3602879701896391 / 72057594037927936) (-57)
        7205759403792782 (by norm_num)).2
  have hv8 : (F64.lit 100).val = 100 :=
    (F64.lit_pos 100 100 (-46) 7036874417766400 (by norm_num)).2
  have ho9 : Num.mul (Num.fin (F64.lit (3602879701896391 / 72057594037927936))) (Num.fin (F64.lit
      100)) = Num.fin (F64.lit (5629499534213111 / 1125899906842624)) := by
    rw [Num.mul_fin, hv7, hv8]
    exact Num.round_pos _ _ (-50) 5629499534213111 (by norm_num)
  have hv10 : (F64.lit (5629499534213111 / 1125899906842624)).val = (5629499534213111 /
      1125899906842624) :=
    (F64.lit_pos (5629499534213111 / 1125899906842624) (5629499534213111 / 1125899906842624) (-50)
        5629499534213111 (by norm_num)).2
  have ho11 : Num.sub (Num.fin (F64.lit 100)) (Num.fin (F64.lit (5629499534213111 /
      1125899906842624))) = Num.fin (F64.lit (6685030696878081 / 70368744177664)) := by
    rw [Num.sub_fin, hv8, hv10]
    exact Num.round_pos _ _ (-46) 6685030696878081 (by norm_num)
  have hv12 : (F64.lit (6685030696878081 / 70368744177664)).val = (6685030696878081 /
      70368744177664) :=
    (F64.lit_pos (6685030696878081 / 70368744177664) (6685030696878081 / 70368744177664) (-46)
        6685030696878081 (by norm_num)).2
  have hv13 : (F64.lit 0).val = 0 :=
    F64.lit_zero_val
  have hm14 : Num.max (Num.fin (F64.lit 0)) (Num.fin (F64.lit (6685030696878081 / 70368744177664)))
      = Num.fin (F64.lit (6685030696878081 / 70368744177664)) := by
    rw [Num.max_fin, hv13, hv12]
    norm_num
  simp only [computeMatch, ho3, ha5, ho6, ho9, ho11, hm14]

theorem match_80_72 :
    computeMatch (Num.fin (F64.lit 80)) (Num.fin (F64.lit 72)) = Num.fin (F64.lit (3127499741229511
        / 35184372088832)) := by
  have hv1 : (F64.lit 80).val = 80 :=
    (F64.lit_pos 80 80 (-46) 5629499534213120 (by norm_num)).2
  have hv2 : (F64.lit 72).val = 72 :=
    (F64.lit_pos 72 72 (-46) 5066549580791808 (by norm_num)).2
  have ho3 : Num.sub (Num.fin (F64.lit 80)) (Num.fin (F64.lit 72)) = Num.fin (F64.lit 8) := by
    rw [Num.sub_fin, hv1, hv2]
    exact Num.round_pos _ _ (-49) 4503599627370496 (by norm_num)
  have hv4 : (F64.lit 8).val = 8 :=
    (F64.lit_pos 8 8 (-49) 4503599627370496 (by norm_num)).2
  have ha5 : Num.abs (Num.fin (F64.lit 8)) = Num.fin (F64.lit 8) :=
    Num.abs_fin_of_nonneg _ (by rw [hv4]; norm_num)
  have ho6 : Num.div (Num.fin (F64.lit 8)) (Num.fin (F64.lit 72)) = Num.fin (F64.lit
      (2001599834386887 / 18014398509481984)) := by
    rw [Num.div_fin _ _ (by rw [hv2]; norm_num), hv4, hv2]
    exact Num.round_pos _ _ (-56) 8006399337547548 (by norm_num)
  have hv7 : (F64.lit (2001599834386887 / 18014398509481984)).val = (2001599834386887 /
      18014398509481984) :=
    (F64.lit_pos (2001599834386887 / 18014398509481984) (2001599834386887 / 18014398509481984) (-56)
        8006399337547548 (by norm_num)).2
  have hv8 : (F64.lit 100).val = 100 :=
    (F64.lit_pos 100 100 (-46) 7036874417766400 (by norm_num)).2
  have ho9 : Num.mul (Num.fin (F64.lit (2001599834386887 / 18014398509481984))) (Num.fin (F64.lit
      100)) = Num.fin (F64.lit (3127499741229511 / 281474976710656)) := by
    rw [Num.mul_fin, hv7, hv8]
    exact Num.round_pos _ _ (-49) 6254999482459022 (by norm_num)
  have hv10 : (F64.lit (3127499741229511 / 281474976710656)).val = (3127499741229511 /
      281474976710656) :=
    (F64.lit_pos (3127499741229511 / 281474976710656) (3127499741229511 / 281474976710656) (-49)
        6254999482459022 (by norm_num)).2
  have ho11 : Num.sub (Num.fin (F64.lit 100)) (Num.fin (F64.lit (3127499741229511 /
      281474976710656))) = Num.fin (F64.lit (3127499741229511 / 35184372088832)) := by
    rw [Num.sub_fin, hv8, hv10]
    exact Num.round_pos _ _ (-46) 6254999482459022 (by norm_num)
  have hv12 : (F64.lit (3127499741229511 / 35184372088832)).val = (3127499741229511 /
      35184372088832) :=
    (F64.lit_pos (3127499741229511 / 35184372088832) (3127499741229511 / 35184372088832) (-46)
        6254999482459022 (by norm_num)).2
  have hv13 : (F64.lit 0).val = 0 :=
    F64.lit_zero_val
  have hm14 : Num.max (Num.fin (F64.lit 0)) (Num.fin (F64.lit (3127499741229511 / 35184372088832)))
      = Num.fin (F64.lit (3127499741229511 / 35184372088832)) := by
    rw [Num.max_fin, hv13, hv12]
    norm_num
  simp only [computeMatch, ho3, ha5, ho6, ho9, ho11, hm14]

theorem deviation_80_72 :
    Num.mul (Num.div (Num.sub (Num.fin (F64.lit 80)) (Num.fin (F64.lit 72))) (Num.fin (F64.lit 72)))
        (Num.fin (F64.lit 100)) = Num.fin (F64.lit (3127499741229511 / 281474976710656)) := by
  have hv1 : (F64.lit 80).val = 80 :=
    (F64.lit_pos 80 80 (-46) 5629499534213120 (by norm_num)).2
  have hv2 : (F64.lit 72).val = 72 :=
    (F64.lit_pos 72 72 (-46) 5066549580791808 (by norm_num)).2
  have ho3 : Num.sub (Num.fin (F64.lit 80)) (Num.fin (F64.lit 72)) = Num.fin (F64.lit 8) := by
    rw [Num.sub_fin, hv1, hv2]
    exact Num.round_pos _ _ (-49) 4503599627370496 (by norm_num)
  have hv4 : (F64.lit 8).val = 8 :=
    (F64.lit_pos 8 8 (-49) 4503599627370496 (by norm_num)).2
  have ho5 : Num.div (Num.fin (F64.lit 8)) (Num.fin (F64.lit 72)) = Num.fin (F64.lit
      (2001599834386887 / 18014398509481984)) := by
    rw [Num.div_fin _ _ (by rw [hv2]; norm_num), hv4, hv2]
    exact Num.round_pos _ _ (-56) 8006399337547548 (by norm_num)
  have hv6 : (F64.lit (2001599834386887 / 18014398509481984)).val = (2001599834386887 /
      18014398509481984) :=
    (F64.lit_pos (2001599834386887 / 18014398509481984) (2001599834386887 / 18014398509481984) (-56)
        8006399337547548 (by norm_num)).2
  have hv7 : (F64.lit 100).val = 100 :=
    (F64.lit_pos 100 100 (-46) 7036874417766400 (by norm_num)).2
  have ho8 : Num.mul (Num.fin (F64.lit (2001599834386887 / 18014398509481984))) (Num.fin (F64.lit
      100)) = Num.fin (F64.lit (3127499741229511 / 281474976710656)) := by
    rw [Num.mul_fin, hv6, hv7]
    exact Num.round_pos _ _ (-49) 6254999482459022 (by norm_num)
  have hv9 : (F64.lit (3127499741229511 / 281474976710656)).val = (3127499741229511 /
      281474976710656) :=
    (F64.lit_pos (3127499741229511 / 281474976710656) (3127499741229511 / 281474976710656) (-49)
        6254999482459022 (by norm_num)).2
  simp only [ho3, ho5, ho8]

theorem match_2103_2000 :
    computeMatch (Num.fin (F64.lit 2103)) (Num.fin (F64.lit 2000)) = Num.fin (F64.lit
        (3337237692625715 / 35184372088832)) := by
  have hv1 : (F64.lit 2103).val = 2103 :=
    (F64.lit_pos 2103 2103 (-41) 4624545906425856 (by norm_num)).2
  have hv2 : (F64.lit 2000).val = 2000 :=
    (F64.lit_pos 2000 2000 (-42) 8796093022208000 (by norm_num)).2
  have ho3 : Num.sub (Num.fin (F64.lit 2103)) (Num.fin (F64.lit 2000)) = Num.fin (F64.lit 103) := by
    rw [Num.sub_fin, hv1, hv2]
    exact Num.round_pos _ _ (-46) 7247980650299392 (by norm_num)
  have hv4 : (F64.lit 103).val = 103 :=
    (F64.lit_pos 103 103 (-46) 7247980650299392 (by norm_num)).2
  have ha5 : Num.abs (Num.fin (F64.lit 103)) = Num.fin (F64.lit 103) :=
    Num.abs_fin_of_nonneg _ (by rw [hv4]; norm_num)
  have ho6 : Num.div (Num.fin (F64.lit 103)) (Num.fin (F64.lit 2000)) = Num.fin (F64.lit
      (7421932185906577 / 144115188075855872)) := by
    rw [Num.div_fin _ _ (by rw [hv2]; norm_num), hv4, hv2]
    exact Num.round_pos _ _ (-57) 7421932185906577 (by norm_num)
  have hv7 : (F64.lit (7421932185906577 / 144115188075855872)).val = (7421932185906577 /
      144115188075855872) :=
    (F64.lit_pos (7421932185906577 / 144115188075855872) (7421932185906577 / 144115188075855872)
        (-57) 7421932185906577 (by norm_num)).2
  have hv8 : (F64.lit 100).val = 100 :=
    (F64.lit_pos 100 100 (-46) 7036874417766400 (by norm_num)).2
  have ho9 : Num.mul (Num.fin (F64.lit (7421932185906577 / 144115188075855872))) (Num.fin (F64.lit
      100)) = Num.fin (F64.lit (5798384520239513 / 1125899906842624)) := by
    rw [Num.mul_fin, hv7, hv8]
    exact Num.round_pos _ _ (-50) 5798384520239513 (by norm_num)
  have hv10 : (F64.lit (5798384520239513 / 1125899906842624)).val = (5798384520239513 /
      1125899906842624) :=
    (F64.lit_pos (5798384520239513 / 1125899906842624) (5798384520239513 / 1125899906842624) (-50)
        5798384520239513 (by norm_num)).2
  have ho11 : Num.sub (Num.fin (F64.lit 100)) (Num.fin (F64.lit (5798384520239513 /
      1125899906842624))) = Num.fin (F64.lit (3337237692625715 / 35184372088832)) := by
    rw [Num.sub_fin, hv8, hv10]
    exact Num.round_pos _ _ (-46) 6674475385251430 (by norm_num)
  have hv12 : (F64.lit (3337237692625715 / 35184372088832)).val = (3337237692625715 /
      35184372088832) :=
    (F64.lit_pos (3337237692625715 / 35184372088832) (3337237692625715 / 35184372088832) (-46)
        6674475385251430 (by norm_num)).2
  have hv13 : (F64.lit 0).val = 0 :=
    F64.lit_zero_val
  have hm14 : Num.max (Num.fin (F64.lit 0)) (Num.fin (F64.lit (3337237692625715 / 35184372088832)))
      = Num.fin (F64.lit (3337237692625715 / 35184372088832)) := by
    rw [Num.max_fin, hv13, hv12]
    norm_num
  simp only [computeMatch, ho3, ha5, ho6, ho9, ho11, hm14]

theorem deviation_2103_2000 :
    Num.mul (Num.div (Num.sub (Num.fin (F64.lit 2103)) (Num.fin (F64.lit 2000))) (Num.fin (F64.lit
        2000))) (Num.fin (F64.lit 100)) = Num.fin (F64.lit (5798384520239513 / 1125899906842624)) :=
        by
  have hv1 : (F64.lit 2103).val = 2103 :=
    (F64.lit_pos 2103 2103 (-41) 4624545906425856 (by norm_num)).2
  have hv2 : (F64.lit 2000).val = 2000 :=
    (F64.lit_pos 2000 2000 (-42) 8796093022208000 (by norm_num)).2
  have ho3 : Num.sub (Num.fin (F64.lit 2103)) (Num.fin (F64.lit 2000)) = Num.fin (F64.lit 103) := by
    rw [Num.sub_fin, hv1, hv2]
    exact Num.round_pos _ _ (-46) 7247980650299392 (by norm_num)
  have hv4 : (F64.lit 103).val = 103 :=
    (F64.lit_pos 103 103 (-46) 7247980650299392 (by norm_num)).2
  have ho5 : Num.div (Num.fin (F64.lit 103)) (Num.fin (F64.lit 2000)) = Num.fin (F64.lit
      (7421932185906577 / 144115188075855872)) := by
    rw [Num.div_fin _ _ (by rw [hv2]; norm_num), hv4, hv2]
    exact Num.round_pos _ _ (-57) 7421932185906577 (by norm_num)
  have hv6 : (F64.lit (7421932185906577 / 144115188075855872)).val = (7421932185906577 /
      144115188075855872) :=
    (F64.lit_pos (7421932185906577 / 144115188075855872) (7421932185906577 / 144115188075855872)
        (-57) 7421932185906577 (by norm_num)).2
  have hv7 : (F64.lit 100).val = 100 :=
    (F64.lit_pos 100 100 (-46) 7036874417766400 (by norm_num)).2
  have ho8 : Num.mul (Num.fin (F64.lit (7421932185906577 / 144115188075855872))) (Num.fin (F64.lit
      100)) = Num.fin (F64.lit (5798384520239513 / 1125899906842624)) := by
    rw [Num.mul_fin, hv6, hv7]
    exact Num.round_pos _ _ (-50) 5798384520239513 (by norm_num)
  have hv9 : (F64.lit (5798384520239513 / 1125899906842624)).val = (5798384520239513 /
      1125899906842624) :=
    (F64.lit_pos (5798384520239513 / 1125899906842624) (5798384520239513 / 1125899906842624) (-50)
        5798384520239513 (by norm_num)).2
  simp only [ho3, ho5, ho8]

theorem val_m1 : (F64.lit (6685030696878081 / 70368744177664)).val = (6685030696878081 /
    70368744177664) :=
  (F64.lit_pos (6685030696878081 / 70368744177664) (6685030696878081 / 70368744177664) (-46)
      6685030696878081 (by norm_num)).2

theorem val_m2 : (F64.lit (3127499741229511 / 35184372088832)).val = (3127499741229511 /
    35184372088832) :=
  (F64.lit_pos (3127499741229511 / 35184372088832) (3127499741229511 / 35184372088832) (-46)
      6254999482459022 (by norm_num)).2

theorem val_d2 : (F64.lit (3127499741229511 / 281474976710656)).val = (3127499741229511 /
    281474976710656) :=
  (F64.lit_pos (3127499741229511 / 281474976710656) (3127499741229511 / 281474976710656) (-49)
      6254999482459022 (by norm_num)).2

theorem val_m3 : (F64.lit (3337237692625715 / 35184372088832)).val = (3337237692625715 /
    35184372088832) :=
  (F64.lit_pos (3337237692625715 / 35184372088832) (3337237692625715 / 35184372088832) (-46)
      6674475385251430 (by norm_num)).2

theorem val_d3 : (F64.lit (5798384520239513 / 1125899906842624)).val = (5798384520239513 /
    1125899906842624) :=
  (F64.lit_pos (5798384520239513 / 1125899906842624) (5798384520239513 / 1125899906842624) (-50)
      5798384520239513 (by norm_num)).2

theorem val_72 : (F64.lit 72).val = 72 :=
  (F64.lit_pos 72 72 (-46) 5066549580791808 (by norm_num)).2

theorem val_80 : (F64.lit 80).val = 80 :=
  (F64.lit_pos 80 80 (-46) 5629499534213120 (by norm_num)).2

theorem val_2000 : (F64.lit 2000).val = 2000 :=
  (F64.lit_pos 2000 2000 (-42) 8796093022208000 (by norm_num)).2

theorem val_2103 : (F64.lit 2103).val = 2103 :=
  (F64.lit_pos 2103 2103 (-41) 4624545906425856 (by norm_num)).2

theorem val_p756 : (F64.lit (2659938529915699 / 35184372088832)).val = (2659938529915699 /
    35184372088832) :=
  (F64.lit_pos (2659938529915699 / 35184372088832) (2659938529915699 / 35184372088832) (-46)
      5319877059831398 (by norm_num)).2

theorem match_1_neg1 :
    computeMatch (Num.fin (F64.lit 1)) (Num.fin (F64.lit (-1))) = Num.fin (F64.lit 300) := by
  have hv1 : (F64.lit 1).val = 1 :=
    (F64.lit_pos 1 1 (-52) 4503599627370496 (by norm_num)).2
  have hv2 : (F64.lit (-1)).val = (-1) :=
    (F64.lit_neg (-1) (-1) (-52) 4503599627370496 (by norm_num)).2
  have ho3 : Num.sub (Num.fin (F64.lit 1)) (Num.fin (F64.lit (-1))) = Num.fin (F64.lit 2) := by
    rw [Num.sub_fin, hv1, hv2]
    exact Num.round_pos _ _ (-51) 4503599627370496 (by norm_num)
  have hv4 : (F64.lit 2).val = 2 :=
    (F64.lit_pos 2 2 (-51) 4503599627370496 (by norm_num)).2
  have ha5 : Num.abs (Num.fin (F64.lit 2)) = Num.fin (F64.lit 2) :=
    Num.abs_fin_of_nonneg _ (by rw [hv4]; norm_num)
  have ho6 : Num.div (Num.fin (F64.lit 2)) (Num.fin (F64.lit (-1))) = Num.fin (F64.lit (-2)) := by
    rw [Num.div_fin _ _ (by rw [hv2]; norm_num), hv4, hv2]
    exact Num.round_neg _ _ (-51) 4503599627370496 (by norm_num)
  have hv7 : (F64.lit (-2)).val = (-2) :=
    (F64.lit_neg (-2) (-2) (-51) 4503599627370496 (by norm_num)).2
  have hv8 : (F64.lit 100).val = 100 :=
    (F64.lit_pos 100 100 (-46) 7036874417766400 (by norm_num)).2
  have ho9 : Num.mul (Num.fin (F64.lit (-2))) (Num.fin (F64.lit 100)) = Num.fin (F64.lit (-200)) :=
      by
    rw [Num.mul_fin, hv7, hv8]
    exact Num.round_neg _ _ (-45) 7036874417766400 (by norm_num)
  have hv10 : (F64.lit (-200)).val = (-200) :=
    (F64.lit_neg (-200) (-200) (-45) 7036874417766400 (by norm_num)).2
  have ho11 : Num.sub (Num.fin (F64.lit 100)) (Num.fin (F64.lit (-200))) = Num.fin (F64.lit 300) :=
      by
    rw [Num.sub_fin, hv8, hv10]
    exact Num.round_pos _ _ (-44) 5277655813324800 (by norm_num)
  have hv12 : (F64.lit 300).val = 300 :=
    (F64.lit_pos 300 300 (-44) 5277655813324800 (by norm_num)).2
  have hv13 : (F64.lit 0).val = 0 :=
    F64.lit_zero_val
  have hm14 : Num.max (Num.fin (F64.lit 0)) (Num.fin (F64.lit 300)) = Num.fin (F64.lit 300) := by
    rw [Num.max_fin, hv13, hv12]
    norm_num
  simp only [computeMatch, ho3, ha5, ho6, ho9, ho11, hm14]

theorem val_300 : (F64.lit 300).val = 300 :=
  (F64.lit_pos 300 300 (-44) 5277655813324800 (by norm_num)).2

theorem match_above_one :
    computeMatch (Num.add (Num.fin (F64.lit 1)) (Num.fin (F64.lit (1 / 10)))) (Num.fin (F64.lit 1))
        = Num.fin (F64.lit (6333186975989759 / 70368744177664)) := by
  have hv1 : (F64.lit 1).val = 1 :=
    (F64.lit_pos 1 1 (-52) 4503599627370496 (by norm_num)).2
  have hl2 : F64.lit (1 / 10) = F64.lit (3602879701896397 / 36028797018963968) :=
    (F64.lit_pos (1 / 10) (3602879701896397 / 36028797018963968) (-56) 7205759403792794 (by
        norm_num)).1
  have hv3 : (F64.lit (3602879701896397 / 36028797018963968)).val = (3602879701896397 /
      36028797018963968) :=
    (F64.lit_pos (3602879701896397 / 36028797018963968) (3602879701896397 / 36028797018963968) (-56)
        7205759403792794 (by norm_num)).2
  have ho4 : Num.add (Num.fin (F64.lit 1)) (Num.fin (F64.lit (3602879701896397 /
      36028797018963968))) = Num.fin (F64.lit (2476979795053773 / 2251799813685248)) := by
    rw [Num.add_fin, hv1, hv3]
    exact Num.round_pos _ _ (-52) 4953959590107546 (by norm_num)
  have hv5 : (F64.lit (2476979795053773 / 2251799813685248)).val = (2476979795053773 /
      2251799813685248) :=
    (F64.lit_pos (2476979795053773 / 2251799813685248) (2476979795053773 / 2251799813685248) (-52)
        4953959590107546 (by norm_num)).2
  have ho6 : Num.sub (Num.fin (F64.lit (2476979795053773 / 2251799813685248))) (Num.fin (F64.lit 1))
      = Num.fin (F64.lit (225179981368525 / 2251799813685248)) := by
    rw [Num.sub_fin, hv5, hv1]
    exact Num.round_pos _ _ (-56) 7205759403792800 (by norm_num)
  have hv7 : (F64.lit (225179981368525 / 2251799813685248)).val = (225179981368525 /
      2251799813685248) :=
    (F64.lit_pos (225179981368525 / 2251799813685248) (225179981368525 / 2251799813685248) (-56)
        7205759403792800 (by norm_num)).2
  have ha8 : Num.abs (Num.fin (F64.lit (225179981368525 / 2251799813685248))) = Num.fin (F64.lit
      (225179981368525 / 2251799813685248)) :=
    Num.abs_fin_of_nonneg _ (by rw [hv7]; norm_num)
  have ho9 : Num.div (Num.fin (F64.lit (225179981368525 / 2251799813685248))) (Num.fin (F64.lit 1))
      = Num.fin (F64.lit (225179981368525 / 2251799813685248)) := by
    rw [Num.div_fin _ _ (by rw [hv1]; norm_num), hv7, hv1]
    exact Num.round_pos _ _ (-56) 7205759403792800 (by norm_num)
  have hv10 : (F64.lit 100).val = 100 :=
    (F64.lit_pos 100 100 (-46) 7036874417766400 (by norm_num)).2
  have ho11 : Num.mul (Num.fin (F64.lit (225179981368525 / 2251799813685248))) (Num.fin (F64.lit
      100)) = Num.fin (F64.lit (5629499534213125 / 562949953421312)) := by
    rw [Num.mul_fin, hv7, hv10]
    exact Num.round_pos _ _ (-49) 5629499534213125 (by norm_num)
  have hv12 : (F64.lit (5629499534213125 / 562949953421312)).val = (5629499534213125 /
      562949953421312) :=
    (F64.lit_pos (5629499534213125 / 562949953421312) (5629499534213125 / 562949953421312) (-49)
        5629499534213125 (by norm_num)).2
  have ho13 : Num.sub (Num.fin (F64.lit 100)) (Num.fin (F64.lit (5629499534213125 /
      562949953421312))) = Num.fin (F64.lit (6333186975989759 / 70368744177664)) := by
    rw [Num.sub_fin, hv10, hv12]
    exact Num.round_pos _ _ (-46) 6333186975989759 (by norm_num)
  have hv14 : (F64.lit (6333186975989759 / 70368744177664)).val = (6333186975989759 /
      70368744177664) :=
    (F64.lit_pos (6333186975989759 / 70368744177664) (6333186975989759 / 70368744177664) (-46)
        6333186975989759 (by norm_num)).2
  have hv15 : (F64.lit 0).val = 0 :=
    F64.lit_zero_val
  have hm16 : Num.max (Num.fin (F64.lit 0)) (Num.fin (F64.lit (6333186975989759 / 70368744177664)))
      = Num.fin (F64.lit (6333186975989759 / 70368744177664)) := by
    rw [Num.max_fin, hv15, hv14]
    norm_num
  simp only [computeMatch, hl2, ho4, ho6, ha8, ho9, ho11, ho13, hm16]

theorem match_below_one :
    computeMatch (Num.sub (Num.fin (F64.lit 1)) (Num.fin (F64.lit (1 / 10)))) (Num.fin (F64.lit 1))
        = Num.fin (F64.lit 90) := by
  have hv1 : (F64.lit 1).val = 1 :=
    (F64.lit_pos 1 1 (-52) 4503599627370496 (by norm_num)).2
  have hl2 : F64.lit (1 / 10) = F64.lit (3602879701896397 / 36028797018963968) :=
    (F64.lit_pos (1 / 10) (3602879701896397 / 36028797018963968) (-56) 7205759403792794 (by
        norm_num)).1
  have hv3 : (F64.lit (3602879701896397 / 36028797018963968)).val = (3602879701896397 /
      36028797018963968) :=
    (F64.lit_pos (3602879701896397 / 36028797018963968) (3602879701896397 / 36028797018963968) (-56)
        7205759403792794 (by norm_num)).2
  have ho4 : Num.sub (Num.fin (F64.lit 1)) (Num.fin (F64.lit (3602879701896397 /
      36028797018963968))) = Num.fin (F64.lit (8106479329266893 / 9007199254740992)) := by
    rw [Num.sub_fin, hv1, hv3]
    exact Num.round_pos _ _ (-53) 8106479329266893 (by norm_num)
  have hv5 : (F64.lit (8106479329266893 / 9007199254740992)).val = (8106479329266893 /
      9007199254740992) :=
    (F64.lit_pos (8106479329266893 / 9007199254740992) (8106479329266893 / 9007199254740992) (-53)
        8106479329266893 (by norm_num)).2
  have ho6 : Num.sub (Num.fin (F64.lit (8106479329266893 / 9007199254740992))) (Num.fin (F64.lit 1))
      = Num.fin (F64.lit (-900719925474099 / 9007199254740992)) := by
    rw [Num.sub_fin, hv5, hv1]
    exact Num.round_neg _ _ (-56) 7205759403792792 (by norm_num)
  have hv7 : (F64.lit (-900719925474099 / 9007199254740992)).val = (-900719925474099 /
      9007199254740992) :=
    (F64.lit_neg (-900719925474099 / 9007199254740992) (-900719925474099 / 9007199254740992) (-56)
        7205759403792792 (by norm_num)).2
  have ha8 : Num.abs (Num.fin (F64.lit (-900719925474099 / 9007199254740992))) = Num.fin (F64.lit
      (900719925474099 / 9007199254740992)) :=
    Num.abs_fin_of_neg _ _ (by rw [hv7]; norm_num) (by rw [hv7]; norm_num)
  have hv9 : (F64.lit (900719925474099 / 9007199254740992)).val = (900719925474099 /
      9007199254740992) :=
    (F64.lit_pos (900719925474099 / 9007199254740992) (900719925474099 / 9007199254740992) (-56)
        7205759403792792 (by norm_num)).2
  have ho10 : Num.div (Num.fin (F64.lit (900719925474099 / 9007199254740992))) (Num.fin (F64.lit 1))
      = Num.fin (F64.lit (900719925474099 / 9007199254740992)) := by
    rw [Num.div_fin _ _ (by rw [hv1]; norm_num), hv9, hv1]
    exact Num.round_pos _ _ (-56) 7205759403792792 (by norm_num)
  have hv11 : (F64.lit 100).val = 100 :=
    (F64.lit_pos 100 100 (-46) 7036874417766400 (by norm_num)).2
  have ho12 : Num.mul (Num.fin (F64.lit (900719925474099 / 9007199254740992))) (Num.fin (F64.lit
      100)) = Num.fin (F64.lit (5629499534213119 / 562949953421312)) := by
    rw [Num.mul_fin, hv9, hv11]
    exact Num.round_pos _ _ (-49) 5629499534213119 (by norm_num)
  have hv13 : (F64.lit (5629499534213119 / 562949953421312)).val = (5629499534213119 /
      562949953421312) :=
    (F64.lit_pos (5629499534213119 / 562949953421312) (5629499534213119 / 562949953421312) (-49)
        5629499534213119 (by norm_num)).2
  have ho14 : Num.sub (Num.fin (F64.lit 100)) (Num.fin (F64.lit (5629499534213119 /
      562949953421312))) = Num.fin (F64.lit 90) := by
    rw [Num.sub_fin, hv11, hv13]
    exact Num.round_pos _ _ (-46) 6333186975989760 (by norm_num)
  have hv15 : (F64.lit 90).val = 90 :=
    (F64.lit_pos 90 90 (-46) 6333186975989760 (by norm_num)).2
  have hv16 : (F64.lit 0).val = 0 :=
    F64.lit_zero_val
  have hm17 : Num.max (Num.fin (F64.lit 0)) (Num.fin (F64.lit 90)) = Num.fin (F64.lit 90) := by
    rw [Num.max_fin, hv16, hv15]
    norm_num
  simp only [computeMatch, hl2, ho4, ho6, ha8, ho10, ho12, ho14, hm17]

theorem val_x1 : (F64.lit (6333186975989759 / 70368744177664)).val = (6333186975989759 /
    70368744177664) :=
  (F64.lit_pos (6333186975989759 / 70368744177664) (6333186975989759 / 70368744177664) (-46)
      6333186975989759 (by norm_num)).2

theorem val_x2 : (F64.lit 90).val = 90 :=
  (F64.lit_pos 90 90 (-46) 6333186975989760 (by norm_num)).2

/-! ## Claims on match scoring: range, self-match, symmetry -/

/-- C1 (amended): for every finite product and every finite master greater than zero, the
match percentage returned by `computeMatch` is a finite number in `[0, 100]`. -/
theorem computeMatch_in_range (product master : F64) (hm : 0 < master.val) :
    InPercentRange (computeMatch (Num.fin product) (Num.fin master)) := by
  unfold computeMatch
  apply computeMatch_clamp
  apply computeMatch_rest
  apply computeMatch_scaled
  apply computeMatch_quot _ _ hm
  rcases computeMatch_diff product master with h | ⟨d, h, hd⟩
  · exact Or.inl h
  · exact Or.inr ⟨d, h, by rw [hd]; exact abs_nonneg _⟩

/-- C3 (amended): when the two products are exact mirror images around the master, that is
when the doubles passed are exactly `m + d` and `m - d` (in particular for `0 < d < m`),
`computeMatch` returns the same match percentage for both. -/
theorem computeMatch_symmetric (m p q : F64) (d : ℚ)
    (hp : p.val = m.val + d) (hq : q.val = m.val - d) :
    computeMatch (Num.fin p) (Num.fin m) = computeMatch (Num.fin q) (Num.fin m) := by
  have h : Num.abs (Num.sub (Num.fin p) (Num.fin m)) =
      Num.abs (Num.sub (Num.fin q) (Num.fin m)) := by
    rw [Num.sub_fin, Num.sub_fin]
    have h1 : q.val - m.val = -(p.val - m.val) := by rw [hp, hq]; ring
    rw [h1, Num.abs_round_neg]
  unfold computeMatch
  rw [h]

/-! ## Claims on match scoring: counterexamples and witnesses -/

/-- C1 (as stated, refuted): with product `1` and master `-1` the function `computeMatch`
returns `300`, which is above 100. -/
theorem computeMatch_above_100 :
    computeMatch (Num.fin (F64.lit 1)) (Num.fin (F64.lit (-1))) = Num.fin (F64.lit 300) ∧
      ¬ InPercentRange (computeMatch (Num.fin (F64.lit 1)) (Num.fin (F64.lit (-1)))) := by
  refine ⟨match_1_neg1, ?_⟩
  rw [match_1_neg1]
  simp only [InPercentRange, val_300]
  norm_num

theorem computeMatch_in_range_witness :
    (0 : ℚ) < (F64.lit 72).val ∧
      InPercentRange (computeMatch (Num.fin (F64.lit 80)) (Num.fin (F64.lit 72))) :=
  ⟨by rw [val_72]; norm_num,
    computeMatch_in_range (F64.lit 80) (F64.lit 72) (by rw [val_72]; norm_num)⟩

theorem score_self_witness :
    (0 : ℚ) < (F64.lit 72).val ∧
    computeMatch (Num.fin (F64.lit 72)) (Num.fin (F64.lit 72)) = Num.fin (F64.lit 100) ∧
    Num.ge (computeMatch (Num.fin (F64.lit 72)) (Num.fin (F64.lit 72)))
      (Num.fin PASS_THRESHOLD) = true ∧
    historyReason (fun _ => "") (computeMatch (Num.fin (F64.lit 72)) (Num.fin (F64.lit 72)))
      (Num.ge (computeMatch (Num.fin (F64.lit 72)) (Num.fin (F64.lit 72)))
        (Num.fin PASS_THRESHOLD))
      (Num.fin (F64.lit 72)) (Num.fin (F64.lit 72)) = "Perfect Match" :=
  ⟨by rw [val_72]; norm_num, score_self (fun _ => "") (F64.lit 72) (by rw [val_72]; norm_num)⟩

/-- C3 (as stated, refuted): with master `1` and deviation `0.1` the products `1 + 0.1` and
`1 - 0.1`, computed as the code computes them, get different match percentages:
`89.99999999999999` (that is `90 - 2^-46`) for the first and `90` for the second. -/
theorem computeMatch_not_symmetric :
    computeMatch (Num.add (Num.fin (F64.lit 1)) (Num.fin (F64.lit (1 / 10))))
        (Num.fin (F64.lit 1)) = Num.fin (F64.lit (90 - 2 ^ (-46 : ℤ))) ∧
    computeMatch (Num.sub (Num.fin (F64.lit 1)) (Num.fin (F64.lit (1 / 10))))
        (Num.fin (F64.lit 1)) = Num.fin (F64.lit 90) ∧
    computeMatch (Num.add (Num.fin (F64.lit 1)) (Num.fin (F64.lit (1 / 10))))
        (Num.fin (F64.lit 1)) ≠
      computeMatch (Num.sub (Num.fin (F64.lit 1)) (Num.fin (F64.lit (1 / 10))))
        (Num.fin (F64.lit 1)) := by
  have hx : ((90 : ℚ) - 2 ^ (-46 : ℤ)) = (6333186975989759 / 70368744177664) := by norm_num
  rw [match_above_one, match_below_one, hx]
  refine ⟨rfl, rfl, ?_⟩
  intro h
  have h2 := congrArg (fun x => match x with | Num.fin d => d.val | _ => 0) h
  simp only [val_x1, val_x2] at h2
  norm_num at h2

theorem computeMatch_symmetric_witness :
    (F64.lit 80).val = (F64.lit 72).val + 8 ∧ (F64.lit 64).val = (F64.lit 72).val - 8 ∧
    computeMatch (Num.fin (F64.lit 80)) (Num.fin (F64.lit 72)) =
      computeMatch (Num.fin (F64.lit 64)) (Num.fin (F64.lit 72)) := by
  have h64 : (F64.lit 64).val = 64 := by simpa using F64.lit_int 64 (by norm_num)
  have h1 : (F64.lit 80).val = (F64.lit 72).val + 8 := by rw [val_80, val_72]; norm_num
  have h2 : (F64.lit 64).val = (F64.lit 72).val - 8 := by rw [h64, val_72]; norm_num
  exact ⟨h1, h2, computeMatch_symmetric (F64.lit 72) (F64.lit 80) (F64.lit 64) 8 h1 h2⟩

theorem fixed_11_1 (toStr : ℚ → String) :
    toFixed1 toStr (Num.fin (F64.lit (3127499741229511 / 281474976710656))) = "11.1" := by
  have h := toFixed1_of toStr (F64.lit (3127499741229511 / 281474976710656)) 111
    (by rw [val_d2, abs_of_pos (by norm_num)]; norm_num)
    (by rw [val_d2, abs_of_pos (by norm_num)]; norm_num)
    (by rw [val_d2, abs_of_pos (by norm_num)]; norm_num)
  rw [h, val_d2, if_neg (by norm_num)]
  decide

theorem fixed_5_1 (toStr : ℚ → String) :
    toFixed1 toStr (Num.fin (F64.lit (5798384520239513 / 1125899906842624))) = "5.1" := by
  have h := toFixed1_of toStr (F64.lit (5798384520239513 / 1125899906842624)) 51
    (by rw [val_d3, abs_of_pos (by norm_num)]; norm_num)
    (by rw [val_d3, abs_of_pos (by norm_num)]; norm_num)
    (by rw [val_d3, abs_of_pos (by norm_num)]; norm_num)
  rw [h, val_d3, if_neg (by norm_num)]
  decide

theorem reason_80_72 (toStr : ℚ → String) :
    Num.ge (computeMatch (Num.fin (F64.lit 80)) (Num.fin (F64.lit 72)))
      (Num.fin PASS_THRESHOLD) = false ∧
    historyReason toStr (computeMatch (Num.fin (F64.lit 80)) (Num.fin (F64.lit 72)))
      (Num.ge (computeMatch (Num.fin (F64.lit 80)) (Num.fin (F64.lit 72)))
        (Num.fin PASS_THRESHOLD))
      (Num.fin (F64.lit 80)) (Num.fin (F64.lit 72)) = "Too Large (+11.1%)" := by
  have hp : Num.ge (computeMatch (Num.fin (F64.lit 80)) (Num.fin (F64.lit 72)))
      (Num.fin PASS_THRESHOLD) = false := by
    rw [match_80_72, Num.ge_fin, PASS_THRESHOLD, F64.lit_95_val, val_m2]
    norm_num
  rw [hp, historyReason_failed, gt_sub_zero, val_72, val_80, deviation_80_72, fixed_11_1]
  exact ⟨rfl, by decide⟩

theorem reason_2103_2000 (toStr : ℚ → String) :
    Num.ge (computeMatch (Num.fin (F64.lit 2103)) (Num.fin (F64.lit 2000)))
      (Num.fin PASS_THRESHOLD) = false ∧
    historyReason toStr (computeMatch (Num.fin (F64.lit 2103)) (Num.fin (F64.lit 2000)))
      (Num.ge (computeMatch (Num.fin (F64.lit 2103)) (Num.fin (F64.lit 2000)))
        (Num.fin PASS_THRESHOLD))
      (Num.fin (F64.lit 2103)) (Num.fin (F64.lit 2000)) = "Too Large (+5.1%)" := by
  have hp : Num.ge (computeMatch (Num.fin (F64.lit 2103)) (Num.fin (F64.lit 2000)))
      (Num.fin PASS_THRESHOLD) = false := by
    rw [match_2103_2000, Num.ge_fin, PASS_THRESHOLD, F64.lit_95_val, val_m3]
    norm_num
  rw [hp, historyReason_failed, gt_sub_zero, val_2000, val_2103, deviation_2103_2000,
    fixed_5_1]
  exact ⟨rfl, by decide⟩

theorem reason_756_72 (toStr : ℚ → String) :
    computeMatch (Num.fin (F64.lit (756 / 10))) (Num.fin (F64.lit 72)) =
      Num.fin (F64.lit (95 + 2 ^ (-46 : ℤ))) ∧
    Num.ge (computeMatch (Num.fin (F64.lit (756 / 10))) (Num.fin (F64.lit 72)))
      (Num.fin PASS_THRESHOLD) = true ∧
    historyReason toStr (computeMatch (Num.fin (F64.lit (756 / 10))) (Num.fin (F64.lit 72)))
      (Num.ge (computeMatch (Num.fin (F64.lit (756 / 10))) (Num.fin (F64.lit 72)))
        (Num.fin PASS_THRESHOLD))
      (Num.fin (F64.lit (756 / 10))) (Num.fin (F64.lit 72)) = "Within Tolerance" := by
  have hx : ((95 : ℚ) + 2 ^ (-46 : ℤ)) = (6685030696878081 / 70368744177664) := by norm_num
  have hp : Num.ge (Num.fin (F64.lit (6685030696878081 / 70368744177664))) (Num.fin PASS_THRESHOLD) = true := by
    rw [Num.ge_fin, PASS_THRESHOLD, F64.lit_95_val, val_m1]
    norm_num
  rw [lit_756, match_756_72, hp, hx]
  refine ⟨rfl, rfl, ?_⟩
  simp only [historyReason, Bool.not_true, Num.lt_fin, val_m1, F64.lit_hundred_val]
  norm_num

/-- C8 (as stated, refuted): for master 72 and product 75.6 the match computed is
`95.00000000000001` (that is `95 + 2^-46`), not 95; and for master 2000 and product 2103,
where `(product - master) / master * 100` is exactly `5.15` and rounds to `5.2`, the reason
is "Too Large (+5.1%)". -/
theorem reason_not_exact :
    computeMatch (Num.fin (F64.lit (756 / 10))) (Num.fin (F64.lit 72)) =
      Num.fin (F64.lit (95 + 2 ^ (-46 : ℤ))) ∧
    computeMatch (Num.fin (F64.lit (756 / 10))) (Num.fin (F64.lit 72)) ≠
      Num.fin (F64.lit 95) ∧
    ((2103 : ℚ) - 2000) / 2000 * 100 = 515 / 100 ∧
    tenths (((2103 : ℚ) - 2000) / 2000 * 100) = 52 ∧
    historyReason (fun _ => "")
      (computeMatch (Num.fin (F64.lit 2103)) (Num.fin (F64.lit 2000)))
      (Num.ge (computeMatch (Num.fin (F64.lit 2103)) (Num.fin (F64.lit 2000)))
        (Num.fin PASS_THRESHOLD))
      (Num.fin (F64.lit 2103)) (Num.fin (F64.lit 2000)) = "Too Large (+5.1%)" := by
  refine ⟨(reason_756_72 (fun _ => "")).1, ?_, by norm_num, ?_,
    (reason_2103_2000 (fun _ => "")).2⟩
  · rw [(reason_756_72 (fun _ => "")).1]
    intro h
    have hx : ((95 : ℚ) + 2 ^ (-46 : ℤ)) = (6685030696878081 / 70368744177664) := by norm_num
    rw [hx] at h
    have h2 := congrArg (fun x => match x with | Num.fin d => d.val | _ => 0) h
    simp only [val_m1, F64.lit_95_val] at h2
    norm_num at h2
  · exact tenths_of _ 52 (by norm_num) (by norm_num)

/-- C8 (amended): for every finite master greater than zero and every finite product, with
`passed` the verdict `computeMatch(product, master) >= PASS_THRESHOLD`, the reason computed
in `addToHistory` is "Perfect Match" when product equals master, "Within Tolerance" when
passed and product differs from master, "Too Large (+X%)" when not passed and product is
above master, and "Too Small (-X%)" when not passed and product is below master.  Here `X`
is what `toFixed(1)` prints for the double that the code computes as
`((product - master) / master) * 100`, which is positive in the first case and negative in
the second; for a finite double of magnitude below `10^21`, `toFixed(1)` prints the sign and
the digits of the `n` for which `n / 10` is nearest to the magnitude (the larger `n` on a
tie).  Master 72 with product 75.6 gives the match `95 + 2^-46` (printed as
`95.00000000000001`), passed and "Within Tolerance"; master 72 with product 80 gives not
passed and "Too Large (+11.1%)". -/
theorem reason_classification (toStr : ℚ → String) (product master : F64)
    (hm : 0 < master.val) :
    (product = master →
      historyReason toStr (computeMatch (Num.fin product) (Num.fin master))
        (Num.ge (computeMatch (Num.fin product) (Num.fin master)) (Num.fin PASS_THRESHOLD))
        (Num.fin product) (Num.fin master) = "Perfect Match") ∧
    (Num.ge (computeMatch (Num.fin product) (Num.fin master)) (Num.fin PASS_THRESHOLD) = true →
      product ≠ master →
      historyReason toStr (computeMatch (Num.fin product) (Num.fin master))
        (Num.ge (computeMatch (Num.fin product) (Num.fin master)) (Num.fin PASS_THRESHOLD))
        (Num.fin product) (Num.fin master) = "Within Tolerance") ∧
    (Num.ge (computeMatch (Num.fin product) (Num.fin master)) (Num.fin PASS_THRESHOLD) = false →
      master.val < product.val →
      historyReason toStr (computeMatch (Num.fin product) (Num.fin master))
        (Num.ge (computeMatch (Num.fin product) (Num.fin master)) (Num.fin PASS_THRESHOLD))
        (Num.fin product) (Num.fin master) =
        "Too Large (+" ++
          toFixed1 toStr (Num.mul (Num.div (Num.sub (Num.fin product) (Num.fin master))
            (Num.fin master)) (Num.fin (F64.lit 100))) ++ "%)" ∧
      Num.gt (Num.mul (Num.div (Num.sub (Num.fin product) (Num.fin master))
        (Num.fin master)) (Num.fin (F64.lit 100))) (Num.fin (F64.lit 0)) = true) ∧
    (Num.ge (computeMatch (Num.fin product) (Num.fin master)) (Num.fin PASS_THRESHOLD) = false →
      product.val < master.val →
      historyReason toStr (computeMatch (Num.fin product) (Num.fin master))
        (Num.ge (computeMatch (Num.fin product) (Num.fin master)) (Num.fin PASS_THRESHOLD))
        (Num.fin product) (Num.fin master) =
        "Too Small (" ++
          toFixed1 toStr (Num.mul (Num.div (Num.sub (Num.fin product) (Num.fin master))
            (Num.fin master)) (Num.fin (F64.lit 100))) ++ "%)" ∧
      Num.lt (Num.mul (Num.div (Num.sub (Num.fin product) (Num.fin master))
        (Num.fin master)) (Num.fin (F64.lit 100))) (Num.fin (F64.lit 0)) = true) ∧
    (∀ (x : F64) (n : ℕ), |x.val| < 10 ^ 21 → (n : ℚ) / 10 - 1 / 20 ≤ |x.val| →
      |x.val| < (n : ℚ) / 10 + 1 / 20 →
      toFixed1 toStr (Num.fin x) =
        (if x.val < 0 then "-" else "") ++
          (toString (n / 10) ++ "." ++ toString (n % 10))) ∧
    (computeMatch (Num.fin (F64.lit (756 / 10))) (Num.fin (F64.lit 72)) =
        Num.fin (F64.lit (95 + 2 ^ (-46 : ℤ))) ∧
      Num.ge (computeMatch (Num.fin (F64.lit (756 / 10))) (Num.fin (F64.lit 72)))
        (Num.fin PASS_THRESHOLD) = true ∧
      historyReason toStr (computeMatch (Num.fin (F64.lit (756 / 10))) (Num.fin (F64.lit 72)))
        (Num.ge (computeMatch (Num.fin (F64.lit (756 / 10))) (Num.fin (F64.lit 72)))
          (Num.fin PASS_THRESHOLD))
        (Num.fin (F64.lit (756 / 10))) (Num.fin (F64.lit 72)) = "Within Tolerance") ∧
    (Num.ge (computeMatch (Num.fin (F64.lit 80)) (Num.fin (F64.lit 72)))
        (Num.fin PASS_THRESHOLD) = false ∧
      historyReason toStr (computeMatch (Num.fin (F64.lit 80)) (Num.fin (F64.lit 72)))
        (Num.ge (computeMatch (Num.fin (F64.lit 80)) (Num.fin (F64.lit 72)))
          (Num.fin PASS_THRESHOLD))
        (Num.fin (F64.lit 80)) (Num.fin (F64.lit 72)) = "Too Large (+11.1%)") := by
  refine ⟨?_, ?_, ?_, ?_, fun x n hx h1 h2 => toFixed1_of toStr x n hx h1 h2,
    reason_756_72 toStr, reason_80_72 toStr⟩
  · intro h
    subst h
    rw [computeMatch_self product hm, ge_threshold_hundred]
    simp [historyReason, Num.lt_fin]
  · intro hp hne
    obtain ⟨r, hr, _, hr2⟩ := computeMatch_lt_hundred product master hm hne
    rw [hp, hr]
    have hlt : r.val < 100 := lt_of_le_of_lt hr2 (by norm_num)
    simp [historyReason, Num.lt_fin, F64.lit_hundred_val, hlt]
  · intro hp hlt
    rw [hp, historyReason_failed, gt_sub_zero]
    simp only [hlt, decide_True, if_true]
    exact ⟨trivial, deviation_pos product master hm hlt⟩
  · intro hp hlt
    rw [hp, historyReason_failed, gt_sub_zero]
    have hn : ¬ master.val < product.val := by linarith
    simp only [hn, decide_False, Bool.false_eq_true, if_false]
    exact ⟨trivial, deviation_neg product master hm hlt⟩

theorem reason_classification_witness :
    (0 : ℚ) < (F64.lit 72).val ∧
    historyReason (fun _ => "")
      (computeMatch (Num.fin (F64.lit 80)) (Num.fin (F64.lit 72)))
      (Num.ge (computeMatch (Num.fin (F64.lit 80)) (Num.fin (F64.lit 72)))
        (Num.fin PASS_THRESHOLD))
      (Num.fin (F64.lit 80)) (Num.fin (F64.lit 72)) = "Too Large (+11.1%)" :=
  ⟨by rw [val_72]; norm_num,
    (reason_classification (fun _ => "") (F64.lit 80) (F64.lit 72)
      (by rw [val_72]; norm_num)).2.2.2.2.2.2.2⟩

/-! ## Lemmas on the noise filter -/

theorem F64.lit_500_val : (F64.lit 500).val = 500 := by
  simpa using F64.lit_int 500 (by norm_num)

theorem validFrom_nil (i : ℕ) : validFrom i [] = [] := rfl

theorem validFrom_cons (i : ℕ) (c : Contour) (rest : List Contour) :
    validFrom i (c :: rest) =
      if MIN_CONTOUR_AREA.val < c.contourArea.val then ⟨i, c⟩ :: validFrom (i + 1) rest
      else validFrom (i + 1) rest := by
  simp [validFrom, Num.gt_fin]

theorem mem_validFrom (contours : List Contour) (i : ℕ) (h : Handle) :
    h ∈ validFrom i contours ↔
      ∃ k, h.slot = i + k ∧ contours[k]? = some h.shape ∧
        MIN_CONTOUR_AREA.val < h.shape.contourArea.val := by
  induction contours generalizing i with
  | nil => simp [validFrom]
  | cons c rest ih =>
    have step : (∃ k, h.slot = i + 1 + k ∧ rest[k]? = some h.shape ∧
        MIN_CONTOUR_AREA.val < h.shape.contourArea.val) ↔
        ∃ k, h.slot = i + (k + 1) ∧ (c :: rest)[k + 1]? = some h.shape ∧
          MIN_CONTOUR_AREA.val < h.shape.contourArea.val := by
      constructor
      · rintro ⟨k, h1, h2, h3⟩
        exact ⟨k, by omega, by simpa using h2, h3⟩
      · rintro ⟨k, h1, h2, h3⟩
        exact ⟨k, by omega, by simpa using h2, h3⟩
    have split : (∃ k, h.slot = i + k ∧ (c :: rest)[k]? = some h.shape ∧
        MIN_CONTOUR_AREA.val < h.shape.contourArea.val) ↔
        (h.slot = i ∧ c = h.shape ∧ MIN_CONTOUR_AREA.val < h.shape.contourArea.val) ∨
        ∃ k, h.slot = i + (k + 1) ∧ (c :: rest)[k + 1]? = some h.shape ∧
          MIN_CONTOUR_AREA.val < h.shape.contourArea.val := by
      constructor
      · rintro ⟨k, h1, h2, h3⟩
        cases k with
        | zero => exact Or.inl ⟨by simpa using h1, by simpa using h2, h3⟩
        | succ k => exact Or.inr ⟨k, h1, h2, h3⟩
      · rintro (⟨h1, h2, h3⟩ | ⟨k, h1, h2, h3⟩)
        · exact ⟨0, by simpa using h1, by simpa using h2, h3⟩
        · exact ⟨k + 1, h1, h2, h3⟩
    rw [split, ← step, ← ih (i + 1), validFrom_cons]
    by_cases hc : MIN_CONTOUR_AREA.val < c.contourArea.val
    · rw [if_pos hc, List.mem_cons]
      constructor
      · rintro (rfl | hmem)
        · exact Or.inl ⟨rfl, rfl, hc⟩
        · exact Or.inr hmem
      · rintro (⟨h1, h2, _⟩ | hmem)
        · left
          cases h
          simp only at h1 h2
          rw [h1, h2]
        · exact Or.inr hmem
    · rw [if_neg hc]
      constructor
      · exact Or.inr
      · rintro (⟨_, h2, h3⟩ | hmem)
        · exact absurd (h2 ▸ h3) hc
        · exact hmem

theorem mem_valid (contours : List Contour) (h : Handle) :
    h ∈ validContours contours ↔
      contours[h.slot]? = some h.shape ∧ MIN_CONTOUR_AREA.val < h.shape.contourArea.val := by
  unfold validContours
  rw [mem_validFrom]
  constructor
  · rintro ⟨k, h1, h2, h3⟩
    have : h.slot = k := by omega
    exact ⟨this ▸ h2, h3⟩
  · rintro ⟨h2, h3⟩
    exact ⟨h.slot, by omega, h2, h3⟩

theorem valid_slot_inj (contours : List Contour) (a b : Handle)
    (ha : a ∈ validContours contours) (hb : b ∈ validContours contours)
    (hs : a.slot = b.slot) : a = b := by
  have h1 := ((mem_valid contours a).mp ha).1
  have h2 := ((mem_valid contours b).mp hb).1
  rw [hs, h2] at h1
  cases a
  cases b
  simp only at hs
  simp only [Option.some.injEq] at h1
  rw [hs, h1]

theorem valid_nodup_from (contours : List Contour) (i : ℕ) : (validFrom i contours).Nodup := by
  induction contours generalizing i with
  | nil => simp [validFrom]
  | cons c rest ih =>
    rw [validFrom_cons]
    split
    · refine List.nodup_cons.mpr ⟨?_, ih (i + 1)⟩
      intro hmem
      obtain ⟨k, hk, _⟩ := (mem_validFrom rest (i + 1) _).mp hmem
      simp only at hk
      omega
    · exact ih (i + 1)

theorem valid_other (contours : List Contour) (coin : Handle)
    (hlen : 2 ≤ (validContours contours).length) :
    ∃ c ∈ validContours contours, c.slot ≠ coin.slot := by
  have hnd : (validContours contours).Nodup := valid_nodup_from contours 0
  match hv : validContours contours, hlen, hnd with
  | a :: b :: rest, _, hnd =>
    have hab : a ≠ b := by
      intro h
      rw [h] at hnd
      exact (List.nodup_cons.mp hnd).1 (List.mem_cons_self _ _)
    by_cases ha : a.slot = coin.slot
    · refine ⟨b, by simp, ?_⟩
      intro hb
      apply hab
      apply valid_slot_inj contours a b
      · rw [hv]; simp
      · rw [hv]; simp
      · rw [ha, hb]
    · exact ⟨a, by simp, ha⟩

/-! ## Lemmas on sorting and selection -/

theorem arraySort_head {α : Type} (cmp : α → α → Num) (S : α → Prop)
    (total : ∀ a b, S a → S b →
      Num.gt (cmp a b) (Num.fin (F64.lit 0)) = false ∨
        Num.gt (cmp b a) (Num.fin (F64.lit 0)) = false)
    (trans : ∀ a b c, S a → S b → S c → Num.gt (cmp a b) (Num.fin (F64.lit 0)) = false →
      Num.gt (cmp b c) (Num.fin (F64.lit 0)) = false →
      Num.gt (cmp a c) (Num.fin (F64.lit 0)) = false)
    (l : List α) (hS : ∀ x ∈ l, S x) (hne : l ≠ []) :
    ∃ x, (arraySort cmp l).head? = some x ∧ x ∈ l ∧
      ∀ y ∈ l, Num.gt (cmp x y) (Num.fin (F64.lit 0)) = false := by
  induction l with
  | nil => exact absurd rfl hne
  | cons x xs ih =>
    have hSx : S x := hS x (List.mem_cons_self _ _)
    have hSxs : ∀ y ∈ xs, S y := fun y hy => hS y (List.mem_cons_of_mem _ hy)
    by_cases hxs : xs = []
    · subst hxs
      refine ⟨x, rfl, by simp, ?_⟩
      intro y hy
      rw [List.mem_singleton] at hy
      subst hy
      exact (total y y hSx hSx).elim id id
    · obtain ⟨h, hhead, hmem, hmin⟩ := ih hSxs hxs
      match hs : arraySort cmp xs, hhead with
      | z :: t, hhead =>
        simp only [List.head?_cons, Option.some.injEq] at hhead
        subst hhead
        have hSz : S z := hSxs z hmem
        by_cases hc : Num.gt (cmp x z) (Num.fin (F64.lit 0)) = true
        · refine ⟨z, ?_, List.mem_cons_of_mem _ hmem, ?_⟩
          · simp [arraySort, hs, sortInsert, hc]
          · intro y hy
            rcases List.mem_cons.mp hy with rfl | hy
            · rcases total y z hSx hSz with h1 | h1
              · rw [h1] at hc
                cases hc
              · exact h1
            · exact hmin y hy
        · have hc2 : Num.gt (cmp x z) (Num.fin (F64.lit 0)) = false := by
            simpa using hc
          refine ⟨x, ?_, by simp, ?_⟩
          · simp [arraySort, hs, sortInsert, hc2]
          · intro y hy
            rcases List.mem_cons.mp hy with rfl | hy
            · exact (total y y hSx hSx).elim id id
            · exact trans _ _ _ hSx hSz (hSxs y hy) hc2 (hmin y hy)

theorem sortInsert_ne_nil {α : Type} (cmp : α → α → Num) (x : α) (l : List α) :
    ∃ y, (sortInsert cmp x l).head? = some y ∧ (y = x ∨ y ∈ l) := by
  cases l with
  | nil => exact ⟨x, rfl, Or.inl rfl⟩
  | cons z t =>
    unfold sortInsert
    split
    · exact ⟨z, rfl, Or.inr (List.mem_cons_self _ _)⟩
    · exact ⟨x, rfl, Or.inl rfl⟩

theorem mem_sortInsert {α : Type} (cmp : α → α → Num) (x y : α) (l : List α) :
    y ∈ sortInsert cmp x l ↔ y = x ∨ y ∈ l := by
  induction l with
  | nil => simp [sortInsert]
  | cons z t ih =>
    unfold sortInsert
    split
    · rw [List.mem_cons, ih, List.mem_cons]
      tauto
    · simp [List.mem_cons]

theorem mem_arraySort {α : Type} (cmp : α → α → Num) (y : α) (l : List α) :
    y ∈ arraySort cmp l ↔ y ∈ l := by
  induction l with
  | nil => simp [arraySort]
  | cons x xs ih =>
    rw [arraySort, mem_sortInsert, ih, List.mem_cons]

theorem arraySort_head_mem {α : Type} (cmp : α → α → Num) (l : List α) (hne : l ≠ []) :
    ∃ x, (arraySort cmp l).head? = some x ∧ x ∈ l := by
  cases l with
  | nil => exact absurd rfl hne
  | cons x xs =>
    obtain ⟨y, hy, hmem⟩ := sortInsert_ne_nil cmp x (arraySort cmp xs)
    refine ⟨y, hy, ?_⟩
    rcases hmem with rfl | h
    · exact List.mem_cons_self _ _
    · exact List.mem_cons_of_mem _ ((mem_arraySort cmp y xs).mp h)

theorem areaOrder_gt (a b : Handle) :
    Num.gt (areaOrder a b) (Num.fin (F64.lit 0)) =
      decide (a.shape.contourArea.val < b.shape.contourArea.val) := by
  unfold areaOrder
  exact gt_sub_zero _ _

theorem selectObject_spec (valid : List Handle) (coin : Handle)
    (hother : ∃ c ∈ valid, c.slot ≠ coin.slot) :
    ∃ object, selectObject valid coin = some object ∧ object ∈ valid ∧
      object.slot ≠ coin.slot ∧
      ∀ c ∈ valid, c.slot ≠ coin.slot →
        c.shape.contourArea.val ≤ object.shape.contourArea.val := by
  obtain ⟨c0, hc0, hc0s⟩ := hother
  have hne : (valid.filter fun c => c.slot ≠ coin.slot) ≠ [] := by
    intro h
    have : c0 ∈ valid.filter fun c => c.slot ≠ coin.slot := by
      simp [List.mem_filter, hc0, hc0s]
    rw [h] at this
    exact absurd this (List.not_mem_nil _)
  obtain ⟨x, hhead, hmem, hmin⟩ := arraySort_head areaOrder (fun _ => True)
    (fun a b _ _ => by
      rw [areaOrder_gt, areaOrder_gt]
      rcases le_total a.shape.contourArea.val b.shape.contourArea.val with h | h
      · right
        simp [not_lt.mpr h]
      · left
        simp [not_lt.mpr h])
    (fun a b c _ _ _ h1 h2 => by
      rw [areaOrder_gt] at h1 h2 ⊢
      simp only [decide_eq_false_iff_not, not_lt] at h1 h2 ⊢
      linarith) _ (fun _ _ => trivial) hne
  have hx := List.mem_filter.mp hmem
  refine ⟨x, hhead, hx.1, by simpa using hx.2, ?_⟩
  intro c hc hcs
  have := hmin c (List.mem_filter.mpr ⟨hc, by simpa using hcs⟩)
  rw [areaOrder_gt] at this
  simpa using this

theorem selectCoin_mem (valid : List Handle) (hne : valid ≠ []) :
    ∃ coin, selectCoin valid = some coin ∧ coin ∈ valid := by
  have hne2 : valid.map scoreOf ≠ [] := by simpa using hne
  obtain ⟨x, hhead, hmem⟩ := arraySort_head_mem coinOrder (valid.map scoreOf) hne2
  obtain ⟨coin, hcoin, rfl⟩ := List.mem_map.mp hmem
  exact ⟨coin, by simp [selectCoin, hhead, scoreOf], hcoin⟩

theorem measurePerimeter_short (contours : List Contour)
    (hlen : (validContours contours).length < 2) :
    measurePerimeter contours = Except.error Thrown.notEnoughContours := by
  simp only [measurePerimeter, if_pos hlen]

theorem measurePerimeter_enough (contours : List Contour)
    (hlen : 2 ≤ (validContours contours).length) :
    ∃ coin object, selectCoin (validContours contours) = some coin ∧
      coin ∈ validContours contours ∧
      selectObject (validContours contours) coin = some object ∧
      measurePerimeter contours = Except.ok (Num.div (Num.fin object.shape.arcLength)
        (Num.div (Num.mul (Num.fin (F64.lit 2)) (Num.fin coin.shape.enclosingRadius))
          (Num.fin COIN_DIAMETER_MM))) := by
  have hne : validContours contours ≠ [] := by
    intro h
    rw [h] at hlen
    simp at hlen
  obtain ⟨coin, hcoin, hmem⟩ := selectCoin_mem _ hne
  obtain ⟨object, hobj, _, _, _⟩ :=
    selectObject_spec _ coin (valid_other contours coin hlen)
  refine ⟨coin, object, hcoin, hmem, hobj, ?_⟩
  simp only [measurePerimeter, if_neg (not_lt.mpr hlen), hcoin, hobj]

/-! ## The order that the coin comparator sorts by -/

theorem Num.abs_cases (x : Num) :
    Num.abs x = Num.nan ∨ Num.abs x = Num.pinf ∨ ∃ d : F64, Num.abs x = Num.fin d := by
  cases x with
  | nan => exact Or.inl rfl
  | ninf => exact Or.inr (Or.inl rfl)
  | pinf => exact Or.inr (Or.inl rfl)
  | fin a =>
    obtain ⟨d, hd, _⟩ := Num.abs_fin_val a
    exact Or.inr (Or.inr ⟨d, hd⟩)

theorem score_cases (c : Handle) (h : (scoreOf c).score ≠ Num.nan) :
    (scoreOf c).score = Num.pinf ∨ ∃ d : F64, (scoreOf c).score = Num.fin d := by
  rcases Num.abs_cases (Num.sub (circularity c) (Num.fin (F64.lit 1))) with h1 | h1 | h1
  · exact absurd h1 h
  · exact Or.inl h1
  · exact Or.inr h1

theorem round_sub_neg (x y : F64) (h : x.val < y.val) :
    Num.round (x.val - y.val) = Num.ninf ∨
      ∃ d : F64, Num.round (x.val - y.val) = Num.fin d ∧ d.val < 0 := by
  have hpos := double_sub_pos y.val x.val y.fl_val x.fl_val h
  have hneg : fl (x.val - y.val) < 0 := by
    have : x.val - y.val = -(y.val - x.val) := by ring
    rw [this, fl_neg]
    linarith
  rcases Num.round_cases_strict (x.val - y.val) with ⟨d, hd, hv⟩ | ⟨hp, _⟩ | ⟨_, hd⟩
  · exact Or.inr ⟨d, hd, by rw [hv]; exact hneg⟩
  · linarith
  · exact Or.inl hd

theorem round_sub_pos (x y : F64) (h : y.val < x.val) :
    Num.round (x.val - y.val) = Num.pinf ∨
      ∃ d : F64, Num.round (x.val - y.val) = Num.fin d ∧ 0 < d.val := by
  have hpos := double_sub_pos x.val y.val x.fl_val y.fl_val h
  rcases Num.round_cases_strict (x.val - y.val) with ⟨d, hd, hv⟩ | ⟨_, hd⟩ | ⟨hn, _⟩
  · exact Or.inr ⟨d, hd, by rw [hv]; exact hpos⟩
  · exact Or.inl hd
  · linarith

theorem coinOrder_before (a b : Scored)
    (ha : a.score = Num.pinf ∨ ∃ d : F64, a.score = Num.fin d)
    (hb : b.score = Num.pinf ∨ ∃ d : F64, b.score = Num.fin d) :
    Num.gt (coinOrder a b) (Num.fin (F64.lit 0)) = false ↔
      scoreKey a.score < scoreKey b.score ∨
        (scoreKey a.score = scoreKey b.score ∧ b.area.val ≤ a.area.val) := by
  have harea : Num.gt (Num.sub (Num.fin b.area) (Num.fin a.area)) (Num.fin (F64.lit 0)) = false
      ↔ b.area.val ≤ a.area.val := by
    rw [gt_sub_zero]
    simp
  unfold coinOrder
  rcases ha with ha | ⟨x, ha⟩ <;> rcases hb with hb | ⟨y, hb⟩ <;> rw [ha, hb]
  · -- both scores are `+Infinity`: their difference is `NaN`
    have : Num.or (Num.sub Num.pinf Num.pinf)
        (Num.sub (Num.fin b.area) (Num.fin a.area)) =
        Num.sub (Num.fin b.area) (Num.fin a.area) := rfl
    rw [this, harea]
    simp [scoreKey]
  · have : Num.or (Num.sub Num.pinf (Num.fin y))
        (Num.sub (Num.fin b.area) (Num.fin a.area)) = Num.pinf := rfl
    rw [this]
    simp [scoreKey, Num.gt, Num.lt]
  · have : Num.or (Num.sub (Num.fin x) Num.pinf)
        (Num.sub (Num.fin b.area) (Num.fin a.area)) = Num.ninf := rfl
    rw [this]
    simp [scoreKey, Num.gt, Num.lt]
  · rw [Num.sub_fin]
    simp only [scoreKey, WithTop.coe_lt_coe, WithTop.coe_eq_coe]
    rcases lt_trichotomy x.val y.val with h | h | h
    · rcases round_sub_neg x y h with hr | ⟨d, hr, hd⟩
      · rw [hr]
        simp [Num.or, Num.gt, Num.lt, h]
      · rw [hr]
        simp [Num.or, hd.ne, Num.gt_fin, F64.lit_zero_val, h, not_lt.mpr hd.le]
    · rw [h, sub_self, Num.round_zero]
      have : Num.or (Num.fin (F64.lit 0)) (Num.sub (Num.fin b.area) (Num.fin a.area)) =
          Num.sub (Num.fin b.area) (Num.fin a.area) := by
        simp [Num.or, F64.lit_zero_val]
      rw [this, harea]
      simp
    · rcases round_sub_pos x y h with hr | ⟨d, hr, hd⟩
      · rw [hr]
        simp [Num.or, Num.gt, Num.lt, not_lt.mpr h.le, h.ne.symm]
      · rw [hr]
        simp [Num.or, hd.ne.symm, Num.gt_fin, F64.lit_zero_val, hd, not_lt.mpr h.le,
          h.ne.symm]

theorem scoreKey_le (s t : Num)
    (hs : s = Num.pinf ∨ ∃ d : F64, s = Num.fin d)
    (ht : t = Num.pinf ∨ ∃ d : F64, t = Num.fin d) :
    scoreKey s ≤ scoreKey t ↔ Num.lt t s = false := by
  rcases hs with rfl | ⟨x, rfl⟩ <;> rcases ht with rfl | ⟨y, rfl⟩
  · simp [scoreKey, Num.lt]
  · simp [scoreKey, Num.lt]
  · simp [scoreKey, Num.lt]
  · simp [scoreKey, Num.lt_fin]

theorem scoreKey_eq (s t : Num)
    (hs : s = Num.pinf ∨ ∃ d : F64, s = Num.fin d)
    (ht : t = Num.pinf ∨ ∃ d : F64, t = Num.fin d) :
    scoreKey s = scoreKey t ↔ s = t := by
  rcases hs with rfl | ⟨x, rfl⟩ <;> rcases ht with rfl | ⟨y, rfl⟩
  · simp [scoreKey]
  · simp [scoreKey]
  · simp [scoreKey]
  · simp only [scoreKey, WithTop.coe_eq_coe, Num.fin.injEq]
    exact ⟨F64.eq_of_val x y, fun h => by rw [h]⟩

theorem selectCoin_spec (valid : List Handle) (hne : valid ≠ [])
    (hS : ∀ c ∈ valid, (scoreOf c).score ≠ Num.nan) :
    ∃ coin, selectCoin valid = some coin ∧ coin ∈ valid ∧
      ∀ c ∈ valid, Num.lt (scoreOf c).score (scoreOf coin).score = false ∧
        ((scoreOf c).score = (scoreOf coin).score →
          c.shape.contourArea.val ≤ coin.shape.contourArea.val) := by
  have hne2 : valid.map scoreOf ≠ [] := by simpa using hne
  obtain ⟨x, hhead, hmem, hmin⟩ := arraySort_head coinOrder
    (fun a => a.score = Num.pinf ∨ ∃ d : F64, a.score = Num.fin d)
    (fun a b ha hb => by
      rw [coinOrder_before a b ha hb, coinOrder_before b a hb ha]
      rcases lt_trichotomy (scoreKey a.score) (scoreKey b.score) with h | h | h
      · exact Or.inl (Or.inl h)
      · rcases le_total a.area.val b.area.val with h2 | h2
        · exact Or.inr (Or.inr ⟨h.symm, h2⟩)
        · exact Or.inl (Or.inr ⟨h, h2⟩)
      · exact Or.inr (Or.inl h))
    (fun a b c ha hb hc hab hbc => by
      rw [coinOrder_before _ _ ha hb] at hab
      rw [coinOrder_before _ _ hb hc] at hbc
      rw [coinOrder_before _ _ ha hc]
      rcases hab with h1 | ⟨h1, h1a⟩ <;> rcases hbc with h2 | ⟨h2, h2a⟩
      · exact Or.inl (h1.trans h2)
      · exact Or.inl (h2 ▸ h1)
      · exact Or.inl (h1 ▸ h2)
      · exact Or.inr ⟨h1.trans h2, h2a.trans h1a⟩)
    (valid.map scoreOf)
    (fun s hs => by
      obtain ⟨c, hc, rfl⟩ := List.mem_map.mp hs
      exact score_cases c (hS c hc))
    hne2
  obtain ⟨coin, hcoin, rfl⟩ := List.mem_map.mp hmem
  refine ⟨coin, by simp [selectCoin, hhead, scoreOf], hcoin, ?_⟩
  intro c hc
  have hsc := score_cases c (hS c hc)
  have hscoin := score_cases coin (hS coin hcoin)
  have h := (coinOrder_before _ _ hscoin hsc).mp (hmin (scoreOf c) (List.mem_map_of_mem _ hc))
  rcases h with h | ⟨h1, h2⟩
  · refine ⟨(scoreKey_le _ _ hscoin hsc).mp h.le, fun e => ?_⟩
    rw [e] at h
    exact absurd h (lt_irrefl _)
  · exact ⟨(scoreKey_le _ _ hscoin hsc).mp h1.le, fun _ => h2⟩

theorem selectCoin_strict (valid : List Handle) (circle : Handle) (hmem : circle ∈ valid)
    (hS : ∀ c ∈ valid, (scoreOf c).score ≠ Num.nan)
    (hlt : ∀ c ∈ valid, c ≠ circle → Num.lt (scoreOf circle).score (scoreOf c).score = true) :
    selectCoin valid = some circle := by
  have hne : valid ≠ [] := List.ne_nil_of_mem hmem
  obtain ⟨coin, hcoin, hcmem, hmin⟩ := selectCoin_spec valid hne hS
  rw [hcoin]
  congr 1
  by_contra hcc
  have h1 := (hmin circle hmem).1
  rw [hlt coin hcmem hcc] at h1
  cases h1

theorem score_sampleCoin :
    ∀ i : ℕ, (scoreOf ⟨i, sampleCoin⟩).score = Num.fin (F64.lit (571072779739 / 1125899906842624))
        := by
  intro i
  have hv1 : (F64.lit 4).val = 4 :=
    (F64.lit_pos 4 4 (-50) 4503599627370496 (by norm_num)).2
  have hv2 : (F64.lit (884279719003555 / 281474976710656)).val = (884279719003555 / 281474976710656)
      :=
    (F64.lit_pos (884279719003555 / 281474976710656) (884279719003555 / 281474976710656) (-51)
        7074237752028440 (by norm_num)).2
  have ho3 : Num.mul (Num.fin (F64.lit 4)) (Num.fin (F64.lit (884279719003555 / 281474976710656))) =
      Num.fin (F64.lit (884279719003555 / 70368744177664)) := by
    rw [Num.mul_fin, hv1, hv2]
    exact Num.round_pos _ _ (-49) 7074237752028440 (by norm_num)
  have hv4 : (F64.lit (884279719003555 / 70368744177664)).val = (884279719003555 / 70368744177664)
      :=
    (F64.lit_pos (884279719003555 / 70368744177664) (884279719003555 / 70368744177664) (-49)
        7074237752028440 (by norm_num)).2
  have hv5 : (F64.lit 7850).val = 7850 :=
    (F64.lit_pos 7850 7850 (-40) 8631166278041600 (by norm_num)).2
  have ho6 : Num.mul (Num.fin (F64.lit (884279719003555 / 70368744177664))) (Num.fin (F64.lit 7850))
      = Num.fin (F64.lit (3389451071375931 / 34359738368)) := by
    rw [Num.mul_fin, hv4, hv5]
    exact Num.round_pos _ _ (-36) 6778902142751862 (by norm_num)
  have hv7 : (F64.lit (3389451071375931 / 34359738368)).val = (3389451071375931 / 34359738368) :=
    (F64.lit_pos (3389451071375931 / 34359738368) (3389451071375931 / 34359738368) (-36)
        6778902142751862 (by norm_num)).2
  have hv8 : (F64.lit 314).val = 314 :=
    (F64.lit_pos 314 314 (-44) 5523946417946624 (by norm_num)).2
  have ho9 : Num.mul (Num.fin (F64.lit 314)) (Num.fin (F64.lit 314)) = Num.fin (F64.lit 98596) := by
    rw [Num.mul_fin, hv8]
    exact Num.round_pos _ _ (-36) 6775465528262656 (by norm_num)
  have hv10 : (F64.lit 98596).val = 98596 :=
    (F64.lit_pos 98596 98596 (-36) 6775465528262656 (by norm_num)).2
  have ho11 : Num.div (Num.fin (F64.lit (3389451071375931 / 34359738368))) (Num.fin (F64.lit 98596))
      = Num.fin (F64.lit (1126470979622363 / 1125899906842624)) := by
    rw [Num.div_fin _ _ (by rw [hv10]; norm_num), hv7, hv10]
    exact Num.round_pos _ _ (-52) 4505883918489452 (by norm_num)
  have hv12 : (F64.lit (1126470979622363 / 1125899906842624)).val = (1126470979622363 /
      1125899906842624) :=
    (F64.lit_pos (1126470979622363 / 1125899906842624) (1126470979622363 / 1125899906842624) (-52)
        4505883918489452 (by norm_num)).2
  have hv13 : (F64.lit 1).val = 1 :=
    (F64.lit_pos 1 1 (-52) 4503599627370496 (by norm_num)).2
  have ho14 : Num.sub (Num.fin (F64.lit (1126470979622363 / 1125899906842624))) (Num.fin (F64.lit
      1)) = Num.fin (F64.lit (571072779739 / 1125899906842624)) := by
    rw [Num.sub_fin, hv12, hv13]
    exact Num.round_pos _ _ (-63) 4678228211621888 (by norm_num)
  have hv15 : (F64.lit (571072779739 / 1125899906842624)).val = (571072779739 / 1125899906842624) :=
    (F64.lit_pos (571072779739 / 1125899906842624) (571072779739 / 1125899906842624) (-63)
        4678228211621888 (by norm_num)).2
  have ha16 : Num.abs (Num.fin (F64.lit (571072779739 / 1125899906842624))) = Num.fin (F64.lit
      (571072779739 / 1125899906842624)) :=
    Num.abs_fin_of_nonneg _ (by rw [hv15]; norm_num)
  simp only [scoreOf, circularity, sampleCoin, Math_PI]
  rw [hv8, if_neg (by norm_num)]
  simp only [ho3, ho6, ho9, ho11, ho14, ha16]

theorem score_sampleProduct :
    ∀ i : ℕ, (scoreOf ⟨i, sampleProduct⟩).score = Num.fin (F64.lit (2718987919604601 /
        9007199254740992)) := by
  intro i
  have hv1 : (F64.lit 4).val = 4 :=
    (F64.lit_pos 4 4 (-50) 4503599627370496 (by norm_num)).2
  have hv2 : (F64.lit (884279719003555 / 281474976710656)).val = (884279719003555 / 281474976710656)
      :=
    (F64.lit_pos (884279719003555 / 281474976710656) (884279719003555 / 281474976710656) (-51)
        7074237752028440 (by norm_num)).2
  have ho3 : Num.mul (Num.fin (F64.lit 4)) (Num.fin (F64.lit (884279719003555 / 281474976710656))) =
      Num.fin (F64.lit (884279719003555 / 70368744177664)) := by
    rw [Num.mul_fin, hv1, hv2]
    exact Num.round_pos _ _ (-49) 7074237752028440 (by norm_num)
  have hv4 : (F64.lit (884279719003555 / 70368744177664)).val = (884279719003555 / 70368744177664)
      :=
    (F64.lit_pos (884279719003555 / 70368744177664) (884279719003555 / 70368744177664) (-49)
        7074237752028440 (by norm_num)).2
  have hv5 : (F64.lit 5000).val = 5000 :=
    (F64.lit_pos 5000 5000 (-40) 5497558138880000 (by norm_num)).2
  have ho6 : Num.mul (Num.fin (F64.lit (884279719003555 / 70368744177664))) (Num.fin (F64.lit 5000))
      = Num.fin (F64.lit (2158886032723523 / 34359738368)) := by
    rw [Num.mul_fin, hv4, hv5]
    exact Num.round_pos _ _ (-37) 8635544130894092 (by norm_num)
  have hv7 : (F64.lit (2158886032723523 / 34359738368)).val = (2158886032723523 / 34359738368) :=
    (F64.lit_pos (2158886032723523 / 34359738368) (2158886032723523 / 34359738368) (-37)
        8635544130894092 (by norm_num)).2
  have hv8 : (F64.lit 300).val = 300 :=
    (F64.lit_pos 300 300 (-44) 5277655813324800 (by norm_num)).2
  have ho9 : Num.mul (Num.fin (F64.lit 300)) (Num.fin (F64.lit 300)) = Num.fin (F64.lit 90000) := by
    rw [Num.mul_fin, hv8]
    exact Num.round_pos _ _ (-36) 6184752906240000 (by norm_num)
  have hv10 : (F64.lit 90000).val = 90000 :=
    (F64.lit_pos 90000 90000 (-36) 6184752906240000 (by norm_num)).2
  have ho11 : Num.div (Num.fin (F64.lit (2158886032723523 / 34359738368))) (Num.fin (F64.lit 90000))
      = Num.fin (F64.lit (6288211335136391 / 9007199254740992)) := by
    rw [Num.div_fin _ _ (by rw [hv10]; norm_num), hv7, hv10]
    exact Num.round_pos _ _ (-53) 6288211335136391 (by norm_num)
  have hv12 : (F64.lit (6288211335136391 / 9007199254740992)).val = (6288211335136391 /
      9007199254740992) :=
    (F64.lit_pos (6288211335136391 / 9007199254740992) (6288211335136391 / 9007199254740992) (-53)
        6288211335136391 (by norm_num)).2
  have hv13 : (F64.lit 1).val = 1 :=
    (F64.lit_pos 1 1 (-52) 4503599627370496 (by norm_num)).2
  have ho14 : Num.sub (Num.fin (F64.lit (6288211335136391 / 9007199254740992))) (Num.fin (F64.lit
      1)) = Num.fin (F64.lit (-2718987919604601 / 9007199254740992)) := by
    rw [Num.sub_fin, hv12, hv13]
    exact Num.round_neg _ _ (-54) 5437975839209202 (by norm_num)
  have hv15 : (F64.lit (-2718987919604601 / 9007199254740992)).val = (-2718987919604601 /
      9007199254740992) :=
    (F64.lit_neg (-2718987919604601 / 9007199254740992) (-2718987919604601 / 9007199254740992) (-54)
        5437975839209202 (by norm_num)).2
  have ha16 : Num.abs (Num.fin (F64.lit (-2718987919604601 / 9007199254740992))) = Num.fin (F64.lit
      (2718987919604601 / 9007199254740992)) :=
    Num.abs_fin_of_neg _ _ (by rw [hv15]; norm_num) (by rw [hv15]; norm_num)
  have hv17 : (F64.lit (2718987919604601 / 9007199254740992)).val = (2718987919604601 /
      9007199254740992) :=
    (F64.lit_pos (2718987919604601 / 9007199254740992) (2718987919604601 / 9007199254740992) (-54)
        5437975839209202 (by norm_num)).2
  simp only [scoreOf, circularity, sampleProduct, Math_PI]
  rw [hv8, if_neg (by norm_num)]
  simp only [ho3, ho6, ho9, ho11, ho14, ha16]

theorem score_sampleElongated :
    ∀ i : ℕ, (scoreOf ⟨i, sampleElongated⟩).score = Num.fin (F64.lit (1269266792570187 /
        2251799813685248)) := by
  intro i
  have hv1 : (F64.lit 4).val = 4 :=
    (F64.lit_pos 4 4 (-50) 4503599627370496 (by norm_num)).2
  have hv2 : (F64.lit (884279719003555 / 281474976710656)).val = (884279719003555 / 281474976710656)
      :=
    (F64.lit_pos (884279719003555 / 281474976710656) (884279719003555 / 281474976710656) (-51)
        7074237752028440 (by norm_num)).2
  have ho3 : Num.mul (Num.fin (F64.lit 4)) (Num.fin (F64.lit (884279719003555 / 281474976710656))) =
      Num.fin (F64.lit (884279719003555 / 70368744177664)) := by
    rw [Num.mul_fin, hv1, hv2]
    exact Num.round_pos _ _ (-49) 7074237752028440 (by norm_num)
  have hv4 : (F64.lit (884279719003555 / 70368744177664)).val = (884279719003555 / 70368744177664)
      :=
    (F64.lit_pos (884279719003555 / 70368744177664) (884279719003555 / 70368744177664) (-49)
        7074237752028440 (by norm_num)).2
  have hv5 : (F64.lit 8000).val = 8000 :=
    (F64.lit_pos 8000 8000 (-40) 8796093022208000 (by norm_num)).2
  have ho6 : Num.mul (Num.fin (F64.lit (884279719003555 / 70368744177664))) (Num.fin (F64.lit 8000))
      = Num.fin (F64.lit (6908435304715273 / 68719476736)) := by
    rw [Num.mul_fin, hv4, hv5]
    exact Num.round_pos _ _ (-36) 6908435304715273 (by norm_num)
  have hv7 : (F64.lit (6908435304715273 / 68719476736)).val = (6908435304715273 / 68719476736) :=
    (F64.lit_pos (6908435304715273 / 68719476736) (6908435304715273 / 68719476736) (-36)
        6908435304715273 (by norm_num)).2
  have hv8 : (F64.lit 480).val = 480 :=
    (F64.lit_pos 480 480 (-44) 8444249301319680 (by norm_num)).2
  have ho9 : Num.mul (Num.fin (F64.lit 480)) (Num.fin (F64.lit 480)) = Num.fin (F64.lit 230400) :=
      by
    rw [Num.mul_fin, hv8]
    exact Num.round_pos _ _ (-35) 7916483719987200 (by norm_num)
  have hv10 : (F64.lit 230400).val = 230400 :=
    (F64.lit_pos 230400 230400 (-35) 7916483719987200 (by norm_num)).2
  have ho11 : Num.div (Num.fin (F64.lit (6908435304715273 / 68719476736))) (Num.fin (F64.lit
      230400)) = Num.fin (F64.lit (982533021115061 / 2251799813685248)) := by
    rw [Num.div_fin _ _ (by rw [hv10]; norm_num), hv7, hv10]
    exact Num.round_pos _ _ (-54) 7860264168920488 (by norm_num)
  have hv12 : (F64.lit (982533021115061 / 2251799813685248)).val = (982533021115061 /
      2251799813685248) :=
    (F64.lit_pos (982533021115061 / 2251799813685248) (982533021115061 / 2251799813685248) (-54)
        7860264168920488 (by norm_num)).2
  have hv13 : (F64.lit 1).val = 1 :=
    (F64.lit_pos 1 1 (-52) 4503599627370496 (by norm_num)).2
  have ho14 : Num.sub (Num.fin (F64.lit (982533021115061 / 2251799813685248))) (Num.fin (F64.lit 1))
      = Num.fin (F64.lit (-1269266792570187 / 2251799813685248)) := by
    rw [Num.sub_fin, hv12, hv13]
    exact Num.round_neg _ _ (-53) 5077067170280748 (by norm_num)
  have hv15 : (F64.lit (-1269266792570187 / 2251799813685248)).val = (-1269266792570187 /
      2251799813685248) :=
    (F64.lit_neg (-1269266792570187 / 2251799813685248) (-1269266792570187 / 2251799813685248) (-53)
        5077067170280748 (by norm_num)).2
  have ha16 : Num.abs (Num.fin (F64.lit (-1269266792570187 / 2251799813685248))) = Num.fin (F64.lit
      (1269266792570187 / 2251799813685248)) :=
    Num.abs_fin_of_neg _ _ (by rw [hv15]; norm_num) (by rw [hv15]; norm_num)
  have hv17 : (F64.lit (1269266792570187 / 2251799813685248)).val = (1269266792570187 /
      2251799813685248) :=
    (F64.lit_pos (1269266792570187 / 2251799813685248) (1269266792570187 / 2251799813685248) (-53)
        5077067170280748 (by norm_num)).2
  simp only [scoreOf, circularity, sampleElongated, Math_PI]
  rw [hv8, if_neg (by norm_num)]
  simp only [ho3, ho6, ho9, ho11, ho14, ha16]

theorem score_sampleSmall :
    ∀ i : ℕ, (scoreOf ⟨i, sampleSmall⟩).score = Num.fin (F64.lit (2136699549970971 /
        9007199254740992)) := by
  intro i
  have hv1 : (F64.lit 4).val = 4 :=
    (F64.lit_pos 4 4 (-50) 4503599627370496 (by norm_num)).2
  have hv2 : (F64.lit (884279719003555 / 281474976710656)).val = (884279719003555 / 281474976710656)
      :=
    (F64.lit_pos (884279719003555 / 281474976710656) (884279719003555 / 281474976710656) (-51)
        7074237752028440 (by norm_num)).2
  have ho3 : Num.mul (Num.fin (F64.lit 4)) (Num.fin (F64.lit (884279719003555 / 281474976710656))) =
      Num.fin (F64.lit (884279719003555 / 70368744177664)) := by
    rw [Num.mul_fin, hv1, hv2]
    exact Num.round_pos _ _ (-49) 7074237752028440 (by norm_num)
  have hv4 : (F64.lit (884279719003555 / 70368744177664)).val = (884279719003555 / 70368744177664)
      :=
    (F64.lit_pos (884279719003555 / 70368744177664) (884279719003555 / 70368744177664) (-49)
        7074237752028440 (by norm_num)).2
  have hv5 : (F64.lit 607).val = 607 :=
    (F64.lit_pos 607 607 (-43) 5339228464480256 (by norm_num)).2
  have ho6 : Num.mul (Num.fin (F64.lit (884279719003555 / 70368744177664))) (Num.fin (F64.lit 607))
      = Num.fin (F64.lit (4193420229962171 / 549755813888)) := by
    rw [Num.mul_fin, hv4, hv5]
    exact Num.round_pos _ _ (-40) 8386840459924342 (by norm_num)
  have hv7 : (F64.lit (4193420229962171 / 549755813888)).val = (4193420229962171 / 549755813888) :=
    (F64.lit_pos (4193420229962171 / 549755813888) (4193420229962171 / 549755813888) (-40)
        8386840459924342 (by norm_num)).2
  have hv8 : (F64.lit 100).val = 100 :=
    (F64.lit_pos 100 100 (-46) 7036874417766400 (by norm_num)).2
  have ho9 : Num.mul (Num.fin (F64.lit 100)) (Num.fin (F64.lit 100)) = Num.fin (F64.lit 10000) := by
    rw [Num.mul_fin, hv8]
    exact Num.round_pos _ _ (-39) 5497558138880000 (by norm_num)
  have hv10 : (F64.lit 10000).val = 10000 :=
    (F64.lit_pos 10000 10000 (-39) 5497558138880000 (by norm_num)).2
  have ho11 : Num.div (Num.fin (F64.lit (4193420229962171 / 549755813888))) (Num.fin (F64.lit
      10000)) = Num.fin (F64.lit (6870499704770021 / 9007199254740992)) := by
    rw [Num.div_fin _ _ (by rw [hv10]; norm_num), hv7, hv10]
    exact Num.round_pos _ _ (-53) 6870499704770021 (by norm_num)
  have hv12 : (F64.lit (6870499704770021 / 9007199254740992)).val = (6870499704770021 /
      9007199254740992) :=
    (F64.lit_pos (6870499704770021 / 9007199254740992) (6870499704770021 / 9007199254740992) (-53)
        6870499704770021 (by norm_num)).2
  have hv13 : (F64.lit 1).val = 1 :=
    (F64.lit_pos 1 1 (-52) 4503599627370496 (by norm_num)).2
  have ho14 : Num.sub (Num.fin (F64.lit (6870499704770021 / 9007199254740992))) (Num.fin (F64.lit
      1)) = Num.fin (F64.lit (-2136699549970971 / 9007199254740992)) := by
    rw [Num.sub_fin, hv12, hv13]
    exact Num.round_neg _ _ (-55) 8546798199883884 (by norm_num)
  have hv15 : (F64.lit (-2136699549970971 / 9007199254740992)).val = (-2136699549970971 /
      9007199254740992) :=
    (F64.lit_neg (-2136699549970971 / 9007199254740992) (-2136699549970971 / 9007199254740992) (-55)
        8546798199883884 (by norm_num)).2
  have ha16 : Num.abs (Num.fin (F64.lit (-2136699549970971 / 9007199254740992))) = Num.fin (F64.lit
      (2136699549970971 / 9007199254740992)) :=
    Num.abs_fin_of_neg _ _ (by rw [hv15]; norm_num) (by rw [hv15]; norm_num)
  have hv17 : (F64.lit (2136699549970971 / 9007199254740992)).val = (2136699549970971 /
      9007199254740992) :=
    (F64.lit_pos (2136699549970971 / 9007199254740992) (2136699549970971 / 9007199254740992) (-55)
        8546798199883884 (by norm_num)).2
  simp only [scoreOf, circularity, sampleSmall, Math_PI]
  rw [hv8, if_neg (by norm_num)]
  simp only [ho3, ho6, ho9, ho11, ho14, ha16]

theorem score_sampleLarge :
    ∀ i : ℕ, (scoreOf ⟨i, sampleLarge⟩).score = Num.fin (F64.lit (534174887492743 /
        2251799813685248)) := by
  intro i
  have hv1 : (F64.lit 4).val = 4 :=
    (F64.lit_pos 4 4 (-50) 4503599627370496 (by norm_num)).2
  have hv2 : (F64.lit (884279719003555 / 281474976710656)).val = (884279719003555 / 281474976710656)
      :=
    (F64.lit_pos (884279719003555 / 281474976710656) (884279719003555 / 281474976710656) (-51)
        7074237752028440 (by norm_num)).2
  have ho3 : Num.mul (Num.fin (F64.lit 4)) (Num.fin (F64.lit (884279719003555 / 281474976710656))) =
      Num.fin (F64.lit (884279719003555 / 70368744177664)) := by
    rw [Num.mul_fin, hv1, hv2]
    exact Num.round_pos _ _ (-49) 7074237752028440 (by norm_num)
  have hv4 : (F64.lit (884279719003555 / 70368744177664)).val = (884279719003555 / 70368744177664)
      :=
    (F64.lit_pos (884279719003555 / 70368744177664) (884279719003555 / 70368744177664) (-49)
        7074237752028440 (by norm_num)).2
  have hv5 : (F64.lit 5463).val = 5463 :=
    (F64.lit_pos 5463 5463 (-40) 6006632022540288 (by norm_num)).2
  have ho6 : Num.mul (Num.fin (F64.lit (884279719003555 / 70368744177664))) (Num.fin (F64.lit 5463))
      = Num.fin (F64.lit (2358798879353721 / 34359738368)) := by
    rw [Num.mul_fin, hv4, hv5]
    exact Num.round_pos _ _ (-36) 4717597758707442 (by norm_num)
  have hv7 : (F64.lit (2358798879353721 / 34359738368)).val = (2358798879353721 / 34359738368) :=
    (F64.lit_pos (2358798879353721 / 34359738368) (2358798879353721 / 34359738368) (-36)
        4717597758707442 (by norm_num)).2
  have hv8 : (F64.lit 300).val = 300 :=
    (F64.lit_pos 300 300 (-44) 5277655813324800 (by norm_num)).2
  have ho9 : Num.mul (Num.fin (F64.lit 300)) (Num.fin (F64.lit 300)) = Num.fin (F64.lit 90000) := by
    rw [Num.mul_fin, hv8]
    exact Num.round_pos _ _ (-36) 6184752906240000 (by norm_num)
  have hv10 : (F64.lit 90000).val = 90000 :=
    (F64.lit_pos 90000 90000 (-36) 6184752906240000 (by norm_num)).2
  have ho11 : Num.div (Num.fin (F64.lit (2358798879353721 / 34359738368))) (Num.fin (F64.lit 90000))
      = Num.fin (F64.lit (1717624926192505 / 2251799813685248)) := by
    rw [Num.div_fin _ _ (by rw [hv10]; norm_num), hv7, hv10]
    exact Num.round_pos _ _ (-53) 6870499704770020 (by norm_num)
  have hv12 : (F64.lit (1717624926192505 / 2251799813685248)).val = (1717624926192505 /
      2251799813685248) :=
    (F64.lit_pos (1717624926192505 / 2251799813685248) (1717624926192505 / 2251799813685248) (-53)
        6870499704770020 (by norm_num)).2
  have hv13 : (F64.lit 1).val = 1 :=
    (F64.lit_pos 1 1 (-52) 4503599627370496 (by norm_num)).2
  have ho14 : Num.sub (Num.fin (F64.lit (1717624926192505 / 2251799813685248))) (Num.fin (F64.lit
      1)) = Num.fin (F64.lit (-534174887492743 / 2251799813685248)) := by
    rw [Num.sub_fin, hv12, hv13]
    exact Num.round_neg _ _ (-55) 8546798199883888 (by norm_num)
  have hv15 : (F64.lit (-534174887492743 / 2251799813685248)).val = (-534174887492743 /
      2251799813685248) :=
    (F64.lit_neg (-534174887492743 / 2251799813685248) (-534174887492743 / 2251799813685248) (-55)
        8546798199883888 (by norm_num)).2
  have ha16 : Num.abs (Num.fin (F64.lit (-534174887492743 / 2251799813685248))) = Num.fin (F64.lit
      (534174887492743 / 2251799813685248)) :=
    Num.abs_fin_of_neg _ _ (by rw [hv15]; norm_num) (by rw [hv15]; norm_num)
  have hv17 : (F64.lit (534174887492743 / 2251799813685248)).val = (534174887492743 /
      2251799813685248) :=
    (F64.lit_pos (534174887492743 / 2251799813685248) (534174887492743 / 2251799813685248) (-55)
        8546798199883888 (by norm_num)).2
  simp only [scoreOf, circularity, sampleLarge, Math_PI]
  rw [hv8, if_neg (by norm_num)]
  simp only [ho3, ho6, ho9, ho11, ho14, ha16]

theorem val_s_coin : (F64.lit (571072779739 / 1125899906842624)).val = (571072779739 /
    1125899906842624) :=
  (F64.lit_pos (571072779739 / 1125899906842624) (571072779739 / 1125899906842624) (-63)
      4678228211621888 (by norm_num)).2

theorem val_s_prod : (F64.lit (2718987919604601 / 9007199254740992)).val = (2718987919604601 /
    9007199254740992) :=
  (F64.lit_pos (2718987919604601 / 9007199254740992) (2718987919604601 / 9007199254740992) (-54)
      5437975839209202 (by norm_num)).2

theorem val_s_elon : (F64.lit (1269266792570187 / 2251799813685248)).val = (1269266792570187 /
    2251799813685248) :=
  (F64.lit_pos (1269266792570187 / 2251799813685248) (1269266792570187 / 2251799813685248) (-53)
      5077067170280748 (by norm_num)).2

theorem val_s_small : (F64.lit (2136699549970971 / 9007199254740992)).val = (2136699549970971 /
    9007199254740992) :=
  (F64.lit_pos (2136699549970971 / 9007199254740992) (2136699549970971 / 9007199254740992) (-55)
      8546798199883884 (by norm_num)).2

theorem val_s_large : (F64.lit (534174887492743 / 2251799813685248)).val = (534174887492743 /
    2251799813685248) :=
  (F64.lit_pos (534174887492743 / 2251799813685248) (534174887492743 / 2251799813685248) (-55)
      8546798199883888 (by norm_num)).2

theorem measure_50_300 :
    Num.div (Num.fin (F64.lit 300)) (Num.div (Num.mul (Num.fin (F64.lit 2)) (Num.fin (F64.lit 50)))
        (Num.fin (F64.lit 24))) = Num.fin (F64.lit 72) := by
  have hv1 : (F64.lit 2).val = 2 :=
    (F64.lit_pos 2 2 (-51) 4503599627370496 (by norm_num)).2
  have hv2 : (F64.lit 50).val = 50 :=
    (F64.lit_pos 50 50 (-47) 7036874417766400 (by norm_num)).2
  have ho3 : Num.mul (Num.fin (F64.lit 2)) (Num.fin (F64.lit 50)) = Num.fin (F64.lit 100) := by
    rw [Num.mul_fin, hv1, hv2]
    exact Num.round_pos _ _ (-46) 7036874417766400 (by norm_num)
  have hv4 : (F64.lit 100).val = 100 :=
    (F64.lit_pos 100 100 (-46) 7036874417766400 (by norm_num)).2
  have hv5 : (F64.lit 24).val = 24 :=
    (F64.lit_pos 24 24 (-48) 6755399441055744 (by norm_num)).2
  have ho6 : Num.div (Num.fin (F64.lit 100)) (Num.fin (F64.lit 24)) = Num.fin (F64.lit
      (4691249611844267 / 1125899906842624)) := by
    rw [Num.div_fin _ _ (by rw [hv5]; norm_num), hv4, hv5]
    exact Num.round_pos _ _ (-50) 4691249611844267 (by norm_num)
  have hv7 : (F64.lit (4691249611844267 / 1125899906842624)).val = (4691249611844267 /
      1125899906842624) :=
    (F64.lit_pos (4691249611844267 / 1125899906842624) (4691249611844267 / 1125899906842624) (-50)
        4691249611844267 (by norm_num)).2
  have hv8 : (F64.lit 300).val = 300 :=
    (F64.lit_pos 300 300 (-44) 5277655813324800 (by norm_num)).2
  have ho9 : Num.div (Num.fin (F64.lit 300)) (Num.fin (F64.lit (4691249611844267 /
      1125899906842624))) = Num.fin (F64.lit 72) := by
    rw [Num.div_fin _ _ (by rw [hv7]; norm_num), hv8, hv7]
    exact Num.round_pos _ _ (-46) 5066549580791808 (by norm_num)
  have hv10 : (F64.lit 72).val = 72 :=
    (F64.lit_pos 72 72 (-46) 5066549580791808 (by norm_num)).2
  simp only [ho3, ho6, ho9]

theorem four_pi :
    Num.mul (Num.fin (F64.lit 4)) (Num.fin Math_PI) = Num.fin (F64.lit (884279719003555 /
        70368744177664)) := by
  have hv1 : (F64.lit 4).val = 4 :=
    (F64.lit_pos 4 4 (-50) 4503599627370496 (by norm_num)).2
  have hv2 : (F64.lit (884279719003555 / 281474976710656)).val = (884279719003555 / 281474976710656)
      :=
    (F64.lit_pos (884279719003555 / 281474976710656) (884279719003555 / 281474976710656) (-51)
        7074237752028440 (by norm_num)).2
  have ho3 : Num.mul (Num.fin (F64.lit 4)) (Num.fin (F64.lit (884279719003555 / 281474976710656))) =
      Num.fin (F64.lit (884279719003555 / 70368744177664)) := by
    rw [Num.mul_fin, hv1, hv2]
    exact Num.round_pos _ _ (-49) 7074237752028440 (by norm_num)
  have hv4 : (F64.lit (884279719003555 / 70368744177664)).val = (884279719003555 / 70368744177664)
      :=
    (F64.lit_pos (884279719003555 / 70368744177664) (884279719003555 / 70368744177664) (-49)
        7074237752028440 (by norm_num)).2
  rw [Math_PI]
  exact ho3

theorem val_four_pi : (F64.lit (884279719003555 / 70368744177664)).val = (884279719003555 /
    70368744177664) :=
  (F64.lit_pos (884279719003555 / 70368744177664) (884279719003555 / 70368744177664) (-49)
      7074237752028440 (by norm_num)).2

/-! ## Lemmas on the measurement -/

theorem fl_double (r : ℚ) (hr : fl r = r) : fl (2 * r) = 2 * r := by
  have pos : ∀ x : ℚ, 0 ≤ x → fl x = x → fl (2 * x) = 2 * x := by
    intro x hx hfx
    obtain ⟨n, hn0, hn, h⟩ := flAbs_repr x hx
    rw [fl_of_nonneg x hx] at hfx
    rw [hfx] at h
    rw [fl_of_nonneg _ (by linarith)]
    apply flAbs_grid_le (2 * x) (ulpExp x + 1) n (by have := ulpExp_ge x; omega) hn0 hn
    rw [two_zpow_split]
    conv_lhs => rw [h]
    norm_num
    ring
  rcases le_total 0 r with h | h
  · exact pos r h hr
  · have := pos (-r) (by linarith) (by rw [fl_neg, hr])
    have h2 : 2 * r = -(2 * -r) := by ring
    rw [h2, fl_neg, this]

theorem F64.lit_two_val : (F64.lit 2).val = 2 := by
  simpa using F64.lit_int 2 (by norm_num)

theorem F64.lit_24_val : (F64.lit 24).val = 24 := by
  simpa using F64.lit_int 24 (by norm_num)

theorem pxPerMM_round (r : F64) (h : |2 * r.val| < 2 ^ 1024) :
    Num.div (Num.mul (Num.fin (F64.lit 2)) (Num.fin r)) (Num.fin COIN_DIAMETER_MM) =
      Num.round (2 * r.val / 24) := by
  have h1 : Num.mul (Num.fin (F64.lit 2)) (Num.fin r) = Num.fin (F64.lit (2 * r.val)) := by
    rw [Num.mul_fin, F64.lit_two_val]
    exact Num.round_of _ _ (fl_double _ r.fl_val) h
  rw [h1, COIN_DIAMETER_MM, Num.div_fin _ _ (by rw [F64.lit_24_val]; norm_num),
    F64.lit_24_val, F64.lit_val _ (fl_double _ r.fl_val) h]

theorem Num.round_ne_nan (x : ℚ) : Num.round x ≠ Num.nan := by
  rcases Num.round_cases x with ⟨d, h, _⟩ | ⟨_, h⟩ | ⟨_, h⟩ <;> rw [h] <;> intro hc <;> cases hc

theorem score_ne_nan (c : Handle) (h1 : 0 < c.shape.contourArea.val)
    (h2 : c.shape.contourArea.val ≤ 2 ^ 1000) : (scoreOf c).score ≠ Num.nan := by
  have hsub : ∀ x : Num, x ≠ Num.nan →
      Num.abs (Num.sub x (Num.fin (F64.lit 1))) ≠ Num.nan := by
    intro x hx
    have habs : ∀ y : Num, y ≠ Num.nan → Num.abs y ≠ Num.nan := by
      intro y hy
      cases y with
      | nan => exact absurd rfl hy
      | ninf => intro hc; cases hc
      | pinf => intro hc; cases hc
      | fin a => exact Num.round_ne_nan _
    apply habs
    cases x with
    | nan => exact absurd rfl hx
    | ninf => intro hc; cases hc
    | pinf => intro hc; cases hc
    | fin a => exact Num.round_ne_nan _
  apply hsub
  unfold circularity
  simp only
  split
  · intro hc
    cases hc
  · rw [four_pi, Num.mul_fin, val_four_pi, Num.mul_fin]
    have hx0 : 0 < (884279719003555 / 70368744177664) * c.shape.contourArea.val := mul_pos (by norm_num) h1
    have hxle : (884279719003555 / 70368744177664) * c.shape.contourArea.val ≤ 2 ^ (1004 : ℤ) := by
      have : ((884279719003555 / 70368744177664) : ℚ) * c.shape.contourArea.val ≤ 16 * 2 ^ 1000 :=
        mul_le_mul (by norm_num) h2 h1.le (by norm_num)
      have h16 : (16 : ℚ) * 2 ^ 1000 = 2 ^ (1004 : ℤ) := by norm_num
      linarith
    have hfin : |fl ((884279719003555 / 70368744177664) * c.shape.contourArea.val)| < 2 ^ 1024 := by
      rw [abs_of_nonneg (fl_nonneg _ hx0.le)]
      have := fl_mono _ _ hxle
      rw [fl_two_zpow 1004 (by norm_num)] at this
      exact lt_of_le_of_lt this (by norm_num)
    have hk : (2 : ℚ) ^ (-1074 : ℤ) ≤ (884279719003555 / 70368744177664) * c.shape.contourArea.val := by
      -- the product of two positive doubles, one of them above 1
      obtain ⟨N, hN⟩ := double_grid_pos _ h1 c.shape.contourArea.fl_val
      have hNpos : 0 < N := by
        by_contra hcon
        have hN0 : (N : ℚ) ≤ 0 := by
          have : N ≤ 0 := by omega
          exact_mod_cast this
        have := mul_nonpos_of_nonpos_of_nonneg hN0 (two_zpow_pos (-1074)).le
        rw [← hN] at this
        linarith
      have hN1 : (1 : ℚ) ≤ N := by
        have : (1 : ℤ) ≤ N := by omega
        exact_mod_cast this
      have hge : (2 : ℚ) ^ (-1074 : ℤ) ≤ c.shape.contourArea.val := by
        calc (2 : ℚ) ^ (-1074 : ℤ) = 1 * 2 ^ (-1074 : ℤ) := (one_mul _).symm
          _ ≤ N * 2 ^ (-1074 : ℤ) := mul_le_mul_of_nonneg_right hN1 (two_zpow_pos _).le
          _ = c.shape.contourArea.val := hN.symm
      have hmul : c.shape.contourArea.val ≤ (884279719003555 / 70368744177664) * c.shape.contourArea.val := by
        have h1le : (1 : ℚ) ≤ (884279719003555 / 70368744177664) := by norm_num
        calc c.shape.contourArea.val = 1 * c.shape.contourArea.val := (one_mul _).symm
          _ ≤ (884279719003555 / 70368744177664) * c.shape.contourArea.val := mul_le_mul_of_nonneg_right h1le h1.le
      exact hge.trans hmul
    have hpos : 0 < fl ((884279719003555 / 70368744177664) * c.shape.contourArea.val) :=
      lt_of_lt_of_le (two_zpow_pos _) (two_zpow_le_fl _ _ (by norm_num) hk)
    have hA : ∃ a : F64, Num.round ((884279719003555 / 70368744177664) * c.shape.contourArea.val) = Num.fin a ∧
        0 < a.val := by
      unfold Num.round
      rw [dif_pos hfin]
      exact ⟨_, rfl, hpos⟩
    obtain ⟨a, ha, ha0⟩ := hA
    rw [ha]
    rcases Num.round_cases (c.shape.arcLength.val * c.shape.arcLength.val)
      with ⟨b, hb, _⟩ | ⟨_, hb⟩ | ⟨hle, hb⟩
    · rw [hb]
      by_cases hb0 : b.val = 0
      · simp [Num.div, hb0, ha0.ne.symm, ha0]
      · rw [Num.div_fin _ _ hb0]
        exact Num.round_ne_nan _
    · rw [hb]
      intro hc
      cases hc
    · rw [hb]
      intro hc
      cases hc

/-! ## Claims on measurement -/

/-- C4: `measurePerimeter` throws "Not enough contours" exactly when fewer than two contours
survive the area filter (none or one); when at least two survive it returns a number, and it
throws nothing else. -/
theorem measurePerimeter_fails_iff (contours : List Contour) :
    (measurePerimeter contours = Except.error Thrown.notEnoughContours ↔
      (validContours contours).length < 2) ∧
    ((∃ v, measurePerimeter contours = Except.ok v) ↔ 2 ≤ (validContours contours).length) ∧
    measurePerimeter contours ≠ Except.error Thrown.typeError := by
  by_cases hlen : (validContours contours).length < 2
  · have h := measurePerimeter_short contours hlen
    refine ⟨⟨fun _ => hlen, fun _ => h⟩, ⟨?_, fun h2 => absurd hlen (not_lt.mpr h2)⟩, ?_⟩
    · rintro ⟨v, hv⟩
      rw [h] at hv
      cases hv
    · rw [h]
      intro hc
      cases hc
  · obtain ⟨coin, object, _, _, _, h⟩ := measurePerimeter_enough contours (not_lt.mp hlen)
    refine ⟨⟨?_, fun h2 => absurd h2 hlen⟩, ⟨fun _ => not_lt.mp hlen, fun _ => ⟨_, h⟩⟩, ?_⟩
    · intro hc
      rw [h] at hc
      cases hc
    · rw [h]
      intro hc
      cases hc

/-- C5 (amended): given at least two qualifying contours, none with an area above `2^1000`,
the contour selected as the coin is a qualifying contour whose computed score, the double
`Math.abs(circularity(c) - 1)`, is smallest among the qualifying contours, and among those
with the same computed score it has the largest area.  For a contour of nonzero perimeter
the computed score is `|4 * Math.PI * area / (perimeter * perimeter) - 1|` evaluated from
left to right in doubles.  A qualifying contour whose computed score is strictly below that
of every other one is the coin. -/
theorem coin_is_most_circular (contours : List Contour)
    (hlen : 2 ≤ (validContours contours).length)
    (hbound : ∀ c ∈ validContours contours, c.shape.contourArea.val ≤ 2 ^ 1000) :
    ∃ coin, selectCoin (validContours contours) = some coin ∧
      coin ∈ validContours contours ∧
      (∀ c ∈ validContours contours,
        Num.lt (scoreOf c).score (scoreOf coin).score = false ∧
        ((scoreOf c).score = (scoreOf coin).score →
          c.shape.contourArea.val ≤ coin.shape.contourArea.val)) ∧
      (∀ c : Handle, c.shape.arcLength.val ≠ 0 →
        (scoreOf c).score =
          Num.abs (Num.sub
            (Num.div
              (Num.mul (Num.mul (Num.fin (F64.lit 4)) (Num.fin Math_PI))
                (Num.fin c.shape.contourArea))
              (Num.mul (Num.fin c.shape.arcLength) (Num.fin c.shape.arcLength)))
            (Num.fin (F64.lit 1)))) ∧
      (∀ circle ∈ validContours contours,
        (∀ c ∈ validContours contours, c ≠ circle →
          Num.lt (scoreOf circle).score (scoreOf c).score = true) → coin = circle) := by
  have hne : validContours contours ≠ [] := by
    intro h
    rw [h] at hlen
    simp at hlen
  have hS : ∀ c ∈ validContours contours, (scoreOf c).score ≠ Num.nan := by
    intro c hc
    have h500 := ((mem_valid contours c).mp hc).2
    rw [MIN_CONTOUR_AREA, F64.lit_500_val] at h500
    exact score_ne_nan c (by linarith) (hbound c hc)
  obtain ⟨coin, hcoin, hmem, hmin⟩ := selectCoin_spec _ hne hS
  refine ⟨coin, hcoin, hmem, hmin, ?_, ?_⟩
  · intro c hc
    simp only [scoreOf, circularity, if_neg hc]
  · intro circle hcm hlt
    by_contra hcc
    have h1 := (hmin circle hcm).1
    rw [hlt coin hmem hcc] at h1
    cases h1

/-- C6: given at least two qualifying contours, the contour that `measurePerimeter` measures
is a qualifying contour other than the one chosen as the coin, and its area is at least the
area of every qualifying contour that is not the coin. -/
theorem object_is_largest_other (contours : List Contour)
    (hlen : 2 ≤ (validContours contours).length) :
    ∃ coin object, selectCoin (validContours contours) = some coin ∧
      selectObject (validContours contours) coin = some object ∧
      measurePerimeter contours = Except.ok (Num.div (Num.fin object.shape.arcLength)
        (Num.div (Num.mul (Num.fin (F64.lit 2)) (Num.fin coin.shape.enclosingRadius))
          (Num.fin COIN_DIAMETER_MM))) ∧
      object ∈ validContours contours ∧
      object.slot ≠ coin.slot ∧ object ≠ coin ∧
      ∀ c ∈ validContours contours, c ≠ coin →
        c.shape.contourArea.val ≤ object.shape.contourArea.val := by
  obtain ⟨coin, object, hcoin, hcmem, hobj, hres⟩ := measurePerimeter_enough contours hlen
  obtain ⟨object2, hobj2, hmem, hslot, hmax⟩ :=
    selectObject_spec _ coin (valid_other contours coin hlen)
  rw [hobj] at hobj2
  cases hobj2
  refine ⟨coin, object, hcoin, hobj, hres, hmem, hslot, fun h => hslot (by rw [h]), ?_⟩
  intro c hc hne2
  exact hmax c hc (fun hs => hne2 (valid_slot_inj contours c coin hc hcmem hs))

/-- C7: when `measurePerimeter` succeeds, its result is the arc length in pixels of the
measured contour divided by `pixelsPerMM = (2 * radius of the enclosing circle of the coin) / 24`,
both divisions in doubles; unless `2 * radius` overflows, `pixelsPerMM` is the double nearest
to the exact quotient `2 * radius / 24`; and for a radius of 50 px and a measured perimeter of
300 px the result is exactly 72 mm. -/
theorem measurePerimeter_value (contours : List Contour) (v : Num)
    (hok : measurePerimeter contours = Except.ok v) :
    ∃ coin object, selectCoin (validContours contours) = some coin ∧
      selectObject (validContours contours) coin = some object ∧
      v = Num.div (Num.fin object.shape.arcLength)
        (Num.div (Num.mul (Num.fin (F64.lit 2)) (Num.fin coin.shape.enclosingRadius))
          (Num.fin (F64.lit 24))) ∧
      (|2 * coin.shape.enclosingRadius.val| < 2 ^ 1024 →
        v = Num.div (Num.fin object.shape.arcLength)
          (Num.round (2 * coin.shape.enclosingRadius.val / 24))) ∧
      (coin.shape.enclosingRadius = F64.lit 50 → object.shape.arcLength = F64.lit 300 →
        v = Num.fin (F64.lit 72)) := by
  have hlen : 2 ≤ (validContours contours).length := by
    by_contra h
    rw [measurePerimeter_short contours (not_le.mp h)] at hok
    cases hok
  obtain ⟨coin, object, hcoin, _, hobj, hres⟩ := measurePerimeter_enough contours hlen
  rw [hres] at hok
  have hv : v = Num.div (Num.fin object.shape.arcLength)
      (Num.div (Num.mul (Num.fin (F64.lit 2)) (Num.fin coin.shape.enclosingRadius))
        (Num.fin (F64.lit 24))) := by
    cases hok
    rfl
  refine ⟨coin, object, hcoin, hobj, hv, ?_, ?_⟩
  · intro hr
    rw [hv, ← pxPerMM_round _ hr]
    rfl
  · intro hr hp
    rw [hv, hr, hp]
    exact measure_50_300

/-- C10 (as stated, refuted): a contour whose area is exactly 500 is dropped by the filter. -/
theorem area_500_dropped :
    sampleBorder.contourArea = F64.lit 500 ∧ validContours [sampleBorder] = [] := by
  refine ⟨rfl, ?_⟩
  simp [validContours, validFrom_cons, validFrom_nil, MIN_CONTOUR_AREA, sampleBorder]

/-- C10 (amended): the noise filter keeps the contour of a slot exactly when its area is
greater than 500; a contour of area 500 or less is dropped. -/
theorem noise_filter (contours : List Contour) (h : Handle) :
    h ∈ validContours contours ↔
      contours[h.slot]? = some h.shape ∧ 500 < h.shape.contourArea.val := by
  rw [mem_valid, MIN_CONTOUR_AREA, F64.lit_500_val]

/-! ## The sample images -/

theorem sample_areas :
    (F64.lit 7850).val = 7850 ∧ (F64.lit 120).val = 120 ∧ (F64.lit 5000).val = 5000 ∧
    (F64.lit 8000).val = 8000 ∧ (F64.lit 607).val = 607 ∧ (F64.lit 5463).val = 5463 :=
  ⟨by simpa using F64.lit_int 7850 (by norm_num), by simpa using F64.lit_int 120 (by norm_num),
    by simpa using F64.lit_int 5000 (by norm_num), by simpa using F64.lit_int 8000 (by norm_num),
    by simpa using F64.lit_int 607 (by norm_num), by simpa using F64.lit_int 5463 (by norm_num)⟩

theorem sample_valid :
    validContours [sampleCoin, sampleNoise, sampleProduct] =
      [⟨0, sampleCoin⟩, ⟨2, sampleProduct⟩] := by
  obtain ⟨h1, h2, h3, _⟩ := sample_areas
  simp only [validContours, validFrom_cons, MIN_CONTOUR_AREA, F64.lit_500_val, sampleCoin,
    sampleNoise, sampleProduct, h1, h2, h3, validFrom_nil]
  norm_num

theorem sample_pair_valid :
    validContours [sampleElongated, sampleCoin] =
      [⟨0, sampleElongated⟩, ⟨1, sampleCoin⟩] := by
  obtain ⟨h1, _, _, h4, _⟩ := sample_areas
  simp only [validContours, validFrom_cons, MIN_CONTOUR_AREA, F64.lit_500_val, sampleCoin,
    sampleElongated, h1, h4, validFrom_nil]
  norm_num

theorem sample_tie_valid :
    validContours [sampleSmall, sampleLarge] = [⟨0, sampleSmall⟩, ⟨1, sampleLarge⟩] := by
  obtain ⟨_, _, _, _, h5, h6⟩ := sample_areas
  simp only [validContours, validFrom_cons, MIN_CONTOUR_AREA, F64.lit_500_val, sampleSmall,
    sampleLarge, h5, h6, validFrom_nil]
  norm_num

theorem sample_short_valid : validContours [sampleNoise, sampleProduct] = [⟨1, sampleProduct⟩] := by
  obtain ⟨_, h2, h3, _⟩ := sample_areas
  simp only [validContours, validFrom_cons, MIN_CONTOUR_AREA, F64.lit_500_val,
    sampleNoise, sampleProduct, h2, h3, validFrom_nil]
  norm_num

theorem sample_coin :
    selectCoin [⟨0, sampleCoin⟩, ⟨2, sampleProduct⟩] = some ⟨0, sampleCoin⟩ := by
  apply selectCoin_strict _ _ (by simp)
  · intro c hc
    simp only [List.mem_cons, List.mem_singleton, List.not_mem_nil, or_false] at hc
    rcases hc with rfl | rfl
    · rw [score_sampleCoin]
      intro h
      cases h
    · rw [score_sampleProduct]
      intro h
      cases h
  · intro c hc hne
    simp only [List.mem_cons, List.mem_singleton, List.not_mem_nil, or_false] at hc
    rcases hc with rfl | rfl
    · exact absurd rfl hne
    · rw [score_sampleCoin, score_sampleProduct, Num.lt_fin, val_s_coin, val_s_prod]
      norm_num

theorem sample_object :
    selectObject [⟨0, sampleCoin⟩, ⟨2, sampleProduct⟩] ⟨0, sampleCoin⟩ =
      some ⟨2, sampleProduct⟩ := by
  obtain ⟨object, hobj, hmem, hslot, _⟩ :=
    selectObject_spec [⟨0, sampleCoin⟩, ⟨2, sampleProduct⟩] ⟨0, sampleCoin⟩
      ⟨⟨2, sampleProduct⟩, by simp, by simp⟩
  rw [hobj]
  simp only [List.mem_cons, List.mem_singleton, List.not_mem_nil, or_false] at hmem
  rcases hmem with rfl | rfl
  · exact absurd rfl hslot
  · rfl

theorem sample_measure :
    measurePerimeter [sampleCoin, sampleNoise, sampleProduct] =
      Except.ok (Num.fin (F64.lit 72)) := by
  rw [measurePerimeter, sample_valid]
  simp only [sample_coin, sample_object]
  have h : (2 : ℕ) ≤ 2 := le_refl 2
  simp only [List.length_cons, List.length_nil, sampleCoin, sampleProduct, COIN_DIAMETER_MM,
    measure_50_300]
  rfl

/-! ## Witnesses and counterexample for the claims on measurement -/

/-- C5 (as stated, refuted): two qualifying contours have exactly the same deficit
`|1 - 4 * Math.PI * area / perimeter^2|`, the second with the larger area, and the coin is the
first one, the smaller: its computed score is one unit in the last place below the other. -/
theorem coin_smaller_at_exact_tie :
    validContours [sampleSmall, sampleLarge] = [⟨0, sampleSmall⟩, ⟨1, sampleLarge⟩] ∧
    |1 - 4 * Math_PI.val * sampleSmall.contourArea.val / sampleSmall.arcLength.val ^ 2| =
      |1 - 4 * Math_PI.val * sampleLarge.contourArea.val / sampleLarge.arcLength.val ^ 2| ∧
    sampleSmall.contourArea.val < sampleLarge.contourArea.val ∧
    selectCoin (validContours [sampleSmall, sampleLarge]) = some ⟨0, sampleSmall⟩ := by
  obtain ⟨_, _, _, _, h5, h6⟩ := sample_areas
  have h100 : (F64.lit 100).val = 100 := F64.lit_hundred_val
  have h300 : (F64.lit 300).val = 300 := val_300
  refine ⟨sample_tie_valid, ?_, ?_, ?_⟩
  · simp only [sampleSmall, sampleLarge, h5, h6, h100, h300]
    congr 1
    ring
  · simp only [sampleSmall, sampleLarge, h5, h6]
    norm_num
  · rw [sample_tie_valid]
    apply selectCoin_strict _ _ (by simp)
    · intro c hc
      simp only [List.mem_cons, List.mem_singleton, List.not_mem_nil, or_false] at hc
      rcases hc with rfl | rfl
      · rw [score_sampleSmall]
        intro h
        cases h
      · rw [score_sampleLarge]
        intro h
        cases h
    · intro c hc hne
      simp only [List.mem_cons, List.mem_singleton, List.not_mem_nil, or_false] at hc
      rcases hc with rfl | rfl
      · exact absurd rfl hne
      · rw [score_sampleSmall, score_sampleLarge, Num.lt_fin, val_s_small, val_s_large]
        norm_num

theorem coin_is_most_circular_witness :
    2 ≤ (validContours [sampleElongated, sampleCoin]).length ∧
    (∀ c ∈ validContours [sampleElongated, sampleCoin],
      c.shape.contourArea.val ≤ 2 ^ 1000) ∧
    selectCoin (validContours [sampleElongated, sampleCoin]) = some ⟨1, sampleCoin⟩ := by
  obtain ⟨h1, _, _, h4, _⟩ := sample_areas
  have hlen : 2 ≤ (validContours [sampleElongated, sampleCoin]).length := by
    rw [sample_pair_valid]
    simp
  have hbound : ∀ c ∈ validContours [sampleElongated, sampleCoin],
      c.shape.contourArea.val ≤ 2 ^ 1000 := by
    intro c hc
    rw [sample_pair_valid] at hc
    simp only [List.mem_cons, List.mem_singleton, List.not_mem_nil, or_false] at hc
    rcases hc with rfl | rfl
    · simp only [sampleElongated, h4]
      norm_num
    · simp only [sampleCoin, h1]
      norm_num
  refine ⟨hlen, hbound, ?_⟩
  obtain ⟨coin, hcoin, _, _, _, huniq⟩ :=
    coin_is_most_circular [sampleElongated, sampleCoin] hlen hbound
  rw [hcoin]
  congr 1
  apply huniq
  · rw [sample_pair_valid]
    simp
  · intro c hc hne
    rw [sample_pair_valid] at hc
    simp only [List.mem_cons, List.mem_singleton, List.not_mem_nil, or_false] at hc
    rcases hc with rfl | rfl
    · rw [score_sampleCoin, score_sampleElongated, Num.lt_fin, val_s_coin, val_s_elon]
      norm_num
    · exact absurd rfl hne

theorem object_is_largest_other_witness :
    2 ≤ (validContours [sampleCoin, sampleNoise, sampleProduct]).length ∧
    ∃ coin object,
      selectCoin (validContours [sampleCoin, sampleNoise, sampleProduct]) = some coin ∧
      selectObject (validContours [sampleCoin, sampleNoise, sampleProduct]) coin = some object ∧
      object.slot ≠ coin.slot ∧
      ∀ c ∈ validContours [sampleCoin, sampleNoise, sampleProduct], c ≠ coin →
        c.shape.contourArea.val ≤ object.shape.contourArea.val := by
  have hlen : 2 ≤ (validContours [sampleCoin, sampleNoise, sampleProduct]).length := by
    rw [sample_valid]
    simp
  obtain ⟨coin, object, h1, h2, _, _, h3, _, h4⟩ :=
    object_is_largest_other [sampleCoin, sampleNoise, sampleProduct] hlen
  exact ⟨hlen, coin, object, h1, h2, h3, h4⟩

theorem measurePerimeter_value_witness :
    measurePerimeter [sampleCoin, sampleNoise, sampleProduct] =
      Except.ok (Num.fin (F64.lit 72)) ∧
    ∃ coin object,
      selectCoin (validContours [sampleCoin, sampleNoise, sampleProduct]) = some coin ∧
      selectObject (validContours [sampleCoin, sampleNoise, sampleProduct]) coin = some object ∧
      Num.fin (F64.lit 72) = Num.div (Num.fin object.shape.arcLength)
        (Num.div (Num.mul (Num.fin (F64.lit 2)) (Num.fin coin.shape.enclosingRadius))
          (Num.fin (F64.lit 24))) := by
  obtain ⟨coin, object, h1, h2, h3, _, _⟩ :=
    measurePerimeter_value [sampleCoin, sampleNoise, sampleProduct] (Num.fin (F64.lit 72))
      sample_measure
  exact ⟨sample_measure, coin, object, h1, h2, h3⟩

/-! ## Claims on the session state -/

/-- C9: `handleImage` changes the stored master only on a successful master capture.  A
product capture never changes it, a capture whose measurement throws leaves it as it was, so
does a capture without a file, and whenever the stored master has changed the capture was a
master capture whose measurement succeeded and the new master is that measurement. -/
theorem master_changes_only_on_master_success (toStr : ℚ → String) (s : Session)
    (capture : Option (List Contour)) (isMaster : Bool) :
    (isMaster = false →
      (handleImage toStr s capture isMaster).masterPerimeter = s.masterPerimeter) ∧
    (∀ contours e, capture = some contours → measurePerimeter contours = Except.error e →
      (handleImage toStr s capture isMaster).masterPerimeter = s.masterPerimeter) ∧
    (capture = none →
      (handleImage toStr s capture isMaster).masterPerimeter = s.masterPerimeter) ∧
    ((handleImage toStr s capture isMaster).masterPerimeter ≠ s.masterPerimeter →
      isMaster = true ∧ ∃ contours v, capture = some contours ∧
        measurePerimeter contours = Except.ok v ∧
        (handleImage toStr s capture isMaster).masterPerimeter = some v) ∧
    (∀ contours v, isMaster = true → capture = some contours →
      measurePerimeter contours = Except.ok v →
      (handleImage toStr s capture isMaster).masterPerimeter = some v) := by
  cases capture with
  | none =>
    refine ⟨fun _ => rfl, fun _ _ h => (by cases h), fun _ => rfl, fun h => absurd rfl h,
      fun _ _ _ h => (by cases h)⟩
  | some contours =>
    cases hm : measurePerimeter contours with
    | error e =>
      have hsame : (handleImage toStr s (some contours) isMaster).masterPerimeter =
          s.masterPerimeter := by
        simp only [handleImage, hm]
      refine ⟨fun _ => hsame, fun _ _ _ _ => hsame, fun _ => hsame, fun h => absurd hsame h, ?_⟩
      intro cs v _ hc hv
      cases hc
      rw [hm] at hv
      cases hv
    | ok v =>
      cases isMaster with
      | false =>
        have hsame : (handleImage toStr s (some contours) false).masterPerimeter =
            s.masterPerimeter := by
          simp only [handleImage, hm, addToHistory]
          rfl
        refine ⟨fun _ => hsame, fun _ _ _ _ => hsame, fun _ => hsame,
          fun h => absurd hsame h, fun _ _ h => (by cases h)⟩
      | true =>
        have hnew : (handleImage toStr s (some contours) true).masterPerimeter = some v := by
          simp only [handleImage, hm]
          rfl
        refine ⟨fun h => (by cases h), ?_, fun h => (by cases h),
          fun _ => ⟨rfl, contours, v, rfl, hm, hnew⟩, ?_⟩
        · intro cs e hc he
          cases hc
          rw [hm] at he
          cases he
        · intro cs w _ hc hw
          cases hc
          rw [hm] at hw
          cases hw
          exact hnew

theorem master_changes_only_on_master_success_witness :
    measurePerimeter [sampleNoise, sampleProduct] = Except.error Thrown.notEnoughContours ∧
    (handleImage (fun _ => "") sampleSession (some [sampleNoise, sampleProduct])
      true).masterPerimeter = some (Num.fin (F64.lit 72)) ∧
    (handleImage (fun _ => "") sampleSession (some [sampleCoin, sampleNoise, sampleProduct])
      false).masterPerimeter = some (Num.fin (F64.lit 72)) := by
  have hfail : measurePerimeter [sampleNoise, sampleProduct] =
      Except.error Thrown.notEnoughContours := by
    apply measurePerimeter_short
    rw [sample_short_valid]
    simp
  exact ⟨hfail,
    (master_changes_only_on_master_success (fun _ => "") sampleSession
      (some [sampleNoise, sampleProduct]) true).2.1 _ _ rfl hfail,
    (master_changes_only_on_master_success (fun _ => "") sampleSession
      (some [sampleCoin, sampleNoise, sampleProduct]) false).1 rfl⟩

end OptiMetric
